import Mathlib

/-!
# Chat engine of the chatbot platform (`backend/routes/chat.js`)

A shallow embedding of the `SmartGPTAI` class and of the parts of the
JavaScript runtime it relies on (strings as UTF-16 code units, the regular
expressions of `detectIntent`, `String.prototype.split/trim/includes`,
`Math.floor(Math.random() * n)` on IEEE-754 doubles), followed by the
properties proved about it.
-/

set_option autoImplicit false

namespace ChatEngine

/-! ## JavaScript strings -/

/-- A JavaScript string is its sequence of UTF-16 code units. -/
abbrev Str := List Nat

/-- UTF-16 encoding of one code point (a surrogate pair above the basic plane). -/
def utf16Char (c : Char) : List Nat :=
  if c.toNat < 65536 then [c.toNat]
  else [55296 + (c.toNat - 65536) / 1024, 56320 + (c.toNat - 65536) % 1024]

/-- The JavaScript string denoted by a source literal. -/
def lit (s : String) : Str :=
  s.toList.foldr (fun c acc => utf16Char c ++ acc) []

/-- The code units matched by the regular-expression class `\s`, which are also
the ones `String.prototype.trim` strips: ECMAScript WhiteSpace and LineTerminator. -/
def isWhiteSpace (u : Nat) : Bool :=
  u == 9 || u == 10 || u == 11 || u == 12 || u == 13 || u == 32 || u == 160 ||
  u == 5760 || (8192 ≤ u && u ≤ 8202) || u == 8232 || u == 8233 || u == 8239 ||
  u == 8287 || u == 12288 || u == 65279

/-- The code units of the class `\w` without the `u` flag: `[A-Za-z0-9_]`. -/
def isWordChar (u : Nat) : Bool :=
  (65 ≤ u && u ≤ 90) || (97 ≤ u && u ≤ 122) || (48 ≤ u && u ≤ 57) || u == 95

/-- Upper-casing of an ASCII code unit. -/
def asciiUpper (u : Nat) : Nat := if 97 ≤ u ∧ u ≤ 122 then u - 32 else u

/-- Lower-casing of an ASCII code unit. -/
def asciiLower (u : Nat) : Nat := if 65 ≤ u ∧ u ≤ 90 then u + 32 else u

/-- The part of the runtime that is a Unicode table: `String.prototype.toLowerCase`.
On strings made of ASCII and white-space code units it lower-cases `A`-`Z` and changes
nothing else. -/
structure Runtime where
  toLowerCase : Str → Str
  toLowerCase_ascii : ∀ s : Str, (∀ u ∈ s, u < 128 ∨ isWhiteSpace u = true) →
    toLowerCase s = s.map asciiLower

/-- A runtime whose `toLowerCase` only knows the ASCII letters. -/
def asciiRuntime : Runtime where
  toLowerCase := fun s => s.map asciiLower
  toLowerCase_ascii := fun _ _ => rfl

/-- `String.prototype.trim`. -/
def trim (s : Str) : Str :=
  ((s.dropWhile isWhiteSpace).reverse.dropWhile isWhiteSpace).reverse

/-- `String.prototype.includes`: `t` occurs in `s` as a contiguous run of code units. -/
def includes : Str → Str → Bool
  | [], t => t.isEmpty
  | u :: s, t => t.isPrefixOf (u :: s) || includes s t

/-- The scan of `split(/\s+/)`: `cur` holds, reversed, the piece under construction
and `inGap` tells that the previous code unit belonged to a separator. -/
def splitWsAux : Bool → Str → Str → List Str
  | _, cur, [] => [cur.reverse]
  | inGap, cur, u :: rest =>
    if isWhiteSpace u then
      if inGap then splitWsAux true [] rest
      else cur.reverse :: splitWsAux true [] rest
    else splitWsAux false (u :: cur) rest

/-- `String.prototype.split` with the separator `/\s+/`: the pieces between maximal
runs of white space, the empty pieces before a leading and after a trailing run
included (the empty string gives one empty piece). -/
def splitWs (s : Str) : List Str := splitWsAux false [] s

/-! ## Regular expressions -/

/-- The regular-expression syntax used by the engine (all patterns carry the `i`
flag and none the `u` flag). -/
inductive Re where
  /-- The empty pattern. -/
  | eps
  /-- An ASCII pattern character, matched ignoring case. -/
  | chr (c : Nat)
  /-- Concatenation. -/
  | seq (a b : Re)
  /-- Alternation `a|b`. -/
  | alt (a b : Re)
  /-- The quantifier `a?`. -/
  | opt (a : Re)
  /-- The assertion `\b`. -/
  | wordB
  /-- The assertion `$` (no `m` flag). -/
  | eoi

/-- A matcher state: the code unit just before the current position, if any, and
the input that remains. -/
abbrev MState := Option Nat × Str

/-- Whether the position described by the state is a word boundary. -/
def atWordBoundary (st : MState) : Bool :=
  (match st.1 with | some u => isWordChar u | none => false) !=
  (match st.2 with | u :: _ => isWordChar u | [] => false)

/-- All states a match of the pattern can end in when started in `st`. An ASCII
pattern character matches a code unit exactly when both are ASCII and agree up to
case: canonicalisation never maps a non-ASCII code unit to an ASCII one. -/
def Re.ends : Re → MState → List MState
  | .eps, st => [st]
  | .chr c, (_, u :: rest) =>
    if u < 128 && asciiUpper u == asciiUpper c then [(some u, rest)] else []
  | .chr _, (_, []) => []
  | .seq a b, st => (a.ends st).foldr (fun st1 acc => b.ends st1 ++ acc) []
  | .alt a b, st => a.ends st ++ b.ends st
  | .opt a, st => a.ends st ++ [st]
  | .wordB, st => if atWordBoundary st then [st] else []
  | .eoi, st => if st.2.isEmpty then [st] else []

/-- Try the pattern at the current position and then at every later one. -/
def Re.testFrom (re : Re) : Option Nat → Str → Bool
  | prev, [] => !(re.ends (prev, [])).isEmpty
  | prev, u :: rest => !(re.ends (prev, u :: rest)).isEmpty || re.testFrom (some u) rest

/-- `RegExp.prototype.test` for a pattern without the `g` and `y` flags. -/
def Re.test (re : Re) (s : Str) : Bool := re.testFrom none s

/-- The pattern matching the characters of a literal word. -/
def Re.word (w : String) : Re :=
  (lit w).foldr (fun c acc => Re.seq (Re.chr c) acc) Re.eps

/-- The alternation of the given patterns. -/
def Re.anyOf : List Re → Re
  | [] => Re.eps
  | [r] => r
  | r :: rs => Re.alt r (Re.anyOf rs)

/-- The pattern `\b(w1|w2|...)\b`. -/
def Re.wholeWord (alts : List Re) : Re :=
  Re.seq Re.wordB (Re.seq (Re.anyOf alts) Re.wordB)


/-! ## Numbers supplied by the runtime -/

/-- A value of `Math.random()`: an IEEE-754 double in `[0, 1)`, that is
`mant / 2 ^ exp` with a significand of at most 53 bits. -/
structure Draw where
  mant : Nat
  exp : Nat
  mant_lt : mant < 2 ^ 53
  exp_le : exp ≤ 1074
  lt_one : mant < 2 ^ exp

/-- Halving loop of `bitIndex`, bounded by `fuel`. -/
def bitIndexAux : Nat → Nat → Nat
  | 0, _ => 0
  | fuel + 1, n => if 2 ≤ n then bitIndexAux fuel (n / 2) + 1 else 0

/-- Position of the leading binary digit of `n` (`0` for `n = 0`). -/
def bitIndex (n : Nat) : Nat := bitIndexAux n n

/-- `Math.floor(Math.random() * n)` for an array length `n`: the exact product
`mant * n / 2 ^ exp` is rounded to 53 significant bits, ties to even, and then
floored. -/
def floorMul (d : Draw) (n : Nat) : Nat :=
  let a := d.mant * n
  let s := bitIndex a - 52
  let q := a / 2 ^ s
  let r := a % 2 ^ s
  let q1 := if 2 ^ s < 2 * r ∨ (2 * r = 2 ^ s ∧ q % 2 = 1) then q + 1 else q
  q1 * 2 ^ s / 2 ^ d.exp

/-- The expression `xs[Math.floor(Math.random() * xs.length)]`. The index is always
within the array, so the value standing for `undefined` is never taken. -/
def pick (xs : List Str) (d : Draw) : Str :=
  xs.getD (floorMul d xs.length) (lit "undefined")

/-- What the runtime supplies during one call of `generateResponse`: the readings
of `new Date()` (milliseconds since the epoch) in the order of the call sites, and
the value of `Math.random()`. -/
structure Env where
  /-- Line 51: `lastInteraction` of a memory entry created by this call. -/
  createdAt : Int
  /-- Line 56: time stamp of the user entry. -/
  userAt : Int
  /-- Line 159: `now` of `generateGreetingResponse`. -/
  now : Int
  /-- The value of `Math.random()` of the selected generator. -/
  random : Draw
  /-- Line 69: time stamp of the assistant entry. -/
  assistantAt : Int
  /-- Line 71: the new `lastInteraction`. -/
  finishedAt : Int

/-! ## Data model -/

/-- The keys of the `patterns` object, and `general`. -/
inductive Category where
  | greeting | technology | coding | project | help | career | complex | general
  deriving DecidableEq, Repr

/-- The object returned by `detectIntent`; the two flags are absent from the
object returned when no pattern matches. -/
structure IntentResult where
  category : Category
  keywords : List Str
  hasQuestion : Option Bool
  isTechnical : Option Bool
  deriving DecidableEq

/-- The `role` of a history entry. -/
inductive Role where
  | user | assistant
  deriving DecidableEq, Repr

/-- One element of `conversationHistory`. -/
structure Entry where
  role : Role
  content : Str
  timestamp : Int
  deriving DecidableEq

/-- The value stored in `this.memory` for one user. -/
structure UserMemory where
  conversationHistory : List Entry
  userPreferences : List (Str × Str)
  lastInteraction : Int
  deriving DecidableEq

/-- The map `this.memory`, from user identifiers to their memory. -/
abbrev Memory := Str → Option UserMemory

/-- `Map.prototype.set`. -/
def Memory.set (m : Memory) (userId : Str) (um : UserMemory) : Memory :=
  fun k => if k = userId then some um else m k

/-- The object returned by `getConversationContext`; `messageCount` is absent for
an empty history. -/
structure Context where
  topics : List Str
  recentFocus : Str
  messageCount : Option Nat
  deriving DecidableEq

/-- A thrown exception. -/
inductive Err where
  /-- `TypeError: this.<name> is not a function`. -/
  | notAFunction (name : String)
  deriving DecidableEq

/-- `Array.prototype.slice(-n)`: the last `n` elements. -/
def sliceLast {α : Type} (n : Nat) (xs : List α) : List α := xs.drop (xs.length - n)

/-! ## String constants of the engine -/

/-- The array of canned greetings of generateGreetingResponse. -/
def greetings : List Str :=
  [lit "Hello! \u00f0\u0178\u2018\u2039 I'm your AI assistant. How can I help you with technology, coding, or this project today?",
   lit "Hi there! \u00f0\u0178\u00a4\u2013 Ready to dive into some tech discussions? What's on your mind?",
   lit "Hey! Great to see you. I'm here to chat about programming, this platform, or anything tech-related!"]

/-- The greeting after more than a day of absence. -/
def welcomeBack : Str :=
  lit "Welcome back! It's been a while. What would you like to explore today?"

/-- The technology response about React. -/
def reactBlurb : Str :=
  lit "React is a fantastic choice! Here's what makes it great:\n- **Component-based architecture** for reusability\n- **Virtual DOM** for optimal performance\n- **Huge ecosystem** with tons of libraries\n- **Great for SPAs** and progressive web apps\n\nWhat specific aspect of React interests you?"

/-- The technology response about Node.js. -/
def nodeBlurb : Str :=
  lit "Node.js is powerful for backend development:\n- **JavaScript everywhere** - same language frontend/backend\n- **Non-blocking I/O** for high scalability\n- **NPM ecosystem** with over 1 million packages\n- **Perfect for real-time applications**\n\nAre you building something specific with Node.js?"

/-- The technology response about MongoDB. -/
def mongoBlurb : Str :=
  lit "MongoDB offers great flexibility:\n- **Document-based storage** - works like JSON\n- **Scalable horizontally** with sharding\n- **Flexible schema** - easy to evolve\n- **Great for agile development**\n\nNeed help with database design or queries?"

/-- The generic technology response. -/
def stackOverview : Str :=
  lit "This project showcases modern full-stack development:\n- **Frontend**: React 18 with Tailwind CSS\n- **Backend**: Node.js + Express.js\n- **Database**: MongoDB with Mongoose\n- **Authentication**: JWT tokens\n- **Real-time features** ready to implement\n\nWhat technology would you like to explore in detail?"

/-- The array of coding tips of generateCodingResponse. -/
def tips : List Str :=
  [lit "\u00f0\u0178\u2019\u00a1 **Tip**: Always write descriptive variable names - it makes code self-documenting!",
   lit "\u00f0\u0178\u0161\u20ac **Best Practice**: Use version control (Git) for even small projects - it's a lifesaver!",
   lit "\u00f0\u0178\u201d\u00a7 **Advice**: Test your code as you write it - small, frequent tests catch issues early.",
   lit "\u00f0\u0178\u201c\u0161 **Learning**: The best way to learn programming is by building real projects!",
   lit "\u00e2\u0161\u00a1 **Performance**: Focus on writing readable code first, optimize bottlenecks later."]

/-- The coding template up to the interpolated tip. -/
def codingIntro : Str :=
  lit "I love talking about coding! "

/-- The coding template after the interpolated tip. -/
def codingOutro : Str :=
  lit "\n\nI can help you with:\n- **Code explanations** and best practices\n- **Debugging strategies** and problem-solving\n- **Technology comparisons** and recommendations\n- **Project architecture** and design patterns\n\nWhat specific coding topic interests you?"

/-- The fixed response of generateProjectResponse. -/
def projectBlock : Str :=
  lit "## \u00f0\u0178\u0161\u20ac About This Project\n\nThis is a **full-stack AI chat platform** demonstrating modern web development:\n\n### \u00e2\u0153\u00a8 Key Features\n- **User Authentication** with JWT tokens\n- **Real-time Chat Interface** with AI responses\n- **Project Management** dashboard\n- **Responsive Design** that works on all devices\n- **Modern UI/UX** with glass morphism effects\n\n### \u00f0\u0178\u203a\u00a0 Technical Stack\n- **Frontend**: React, Tailwind CSS, Context API\n- **Backend**: Node.js, Express.js, MongoDB\n- **Security**: JWT authentication, input validation\n- **Deployment**: Ready for cloud platforms\n\n### \u00f0\u0178\u017d\u00af Purpose\nBuilt to showcase full-stack development skills, clean code architecture, and modern user experience design.\n\nWhat would you like to know about the implementation?"

/-- The fixed response of generateHelpResponse. -/
def helpBlock : Str :=
  lit "## \u00f0\u0178\u00a4\u2013 How I Can Help You\n\nI'm your AI assistant specialized in technology and programming. Here's what I can do:\n\n### \u00f0\u0178\u2019\u00ac **Conversation Topics**\n- **Technology Discussions**: React, Node.js, MongoDB, etc.\n- **Coding Help**: Best practices, debugging, architecture\n- **Project Insights**: Details about this platform's implementation\n- **Career Advice**: Programming skills, portfolio building\n\n### \u00f0\u0178\u017d\u00af **Ask Me About**\n- How specific features were implemented\n- Technology comparisons and recommendations\n- Coding best practices and patterns\n- Career guidance for developers\n\n### \u00f0\u0178\u2019\u00a1 **Pro Tip**\nBe specific with your questions! Instead of \"help with React\", try \"How do React hooks improve component logic?\"\n\nWhat would you like to explore first?"

/-- The fixed response of generateCareerResponse. -/
def careerBlock : Str :=
  lit "## \u00f0\u0178\u2019\u00bc Developer Career Insights\n\n### \u00f0\u0178\u0161\u20ac **Building a Strong Portfolio**\n- **Showcase real projects** (like this one!)\n- **Document your code** with README files\n- **Highlight problem-solving** skills\n- **Demonstrate learning agility**\n\n### \u00f0\u0178\u201c\u0161 **Key Skills for 2024**\n- **Frontend**: React/Vue, TypeScript, responsive design\n- **Backend**: Node.js/Python, APIs, database design\n- **Tools**: Git, Docker, testing frameworks\n- **Soft Skills**: Communication, teamwork, problem-solving\n\n### \u00f0\u0178\u017d\u00af **Interview Preparation**\n- **Practice algorithms** on LeetCode/HackerRank\n- **Build projects** that solve real problems\n- **Understand system design** fundamentals\n- **Prepare your story** - why programming?\n\n### \u00f0\u0178\u0152\u0178 **This Project Demonstrates**\n- Full-stack development capabilities\n- Modern UI/UX design principles\n- Clean code architecture\n- Authentication and security implementation\n\nNeed specific career advice or technical interview tips?"

/-- The comparison block returned for React and Vue. -/
def reactVsVue : Str :=
  lit "## \u00e2\u0161\u00a1 React vs Vue - Key Differences\n\n### **React**\n- **Learning Curve**: Steeper due to JSX and ecosystem complexity\n- **Flexibility**: Unopinionated - choose your own architecture\n- **Ecosystem**: Larger, more third-party libraries\n- **Job Market**: More opportunities, especially in large companies\n\n### **Vue**\n- **Learning Curve**: Gentler, great documentation\n- **Structure**: More opinionated with built-in solutions\n- **Performance**: Slightly smaller bundle size\n- **Adoption**: Growing rapidly, popular for new projects\n\n**Verdict**: Both are excellent! React for large teams/long-term projects, Vue for rapid development."

/-- The prompt of handleComparisonQuery when the pair is not recognised. -/
def specifyPrompt : Str :=
  lit "I'd be happy to compare technologies! Could you specify which two technologies you'd like me to compare? (e.g., React vs Angular, MongoDB vs PostgreSQL)"

/-- The array of opening sentences of generateInDepthResponse. -/
def inDepthOpenings : List Str :=
  [lit "That's an interesting question! Based on my analysis, here are some key insights...",
   lit "Great question! Let me break this down into a comprehensive answer...",
   lit "I've analyzed your query, and here's what I think you'll find valuable...",
   lit "From a technical perspective, here's my detailed take on this..."]

/-- The in-depth template after the interpolated opening: the Key Points list. -/
def keyPoints : Str :=
  lit "\n\n**Key Points:**\n- Consider the specific use case and requirements\n- Evaluate long-term maintainability and scalability\n- Factor in team expertise and learning curve\n- Always prototype and test with real users\n\nWould you like me to dive deeper into any specific aspect?"

/-- The array of prompts of generateEngagingResponse. -/
def engagingPrompts : List Str :=
  [lit "That's fascinating! Tell me more about what you're working on.",
   lit "I'd love to help you explore that further. What specific aspect interests you most?",
   lit "Great topic! Here's what I think might be valuable for you to consider...",
   lit "Interesting perspective! From a technical standpoint, here are some thoughts..."]

/-- The engaging template after the interpolated prompt. -/
def engagingOutro : Str :=
  lit "\n\nI can help you with technical details, implementation strategies, or just have a conversation about technology and programming. What would you like to dive into?"

/-- The fallback returned by the catch block of generateResponse. -/
def apology : Str :=
  lit "I apologize, but I'm having trouble processing your request. Could you please try again?"


/-! ## The engine -/

/-- The regular expressions of `detectIntent`, in the order of the object's keys. -/
def patterns : List (Category × Re) :=
  [(.greeting, Re.wholeWord [.word "hi", .word "hello", .word "hey", .word "greetings",
      .word "good morning", .word "good afternoon", .word "good evening"]),
   (.technology, Re.wholeWord [.word "tech", .word "technology", .word "stack",
      .word "framework", .word "library", .word "tool", .word "software", .word "hardware",
      .word "api", .word "database"]),
   (.coding, Re.wholeWord [.word "code", .word "coding", .word "programming",
      .word "develop", .word "script", .word "algorithm", .word "function", .word "variable",
      .word "bug", .word "debug", .word "optimize"]),
   (.project, Re.wholeWord [.word "project", .word "portfolio", .word "demo",
      .word "showcase", .word "application", .word "app", .word "website", .word "platform"]),
   (.help, Re.wholeWord [.word "help", .word "support", .word "assist", .word "guide",
      .word "how to", .word "what is", .word "explain", .word "teach"]),
   (.career, Re.wholeWord [.word "hire", .word "job", .word "career", .word "interview",
      .word "resume", .word "cv", .word "portfolio", .word "skill", .word "experience",
      .word "internship"]),
   (.complex, Re.wholeWord [.word "why", .word "how", .word "what if", .word "compare",
      .word "difference between",
      .seq (.word "advantage") (.opt (.chr 115)),
      .seq (.word "disadvantage") (.opt (.chr 115)),
      .seq (.word "pro") (.opt (.chr 115)),
      .seq (.word "con") (.opt (.chr 115))])]

/-- The pattern `/\?$/` of `hasQuestion`. -/
def questionAtEnd : Re := .seq (.chr 63) .eoi

/-- The set `commonWords` of `extractKeywords`. -/
def commonWords : List Str :=
  [lit "the", lit "a", lit "an", lit "and", lit "or", lit "but", lit "in", lit "on",
   lit "at", lit "to", lit "for", lit "of", lit "with", lit "by"]

/-- The array `techTerms` of `isTechnicalMessage`. -/
def techTerms : List Str :=
  [lit "javascript", lit "python", lit "react", lit "node", lit "api", lit "database",
   lit "algorithm", lit "function"]

/-- `SmartGPTAI.extractKeywords`. -/
def extractKeywords (rt : Runtime) (message : Str) : List Str :=
  ((splitWs (rt.toLowerCase message)).filter
    (fun word => decide (word.length > 2) && !commonWords.contains word)).take 5

/-- `SmartGPTAI.isTechnicalMessage`. -/
def isTechnicalMessage (message : Str) : Bool :=
  techTerms.any (fun term => includes message term)

/-- The loop of `detectIntent` over the entries of `patterns`: the key of the first
pattern that matches, if any. -/
def firstMatch (message : Str) : List (Category × Re) → Option Category
  | [] => none
  | (category, pattern) :: rest =>
    if pattern.test message then some category else firstMatch message rest

/-- `SmartGPTAI.detectIntent`. -/
def detectIntent (rt : Runtime) (message originalMessage : Str) : IntentResult :=
  match firstMatch message patterns with
  | some category =>
    { category := category
      keywords := extractKeywords rt originalMessage
      hasQuestion := some (questionAtEnd.test originalMessage)
      isTechnical := some (isTechnicalMessage message) }
  | none =>
    { category := .general
      keywords := extractKeywords rt originalMessage
      hasQuestion := none
      isTechnical := none }

/-- `SmartGPTAI.getConversationContext`. -/
def getConversationContext (rt : Runtime) (history : List Entry) : Context :=
  if history.length = 0 then { topics := [], recentFocus := [], messageCount := none }
  else
    let recentMessages := sliceLast 3 history
    let topics := recentMessages.foldl
      (fun acc msg => (extractKeywords rt msg.content).foldl
        (fun acc1 keyword => if acc1.contains keyword then acc1 else acc1 ++ [keyword]) acc) []
    { topics := topics
      recentFocus := match recentMessages.getLast? with
        | some msg => msg.content
        | none => []
      messageCount := some history.length }

/-- `SmartGPTAI.generateGreetingResponse`. The elapsed time is compared exactly:
the rounding of the division to a double is monotone and `24` is a double, so the
comparison of the rounded quotient with `24` has the same outcome. -/
def generateGreetingResponse (userMemory : UserMemory) (now : Int) (d : Draw) : Str :=
  let hoursSinceLast : ℚ := ((now - userMemory.lastInteraction : Int) : ℚ) / (1000 * 60 * 60)
  if hoursSinceLast > 24 then welcomeBack
  else pick greetings d

/-- `SmartGPTAI.generateTechResponse`. -/
def generateTechResponse (intent : IntentResult) (_context : Context) : Str :=
  let keywords := intent.keywords
  if keywords.contains (lit "react") || keywords.contains (lit "frontend") then reactBlurb
  else if keywords.contains (lit "node") || keywords.contains (lit "backend") then nodeBlurb
  else if keywords.contains (lit "mongodb") || keywords.contains (lit "database") then mongoBlurb
  else stackOverview

/-- `SmartGPTAI.generateCodingResponse`. -/
def generateCodingResponse (_intent : IntentResult) (_context : Context) (d : Draw) : Str :=
  let randomTip := pick tips d
  codingIntro ++ randomTip ++ codingOutro

/-- `SmartGPTAI.generateProjectResponse`. -/
def generateProjectResponse (_intent : IntentResult) : Str := projectBlock

/-- `SmartGPTAI.generateHelpResponse`. -/
def generateHelpResponse : Str := helpBlock

/-- `SmartGPTAI.generateCareerResponse`. -/
def generateCareerResponse (_intent : IntentResult) : Str := careerBlock

/-- `SmartGPTAI.handleComparisonQuery`. -/
def handleComparisonQuery (message : Str) : Str :=
  if includes message (lit "react") && includes message (lit "vue") then reactVsVue
  else specifyPrompt

/-- The call `this.handleExplanationQuery(message)`: the class defines no method of
this name, so the call throws a `TypeError`. -/
def handleExplanationQuery (_message : Str) : Except Err Str :=
  .error (.notAFunction "handleExplanationQuery")

/-- `SmartGPTAI.generateInDepthResponse`. -/
def generateInDepthResponse (_message : Str) (_context : Context) (d : Draw) : Str :=
  let randomResponse := pick inDepthOpenings d
  randomResponse ++ keyPoints

/-- `SmartGPTAI.generateEngagingResponse`. -/
def generateEngagingResponse (_message : Str) (_context : Context) (d : Draw) : Str :=
  let randomPrompt := pick engagingPrompts d
  randomPrompt ++ engagingOutro

/-- `SmartGPTAI.handleComplexQuery`. -/
def handleComplexQuery (message : Str) (context : Context) (d : Draw) : Except Err Str :=
  if includes message (lit "difference between") || includes message (lit "compare") then
    .ok (handleComparisonQuery message)
  else if includes message (lit "why") || includes message (lit "benefit") then
    handleExplanationQuery message
  else .ok (generateInDepthResponse message context d)

/-- `SmartGPTAI.analyzeAndRespond`. -/
def analyzeAndRespond (rt : Runtime) (env : Env) (lowerMessage originalMessage : Str)
    (userMemory : UserMemory) : Except Err Str :=
  let context := getConversationContext rt userMemory.conversationHistory
  let intent := detectIntent rt lowerMessage originalMessage
  match intent.category with
  | .greeting => .ok (generateGreetingResponse userMemory env.now env.random)
  | .technology => .ok (generateTechResponse intent context)
  | .coding => .ok (generateCodingResponse intent context env.random)
  | .project => .ok (generateProjectResponse intent)
  | .help => .ok generateHelpResponse
  | .career => .ok (generateCareerResponse intent)
  | .complex => handleComplexQuery originalMessage context env.random
  | .general => .ok (generateEngagingResponse originalMessage context env.random)

/-- The memory entry of the user once lines 47-55 have run. -/
def userMemoryOf (memory : Memory) (env : Env) (userId : Str) : UserMemory :=
  match memory userId with
  | some userMemory => userMemory
  | none => { conversationHistory := [], userPreferences := [], lastInteraction := env.createdAt }

/-- Lines 56-61: push the user entry and keep the last 10 entries. -/
def pushUser (env : Env) (message : Str) (userMemory : UserMemory) : UserMemory :=
  let history := userMemory.conversationHistory ++
    [{ role := .user, content := message, timestamp := env.userAt }]
  { userMemory with
    conversationHistory := if history.length > 10 then sliceLast 10 history else history }

/-- `SmartGPTAI.generateResponse` for a string `message`: the returned string and
the memory map the call leaves behind. -/
def generateResponse (rt : Runtime) (memory : Memory) (env : Env) (message userId : Str) :
    Str × Memory :=
  let lowerMessage := trim (rt.toLowerCase message)
  let userMemory := pushUser env message (userMemoryOf memory env userId)
  match analyzeAndRespond rt env lowerMessage message userMemory with
  | .ok response =>
    (response, memory.set userId
      { userMemory with
        conversationHistory := userMemory.conversationHistory ++
          [{ role := .assistant, content := response, timestamp := env.assistantAt }]
        lastInteraction := env.finishedAt })
  | .error _ => (apology, memory.set userId userMemory)

/-! ## Concrete inputs -/

/-- The message of the priority example. -/
def greetingThenComparison : Str := lit "hi, what's the difference between react and vue?"

/-- The message of the comparison scenario. -/
def reactVueQuestion : Str := lit "What's the difference between react and vue?"

/-- A draw: the double `0.75`. -/
def drawThreeQuarters : Draw := ⟨3, 2, by norm_num, by norm_num, by norm_num⟩

/-- A memory entry last touched at time `0`. -/
def idleMemory : UserMemory :=
  { conversationHistory := [], userPreferences := [], lastInteraction := 0 }

/-- An intent whose keywords name both React and Node. -/
def reactNodeIntent : IntentResult :=
  { category := .technology, keywords := [lit "node", lit "and", lit "react"],
    hasQuestion := some false, isTechnical := some true }

/-- The context of an empty history. -/
def emptyContext : Context := { topics := [], recentFocus := [], messageCount := none }


/-! ## The keyword extractor as the specification words it -/

/-- The stop-word set of the specification. -/
def stopWords : List Str :=
  ["the", "a", "an", "and", "or", "but", "in", "on", "at", "to", "for", "of", "with",
   "by"].map lit

/-- The specification of the keyword extractor: lower-case the text, split it at white
space, discard the tokens of length at most 2 and the stop words, keep the first 5. -/
def specKeywords (rt : Runtime) (text : Str) : List Str :=
  (((rt.toLowerCase text).splitOnP isWhiteSpace).filter
    (fun token => decide (2 < token.length ∧ token ∉ stopWords))).take 5

/-- A sentence with stop words, short tokens and more than five keywords. -/
def foxSentence : Str := lit " The quick brown fox jumps over the lazy dog again and again"


/-! ## Call sequences and the recorded exchange -/

/-- The memory left by a sequence of `generateResponse` calls of one user. -/
def exchanges (rt : Runtime) (env : Env) (userId : Str) : Memory → List Str → Memory
  | memory, [] => memory
  | memory, message :: rest =>
    exchanges rt env userId (generateResponse rt memory env message userId).2 rest

/-- The number of history entries stored for a user (`0` without an entry). -/
def historyLength (memory : Memory) (userId : Str) : Nat :=
  match memory userId with
  | some userMemory => userMemory.conversationHistory.length
  | none => 0

/-- The state a recorded exchange leaves: the history of the user ends with the user
entry for `message` followed by the assistant entry for `response`, and
`lastInteraction` is the clock reading taken at the end of the call. -/
def RecordsExchange (memory : Memory) (env : Env) (userId message response : Str) : Prop :=
  ∃ userMemory, memory userId = some userMemory ∧
    (∃ earlier, userMemory.conversationHistory = earlier ++
      [{ role := .user, content := message, timestamp := env.userAt },
       { role := .assistant, content := response, timestamp := env.assistantAt }]) ∧
    userMemory.lastInteraction = env.finishedAt

/-- The map `this.memory` of a fresh engine. -/
def emptyMemory : Memory := fun _ => none

/-- The clock readings 1 to 5 in the order of the call sites, and the draw `0.75`. -/
def sampleEnv : Env :=
  { createdAt := 1, userAt := 2, now := 3, random := drawThreeQuarters,
    assistantAt := 4, finishedAt := 5 }

/-- A question starting with "why". -/
def whyQuestion : Str := lit "why is the sky blue"

/-- A user identifier. -/
def someUser : Str := lit "64f0c0ffee"

/-- A question about the project. -/
def projectQuestion : Str := lit "Tell me about this project"


/-! ## Joining keywords -/

/-- `Array.prototype.join(' ')` on an array of strings. -/
def joinSpace : List Str → Str
  | [] => []
  | [token] => token
  | token :: rest => token ++ 32 :: joinSpace rest

/-- A text with an upper-case word, a stop word and trailing white space. -/
def reactText : Str := lit "Learning  the React hooks today \n"


/-- A message that matches no pattern and ends with a question mark. -/
def xyzQuestion : Str := lit "xyz?"


/-! ## The memory object threaded through the response generator

The functions that are handed the memory object of the user (or its history array),
translated once more with that object passed in and out, so that a write to it could be
expressed. -/

/-- `SmartGPTAI.getConversationContext`, with the memory object that owns the history
array it is handed. -/
def Threaded.getConversationContext (rt : Runtime) (userMemory : UserMemory) :
    Context × UserMemory :=
  let history := userMemory.conversationHistory
  if history.length = 0 then
    ({ topics := [], recentFocus := [], messageCount := none }, userMemory)
  else
    let recentMessages := sliceLast 3 history
    let topics := recentMessages.foldl
      (fun acc msg => (extractKeywords rt msg.content).foldl
        (fun acc1 keyword => if acc1.contains keyword then acc1 else acc1 ++ [keyword]) acc) []
    ({ topics := topics
       recentFocus := match recentMessages.getLast? with
         | some msg => msg.content
         | none => []
       messageCount := some history.length }, userMemory)

/-- `SmartGPTAI.generateGreetingResponse`, with the memory object it is handed. -/
def Threaded.generateGreetingResponse (userMemory : UserMemory) (now : Int) (d : Draw) :
    Str × UserMemory :=
  let lastInteraction := userMemory.lastInteraction
  let hoursSinceLast : ℚ := ((now - lastInteraction : Int) : ℚ) / (1000 * 60 * 60)
  if hoursSinceLast > 24 then (welcomeBack, userMemory)
  else (pick greetings d, userMemory)

/-- `SmartGPTAI.analyzeAndRespond`, with the memory object it is handed: the result, or
the exception, and the object afterwards. -/
def Threaded.analyzeAndRespond (rt : Runtime) (env : Env) (lowerMessage originalMessage : Str)
    (userMemory : UserMemory) : Except Err Str × UserMemory :=
  let (context, userMemory1) := Threaded.getConversationContext rt userMemory
  let intent := detectIntent rt lowerMessage originalMessage
  match intent.category with
  | .greeting =>
    let (response, userMemory2) :=
      Threaded.generateGreetingResponse userMemory1 env.now env.random
    (.ok response, userMemory2)
  | .technology => (.ok (generateTechResponse intent context), userMemory1)
  | .coding => (.ok (generateCodingResponse intent context env.random), userMemory1)
  | .project => (.ok (generateProjectResponse intent), userMemory1)
  | .help => (.ok generateHelpResponse, userMemory1)
  | .career => (.ok (generateCareerResponse intent), userMemory1)
  | .complex => (handleComplexQuery originalMessage context env.random, userMemory1)
  | .general => (.ok (generateEngagingResponse originalMessage context env.random), userMemory1)

/-- A memory entry with two history entries and a preference. -/
def busyMemory : UserMemory :=
  { conversationHistory :=
      [{ role := .user, content := lit "compare react and vue", timestamp := 10 },
       { role := .assistant, content := reactVsVue, timestamp := 11 }]
    userPreferences := [(lit "theme", lit "dark")]
    lastInteraction := 12 }


/-! ## The chat endpoint `POST /:projectId` -/

/-- A value of the request body, as far as the validation tells values apart. -/
inductive JsValue where
  | undefined
  | null
  | bool (b : Bool)
  | number (x : ℚ)
  | str (s : Str)
  | object

/-- `!v`: the falsy values are `undefined`, `null`, `false`, `0` and the empty string. -/
def JsValue.falsy : JsValue → Bool
  | .undefined => true
  | .null => true
  | .bool b => !b
  | .number x => decide (x = 0)
  | .str s => s.isEmpty
  | .object => false

/-- `typeof v === 'string'`. -/
def JsValue.isString : JsValue → Bool
  | .str _ => true
  | _ => false

/-- An exception caught by the handler: its `name` and `message`. -/
structure Thrown where
  name : Str
  message : Str

/-- The properties of a message object: of the object literal the handler writes and of
the element of `messages` the document holds. `none` is a property the object does not
have. The schema of `models/Project.js` declares `role`, `content` and `timestamp` for an
element of `messages`; the `_id` the document adds is left out, nothing reads it. -/
structure ChatMessage where
  role : Role
  content : Str
  timestamp : Int
  messageId : Option Str
  length : Option Nat
  responseTime : Option Int
  deriving DecidableEq

/-- The properties of a session object: of the object literal the handler writes and of
the element of `project.chatSessions`. The schema of `models/Project.js` declares
`title`, `messages` and `createdAt`; `messageCount` and `updatedAt` are no paths of the
schema, an assignment sets them on the object in memory only. -/
structure ChatSession where
  title : Str
  messages : Option (List ChatMessage)
  createdAt : Int
  messageCount : Option Nat
  updatedAt : Option Int
  deriving DecidableEq

/-- The part of a project document the handler reads and writes. -/
structure Project where
  chatSessions : Option (List ChatSession)
  deriving DecidableEq

/-- The project store: `Project.findOne({ _id, userId })` and `project.save()`. -/
structure Store where
  findOne : Str → Str → Except Thrown (Option Project)
  save : Project → Except Thrown Unit

/-- The request as the handler reads it: `req.body.message`, `req.user._id.toString()`
and `req.params.projectId`. -/
structure ChatRequest where
  message : JsValue
  userId : Str
  projectId : Str

/-- What the runtime supplies to one run of the handler: the values for the engine, the
texts of `toLocaleDateString()` and `toLocaleTimeString()`, the readings of `new Date()`
and `Date.now()` in the order of the call sites, and whether `NODE_ENV` is
`development`. -/
structure HandlerEnv where
  engine : Env
  localeDate : Str
  localeTime : Str
  sessionCreatedAt : Int
  userStamp : Int
  userIdStamp : Int
  assistantStamp : Int
  assistantIdStamp : Int
  responseTime : Int
  updatedAt : Int
  replyId : Int
  replyStamp : Int
  development : Bool

/-- The fields of a successful reply. -/
structure ReplyPayload where
  response : Str
  messageId : Str
  timestamp : Int
  responseLength : Nat
  conversationDepth : Nat
  deriving DecidableEq

/-- The HTTP reply: status and the fields of the JSON body. -/
structure Reply where
  status : Nat
  success : Bool
  message : Option Str
  error : Option Str
  payload : Option ReplyPayload
  deriving DecidableEq

/-- The decimal text of an integer time value, as `${Date.now()}` renders it. -/
def decimal (t : Int) : Str := lit (toString t)

/-- `res.status(status).json({ success: false, message })`. -/
def rejected (status : Nat) (message : Str) : Reply :=
  { status := status, success := false, message := some message, error := none,
    payload := none }

/-- The message of the first validation failure. -/
def blankMessageText : Str :=
  lit "Please enter a meaningful message to start the conversation"

/-- The message of the second validation failure. -/
def tooLongText : Str := lit "Message is too long (maximum 1000 characters)"

/-- The message of the 404 reply. -/
def notFoundText : Str := lit "Project not found or access denied"

/-- The message of the reply to a `CastError`. -/
def invalidIdText : Str := lit "Invalid project ID format"

/-- The message of the 500 reply. -/
def unavailableText : Str :=
  lit "AI service temporarily unavailable. Please try again in a moment."

/-- The `catch` block of the handler. -/
def failureReply (henv : HandlerEnv) (error : Thrown) : Reply :=
  if error.name = lit "CastError" then rejected 400 invalidIdText
  else
    { status := 500, success := false, message := some unavailableText
      error := if henv.development then some error.message else none
      payload := none }

/-- The first validation test:
`!message || typeof message !== 'string' || message.trim().length === 0`. -/
def failsMeaningful (message : JsValue) : Bool :=
  message.falsy || !message.isString ||
    (match message with
      | .str s => (trim s).length == 0
      | _ => false)

/-- The condition of lines 454-455; reading `length` of a missing `messages` throws. -/
def needsNewSession (sessions : List ChatSession) : Except Thrown Bool :=
  match sessions.getLast? with
  | none => .ok true
  | some lastSession =>
    match lastSession.messages with
    | none => .error
        { name := lit "TypeError"
          message := lit "Cannot read properties of undefined (reading 'length')" }
    | some messages => .ok (decide (messages.length ≥ 100))

/-- The element of `messages` the document keeps of a message object: `projectSchema`
(`models/Project.js`, lines 56-63) declares `role`, `content` and `timestamp`, and the
document drops every other property of the object. -/
def castMessage (messageObject : ChatMessage) : ChatMessage :=
  { role := messageObject.role, content := messageObject.content
    timestamp := messageObject.timestamp
    messageId := none, length := none, responseTime := none }

/-- The element of `chatSessions` the document keeps of a session object: `projectSchema`
(`models/Project.js`, lines 54-68) declares `title`, `messages` and `createdAt`;
`messages` is an array of the document in any case. -/
def castSession (sessionObject : ChatSession) : ChatSession :=
  { title := sessionObject.title
    messages := some ((sessionObject.messages.getD []).map castMessage)
    createdAt := sessionObject.createdAt
    messageCount := none, updatedAt := none }

/-- The project document as `project.save()` stores it and the next `Project.findOne`
returns it: the declared paths alone. -/
def castProject (project : Project) : Project :=
  { chatSessions := some ((project.chatSessions.getD []).map castSession) }

/-- The object literal of lines 457-462. -/
def sessionObject (henv : HandlerEnv) : ChatSession :=
  { title := lit "AI Chat - " ++ henv.localeDate ++ lit " " ++ henv.localeTime
    messages := some []
    createdAt := henv.sessionCreatedAt
    messageCount := some 0
    updatedAt := none }

/-- The session `project.chatSessions.push` adds at lines 457-462: the element the
document keeps of the object literal. -/
def newSession (henv : HandlerEnv) : ChatSession := castSession (sessionObject henv)

/-- The object literal of lines 470-476. -/
def userMessageObject (henv : HandlerEnv) (message : Str) : ChatMessage :=
  { role := .user, content := message, timestamp := henv.userStamp
    messageId := some (lit "user_" ++ decimal henv.userIdStamp)
    length := some message.length
    responseTime := none }

/-- The object literal of lines 477-484. -/
def assistantMessageObject (henv : HandlerEnv) (aiResponse : Str) : ChatMessage :=
  { role := .assistant, content := aiResponse, timestamp := henv.assistantStamp
    messageId := some (lit "ai_" ++ decimal henv.assistantIdStamp)
    length := some aiResponse.length
    responseTime := some henv.responseTime }

/-- The user message `currentSession.messages.push` adds: the element the document keeps
of the object literal of lines 470-476. -/
def userChatMessage (henv : HandlerEnv) (message : Str) : ChatMessage :=
  castMessage (userMessageObject henv message)

/-- The assistant message `currentSession.messages.push` adds: the element the document
keeps of the object literal of lines 477-484. -/
def assistantChatMessage (henv : HandlerEnv) (aiResponse : Str) : ChatMessage :=
  castMessage (assistantMessageObject henv aiResponse)

/-- Lines 465-493 on the last session: push the pair, assign `messageCount` and
`updatedAt` (properties of the object in memory, no paths of the schema), keep the last
100 messages. -/
def appendExchange (henv : HandlerEnv) (message aiResponse : Str)
    (currentSession : ChatSession) : ChatSession :=
  let messages := currentSession.messages.getD [] ++
    [userChatMessage henv message, assistantChatMessage henv aiResponse]
  { currentSession with
    messages := some (if messages.length > 100 then sliceLast 100 messages else messages)
    messageCount := some messages.length
    updatedAt := some henv.updatedAt }

/-- Lines 451-493 of the handler: the session management, on the project document. -/
def recordExchange (henv : HandlerEnv) (project : Project) (message aiResponse : Str) :
    Except Thrown Project :=
  let sessions := project.chatSessions.getD []
  match needsNewSession sessions with
  | .error e => .error e
  | .ok fresh =>
    let sessions1 := if fresh then sessions ++ [newSession henv] else sessions
    match sessions1.getLast? with
    | none => .error
        { name := lit "TypeError"
          message := lit "Cannot read properties of undefined (reading 'messages')" }
    | some currentSession =>
      .ok { project with
        chatSessions := some
          (sessions1.dropLast ++ [appendExchange henv message aiResponse currentSession]) }

/-- `smartAI.memory.get(userId)?.conversationHistory.length || 1`. -/
def conversationDepth (memory : Memory) (userId : Str) : Nat :=
  match memory userId with
  | some userMemory =>
    if userMemory.conversationHistory.length = 0 then 1
    else userMemory.conversationHistory.length
  | none => 1

/-- The handler of `POST /:projectId` after authentication: the reply, the memory of the
engine afterwards, and the project document the handler holds when `project.save()` has
succeeded, if it has; what the store then holds of it is `castProject`. -/
def chatPost (rt : Runtime) (henv : HandlerEnv) (store : Store) (memory : Memory)
    (req : ChatRequest) : Reply × Memory × Option Project :=
  if failsMeaningful req.message then (rejected 400 blankMessageText, memory, none)
  else
    match req.message with
    | .str message =>
      if message.length > 1000 then (rejected 400 tooLongText, memory, none)
      else
        match store.findOne req.projectId req.userId with
        | .error e => (failureReply henv e, memory, none)
        | .ok none => (rejected 404 notFoundText, memory, none)
        | .ok (some project) =>
          let (aiResponse, memory1) :=
            generateResponse rt memory henv.engine message req.userId
          match recordExchange henv project message aiResponse with
          | .error e => (failureReply henv e, memory1, none)
          | .ok project1 =>
            match store.save project1 with
            | .error e => (failureReply henv e, memory1, none)
            | .ok _ =>
              ({ status := 200, success := true, message := none, error := none
                 payload := some
                   { response := aiResponse
                     messageId := decimal henv.replyId
                     timestamp := henv.replyStamp
                     responseLength := aiResponse.length
                     conversationDepth := conversationDepth memory1 req.userId } },
               memory1, some project1)
    | _ => (rejected 400 blankMessageText, memory, none)

/-- A store with one project without sessions, whatever the identifiers. -/
def sampleStore : Store :=
  { findOne := fun _ _ => .ok (some { chatSessions := none })
    save := fun _ => .ok () }

/-- Clock readings 1 to 9 and the texts of a date and a time. -/
def sampleHandlerEnv : HandlerEnv :=
  { engine := sampleEnv, localeDate := lit "11/4/2026", localeTime := lit "9:00:00 PM"
    sessionCreatedAt := 1, userStamp := 2, userIdStamp := 3, assistantStamp := 4
    assistantIdStamp := 5, responseTime := 6, updatedAt := 7, replyId := 8, replyStamp := 9
    development := false }

/-- A request carrying the given message. -/
def requestWith (message : JsValue) : ChatRequest :=
  { message := message, userId := someUser, projectId := lit "64f0c0ffee0123456789abcd" }

/-- A message of `n` letters `a`. -/
def lettersA (n : Nat) : Str := List.replicate n 97

/-- A chat message standing for an older entry of a session. -/
def olderMessage : ChatMessage :=
  { role := .user, content := lit "earlier", timestamp := 0, messageId := none
    length := none, responseTime := none }

/-- A stored session holding `n` older messages. -/
def sessionOf (n : Nat) : ChatSession :=
  { title := lit "AI Chat", messages := some (List.replicate n olderMessage), createdAt := 0
    messageCount := none, updatedAt := none }


/-- The project document after the session management, or the document as it was when
the session management throws. -/
def recorded (henv : HandlerEnv) (project : Project) (message aiResponse : Str) : Project :=
  match recordExchange henv project message aiResponse with
  | .ok project1 => project1
  | .error _ => project

/-- A project whose only session is full. -/
def fullProject : Project := { chatSessions := some [sessionOf 100] }

/-- A project with an older session and an active session of 99 messages. -/
def nearlyFullProject : Project := { chatSessions := some [sessionOf 100, sessionOf 99] }


/-! ## The responses of the engine -/

/-- Every response a generator other than the comparison handler can produce. -/
def plainResponses : List Str :=
  welcomeBack :: greetings ++ [reactBlurb, nodeBlurb, mongoBlurb, stackOverview] ++
    tips.map (fun tip => codingIntro ++ tip ++ codingOutro) ++
    [projectBlock, helpBlock, careerBlock] ++
    inDepthOpenings.map (fun opening => opening ++ keyPoints) ++
    engagingPrompts.map (fun prompt => prompt ++ engagingOutro)

/-- Every response a category generator can produce. -/
def regularResponses : List Str := plainResponses ++ [reactVsVue, specifyPrompt]

/-- The condition under which `handleComplexQuery` reaches the call of the undefined
method: the message is classified complex and its original text contains neither
"difference between" nor "compare" but contains "why" or "benefit". -/
def reachesExplanation (rt : Runtime) (message : Str) : Prop :=
  (detectIntent rt (trim (rt.toLowerCase message)) message).category = .complex ∧
  includes message (lit "difference between") = false ∧
  includes message (lit "compare") = false ∧
  (includes message (lit "why") = true ∨ includes message (lit "benefit") = true)

/-- A comparison request with a capital first letter. -/
def capitalCompare : Str := lit "Compare React and Vue"

/-- A comparison request naming the frameworks with capitals. -/
def lowerCompare : Str := lit "compare React and Vue"

/-- Another user identifier. -/
def otherUser : Str := lit "64f0decade"


/-! ## Sequences of calls of one user -/

/-- The history stored for a user (empty without an entry). -/
def historyOf (memory : Memory) (userId : Str) : List Entry :=
  match memory userId with
  | some userMemory => userMemory.conversationHistory
  | none => []

/-- The entries a `generateResponse` call appends for the user, in order: the user entry
and, when the response generation succeeds, the assistant entry. -/
def appendedBy (rt : Runtime) (memory : Memory) (env : Env) (message userId : Str) :
    List Entry :=
  { role := .user, content := message, timestamp := env.userAt } ::
    (match analyzeAndRespond rt env (trim (rt.toLowerCase message)) message
        (pushUser env message (userMemoryOf memory env userId)) with
      | .ok response => [{ role := .assistant, content := response, timestamp := env.assistantAt }]
      | .error _ => [])

/-- The memory after a sequence of calls of one user, each with its own clock readings,
draw and message. -/
def callSequence (rt : Runtime) (userId : Str) : Memory → List (Env × Str) → Memory
  | memory, [] => memory
  | memory, (env, message) :: rest =>
    callSequence rt userId (generateResponse rt memory env message userId).2 rest

/-- The chronological log of the entries appended for the user by a sequence of calls. -/
def chronologicalLog (rt : Runtime) (userId : Str) : Memory → List (Env × Str) → List Entry
  | _, [] => []
  | memory, (env, message) :: rest =>
    appendedBy rt memory env message userId ++
      chronologicalLog rt userId (generateResponse rt memory env message userId).2 rest

/-- No call of the sequence ends in the fallback. -/
def allSucceed (rt : Runtime) (userId : Str) : Memory → List (Env × Str) → Prop
  | _, [] => True
  | memory, (env, message) :: rest =>
    (∃ response, analyzeAndRespond rt env (trim (rt.toLowerCase message)) message
      (pushUser env message (userMemoryOf memory env userId)) = .ok response) ∧
    allSucceed rt userId (generateResponse rt memory env message userId).2 rest

/-- Six calls asking about the project. -/
def sixProjectCalls : List (Env × Str) := List.replicate 6 (sampleEnv, projectQuestion)


/-! ## Reachable states of the session recorder -/

/-- The stored project documents reachable from a project without chat sessions by
successful chat POST exchanges, with the number of exchanges: each exchange is a run of
the handler that finds the document in the store and saves its successor, of which the
store keeps the declared paths. -/
inductive Reachable : Project → Nat → Prop where
  | start (project : Project) (h : project.chatSessions.getD [] = []) : Reachable project 0
  | exchange (rt : Runtime) (henv : HandlerEnv) (store : Store) (memory : Memory)
      (req : ChatRequest) (project project1 : Project) (k : Nat)
      (hreach : Reachable project k)
      (hfound : store.findOne req.projectId req.userId = .ok (some project))
      (hsaved : (chatPost rt henv store memory req).2.2 = some project1) :
      Reachable (castProject project1) (k + 1)

/-- The number of messages stored in the sessions. -/
def storedMessages (sessions : List ChatSession) : Nat :=
  (sessions.map (fun session => (session.messages.getD []).length)).sum

/-- The invariant of the reachable session lists after `k` exchanges: no session and no
exchange, or full sessions followed by a last session with an even number of messages
between 2 and 100, `2 * k` messages in all. -/
def SessionsInv (sessions : List ChatSession) (k : Nat) : Prop :=
  (sessions = [] ∧ k = 0) ∨
  ∃ full lastSession messages, sessions = full ++ [lastSession] ∧
    (∀ session ∈ full, ∃ stored, session.messages = some stored ∧ stored.length = 100) ∧
    lastSession.messages = some messages ∧
    messages.length % 2 = 0 ∧ 2 ≤ messages.length ∧ messages.length ≤ 100 ∧
    2 * k = 100 * full.length + messages.length

/-- A store holding the given project, whatever the identifiers. -/
def storeWith (project : Project) : Store :=
  { findOne := fun _ _ => .ok (some project)
    save := fun _ => .ok () }

/-- The project stored by a handler run on the given project with the project question. -/
def afterExchange (project : Project) : Project :=
  match (chatPost asciiRuntime sampleHandlerEnv (storeWith project) emptyMemory
      (requestWith (.str projectQuestion))).2.2 with
  | some project1 => castProject project1
  | none => project


/-! ## The history endpoint `GET /:projectId/history` -/

/-- The value of a code unit as a digit: `0`-`9`, `a`-`z` and `A`-`Z`. -/
def digitValue (u : Nat) : Option Nat :=
  if 48 ≤ u ∧ u ≤ 57 then some (u - 48)
  else if 97 ≤ u ∧ u ≤ 122 then some (u - 87)
  else if 65 ≤ u ∧ u ≤ 90 then some (u - 55)
  else none

/-- The values of the leading digits of the given radix. -/
def leadingDigits (radix : Nat) : Str → List Nat
  | [] => []
  | u :: rest =>
    match digitValue u with
    | some d => if d < radix then d :: leadingDigits radix rest else []
    | none => []

/-- `parseInt(string)` without a radix argument; `none` stands for `NaN`. Leading white
space is skipped, a sign is read, a prefix `0x` or `0X` selects radix 16, and the leading
digits give the value. The value is the exact integer read; the number JavaScript holds
is the double nearest to it, the same integer up to `2 ^ 53`, and beyond it `slice`
returns the whole array for the one and for the other. -/
def parseInt (input : Str) : Option Int :=
  let s := input.dropWhile isWhiteSpace
  let negative := decide (s.head? = some 45)
  let s1 := if s.head? = some 45 ∨ s.head? = some 43 then s.tail else s
  let hex := decide (s1.take 2 = [48, 120] ∨ s1.take 2 = [48, 88])
  let radix := if hex then 16 else 10
  let s2 := if hex then s1.drop 2 else s1
  let digits := leadingDigits radix s2
  if digits = [] then none
  else
    let value : Int := ((digits.foldl (fun acc d => acc * radix + d) 0 : Nat) : Int)
    some (if negative then -value else value)

/-- `Array.prototype.slice(start)` for an integral `start`: a negative start counts from
the end. -/
def sliceFrom {α : Type} (start : Int) (xs : List α) : List α :=
  if start < 0 then xs.drop (((xs.length : Int) + start).toNat)
  else xs.drop (min start.toNat xs.length)

/-- The expression `messages.slice(-parseInt(limit))`; `-NaN` is `NaN`, which `slice`
reads as `0`. -/
def sliceLimit {α : Type} (parsed : Option Int) (xs : List α) : List α :=
  match parsed with
  | some k => sliceFrom (-k) xs
  | none => sliceFrom 0 xs

/-- The query of a history request, `req.user._id` and `req.params.projectId`. -/
structure HistoryRequest where
  limit : Option Str
  session : Option Str
  userId : Str
  projectId : Str

/-- The reply of the history endpoint. -/
structure HistoryReply where
  status : Nat
  success : Bool
  message : Option Str
  messages : List ChatMessage
  totalSessions : Nat
  currentSessionMessages : Nat
  limit : Option Int
  deriving DecidableEq

/-- `parseInt(limit)` with the default `limit = 50` of the destructuring. -/
def parsedLimit (req : HistoryRequest) : Option Int :=
  match req.limit with
  | some limit => parseInt limit
  | none => some 50

/-- The session selected by the query: the last one for `latest` (the default), else the
first whose identifier, as the store assigned it, is the text of the query. -/
def targetSession (sessionId : ChatSession → Str) (sessions : List ChatSession)
    (req : HistoryRequest) : Option ChatSession :=
  if req.session.getD (lit "latest") = lit "latest" then sessions.getLast?
  else sessions.find? (fun s => decide (sessionId s = req.session.getD (lit "latest")))

/-- The messages returned by the history endpoint for a project. -/
def historyMessages (sessionId : ChatSession → Str) (project : Project)
    (req : HistoryRequest) : List ChatMessage :=
  match project.chatSessions with
  | some sessions =>
    if sessions.length > 0 then
      match targetSession sessionId sessions req with
      | some target =>
        match target.messages with
        | some messages => sliceLimit (parsedLimit req) messages
        | none => []
      | none => []
    else []
  | none => []

/-- The handler of `GET /:projectId/history` after authentication. -/
def historyGet (store : Store) (sessionId : ChatSession → Str) (req : HistoryRequest) :
    HistoryReply :=
  match store.findOne req.projectId req.userId with
  | .error _ =>
    { status := 500, success := false, message := some (lit "Error fetching chat history")
      messages := [], totalSessions := 0, currentSessionMessages := 0, limit := none }
  | .ok none =>
    { status := 404, success := false, message := some (lit "Project not found")
      messages := [], totalSessions := 0, currentSessionMessages := 0, limit := none }
  | .ok (some project) =>
    { status := 200, success := true, message := none
      messages := historyMessages sessionId project req
      totalSessions := (project.chatSessions.getD []).length
      currentSessionMessages := (historyMessages sessionId project req).length
      limit := parsedLimit req }

/-- The decimal numeral of a natural number. -/
def numeral (n : Nat) : Str :=
  if n = 0 then [48] else (Nat.digits 10 n).reverse.map (fun d => d + 48)

/-- Identifiers of sessions for the examples: the title. -/
def titleAsId (session : ChatSession) : Str := session.title

/-- A history request for the latest session with the given limit. -/
def historyRequest (limit : Option Str) : HistoryRequest :=
  { limit := limit, session := none, userId := someUser,
    projectId := lit "64f0c0ffee0123456789abcd" }

/-- A project with one session of seven older messages. -/
def sevenProject : Project := { chatSessions := some [sessionOf 7] }


/-! ## Regular expressions without flags (`upload.js`, `auth.js`) -/

/-- The syntax of the case-sensitive patterns of the upload filter and of the email
validation. -/
inductive Rx where
  /-- The empty pattern. -/
  | eps
  /-- The assertion `^`. -/
  | start
  /-- The assertion `$`. -/
  | finish
  /-- A literal code unit. -/
  | unit (c : Nat)
  /-- One or more code units of a class: `[...]+`. -/
  | someOf (p : Nat → Bool)
  /-- Concatenation. -/
  | seq (a b : Rx)
  /-- Alternation `a|b`. -/
  | alt (a b : Rx)

/-- The states after each non-empty run of code units of the class at the head of the
input. -/
def Rx.runs (p : Nat → Bool) : Str → List MState
  | [] => []
  | u :: rest => if p u then (some u, rest) :: Rx.runs p rest else []

/-- All states a match of the pattern can end in when started in `st`; without the `m`
flag `^` holds only before the first code unit and `$` only after the last. -/
def Rx.ends : Rx → MState → List MState
  | .eps, st => [st]
  | .start, st => if st.1.isNone then [st] else []
  | .finish, st => if st.2.isEmpty then [st] else []
  | .unit c, (_, u :: rest) => if u = c then [(some u, rest)] else []
  | .unit _, (_, []) => []
  | .someOf p, st => Rx.runs p st.2
  | .seq a b, st => (a.ends st).foldr (fun st1 acc => b.ends st1 ++ acc) []
  | .alt a b, st => a.ends st ++ b.ends st

/-- Try the pattern at the current position and then at every later one. -/
def Rx.testFrom (rx : Rx) : Option Nat → Str → Bool
  | prev, [] => !(rx.ends (prev, [])).isEmpty
  | prev, u :: rest => !(rx.ends (prev, u :: rest)).isEmpty || rx.testFrom (some u) rest

/-- `RegExp.prototype.test` for a pattern without flags. -/
def Rx.test (rx : Rx) (s : Str) : Bool := rx.testFrom none s

/-- The pattern matching the code units of a literal word. -/
def Rx.word (w : String) : Rx :=
  (lit w).foldr (fun c acc => Rx.seq (Rx.unit c) acc) Rx.eps

/-! ## The upload filter (`upload.js`) -/

/-- The pattern `/jpeg|jpg|png|pdf|txt|doc|docx/`. -/
def allowedTypes : Rx :=
  .alt (.word "jpeg") (.alt (.word "jpg") (.alt (.word "png") (.alt (.word "pdf")
    (.alt (.word "txt") (.alt (.word "doc") (.word "docx"))))))

/-- The fields of the uploaded file the filter reads. -/
structure UploadFile where
  originalname : Str
  mimetype : Str

/-- What the filter hands to its callback: `cb(null, true)` or `cb(new Error(message))`. -/
inductive FilterResult where
  | accept
  | reject (message : Str)
  deriving DecidableEq

/-- The message of the error of the filter. -/
def notAllowedText : Str := lit "Only images, PDFs, and text documents are allowed"

/-- The `fileFilter` of the upload; `extname` is `path.extname` of the platform. -/
def fileFilter (rt : Runtime) (extname : Str → Str) (file : UploadFile) : FilterResult :=
  let extnameOk := allowedTypes.test (rt.toLowerCase (extname file.originalname))
  let mimetype := allowedTypes.test file.mimetype
  if mimetype && extnameOk then .accept else .reject notAllowedText

/-- An `extname` for file names without directory separator: the text from the last dot
on, empty when there is no dot, when the last dot is the first code unit, and for the
name `..`. -/
def plainExtname (name : Str) : Str :=
  let tail := (name.reverse.takeWhile (fun u => u != 46)).reverse
  if name = [46, 46] then []
  else if tail.length + 1 < name.length then 46 :: tail else []

/-- A text file with its standard MIME type. -/
def notesTxt : UploadFile := { originalname := lit "notes.txt", mimetype := lit "text/plain" }

/-- A Word 97 document with its standard MIME type. -/
def reportDoc : UploadFile :=
  { originalname := lit "report.doc", mimetype := lit "application/msword" }

/-- A PDF with its standard MIME type. -/
def paperPdf : UploadFile :=
  { originalname := lit "paper.pdf", mimetype := lit "application/pdf" }


/-! ## The registration validation (`auth.js`) -/

/-- The class `[^\s@]`. -/
def notSpaceOrAt (u : Nat) : Bool := !isWhiteSpace u && u != 64

/-- The pattern `/^[^\s@]+@[^\s@]+\.[^\s@]+$/`. -/
def emailRegex : Rx :=
  .seq .start (.seq (.someOf notSpaceOrAt) (.seq (.unit 64) (.seq (.someOf notSpaceOrAt)
    (.seq (.unit 46) (.seq (.someOf notSpaceOrAt) .finish)))))

/-- `isValidEmail` on a string. -/
def isValidEmail (email : Str) : Bool := emailRegex.test email

/-- The validity of an email as the specification words it: no white space, exactly one
'@', a non-empty part before it, and after it a part with a '.' that is neither its first
nor its last code unit. -/
def SpecValidEmail (email : Str) : Prop :=
  (∀ u ∈ email, isWhiteSpace u = false) ∧ email.count 64 = 1 ∧
  ∃ localPart domain, email = localPart ++ 64 :: domain ∧ localPart ≠ [] ∧
    ∃ i, 0 < i ∧ i + 1 < domain.length ∧ domain[i]? = some 46

/-- The fields of the body of a registration request. -/
structure RegisterBody where
  name : JsValue
  email : JsValue
  password : JsValue

/-- What the validation middleware does: call `next()` or reply with a status and a
message. -/
inductive Validation where
  | next
  | reply (status : Nat) (message : Str)
  deriving DecidableEq

/-- The test `password.length < 6`: a number, a boolean and an object without a `length`
have the length `undefined`, and `undefined < 6` is false (arrays are not modelled). -/
def lengthBelowSix : JsValue → Bool
  | .str s => decide (s.length < 6)
  | _ => false

/-- `isValidEmail(email)` on a value of the body: the pattern is tested on the text of
the value, and the text of a number, of a boolean, of `null`, of `undefined` and of a plain
object contains no '@' (arrays are not modelled). -/
def isValidEmailValue : JsValue → Bool
  | .str s => isValidEmail s
  | _ => false

/-- `validateRegisterInput`. -/
def validateRegisterInput (body : RegisterBody) : Validation :=
  if body.name.falsy || body.email.falsy || body.password.falsy then
    .reply 400 (lit "All fields are required: name, email, password")
  else if lengthBelowSix body.password then
    .reply 400 (lit "Password must be at least 6 characters long")
  else if !isValidEmailValue body.email then
    .reply 400 (lit "Please provide a valid email address")
  else .next

/-- The password of the specification: a string of at least 6 code units. -/
def HasSixCharacters (password : JsValue) : Prop :=
  ∃ s, password = .str s ∧ 6 ≤ s.length

/-- A registration whose password is the number 12345. -/
def numericPasswordBody : RegisterBody :=
  { name := .str (lit "Ann"), email := .str (lit "ann@example.com"), password := .number 12345 }

/-- The shape the email pattern matches: a non-empty local part, '@', and two non-empty
parts around a '.', none with white space or '@'. -/
def EmailShape (email : Str) : Prop :=
  ∃ localPart label rest, localPart ≠ [] ∧ label ≠ [] ∧ rest ≠ [] ∧
    (∀ u ∈ localPart, notSpaceOrAt u = true) ∧ (∀ u ∈ label, notSpaceOrAt u = true) ∧
    (∀ u ∈ rest, notSpaceOrAt u = true) ∧
    email = localPart ++ 64 :: (label ++ 46 :: rest)

/-! ## Auxiliary facts -/

theorem bitIndexAux_spec (fuel n : Nat) (h1 : 1 ≤ n) (hf : n ≤ fuel) :
    2 ^ bitIndexAux fuel n ≤ n ∧ n < 2 ^ (bitIndexAux fuel n + 1) := by
  induction fuel generalizing n with
  | zero => omega
  | succ fuel ih =>
    unfold bitIndexAux
    by_cases h2 : 2 ≤ n
    · have h := ih (n / 2) (by omega) (by omega)
      simp only [h2, if_true]
      have e1 : 2 ^ (bitIndexAux fuel (n / 2) + 1) = 2 * 2 ^ bitIndexAux fuel (n / 2) := by
        rw [pow_succ]; ring
      have e2 : 2 ^ (bitIndexAux fuel (n / 2) + 1 + 1) = 4 * 2 ^ bitIndexAux fuel (n / 2) := by
        rw [pow_succ, pow_succ]; ring
      rw [e2, e1]
      rw [e1] at h
      omega
    · simp only [h2, if_false]
      simp
      omega

theorem bitIndex_spec (n : Nat) (h1 : 1 ≤ n) :
    2 ^ bitIndex n ≤ n ∧ n < 2 ^ (bitIndex n + 1) :=
  bitIndexAux_spec n n h1 (Nat.le_refl n)

theorem floorMul_lt (d : Draw) (n : Nat) (hn : 0 < n) : floorMul d n < n := by
  unfold floorMul
  simp only []
  have hE : 0 < 2 ^ d.exp := Nat.pow_pos (by norm_num)
  rw [Nat.div_lt_iff_lt_mul hE]
  generalize ha : d.mant * n = a
  generalize hs : bitIndex a - 52 = s
  have hX : 0 < 2 ^ s := Nat.pow_pos (by norm_num)
  have hdm := Nat.div_add_mod a (2 ^ s)
  have hr := Nat.mod_lt a hX
  have hbound : a + n ≤ n * 2 ^ d.exp := by
    have := d.lt_one
    have h3 : n * (d.mant + 1) ≤ n * 2 ^ d.exp := Nat.mul_le_mul_left n this
    rw [← ha]; nlinarith
  have hsmall : 2 ^ s < 2 * n ∨ 2 ^ s = 1 := by
    by_cases h0 : s = 0
    · right; rw [h0]; rfl
    · left
      have ha1 : 1 ≤ a := by
        by_contra hc
        have : a = 0 := by omega
        rw [this] at hs
        have : bitIndex 0 = 0 := rfl
        omega
      have hb := (bitIndex_spec a ha1).1
      have hL : bitIndex a = s + 52 := by omega
      rw [hL, pow_add] at hb
      have hm := d.mant_lt
      have h4 : a < 2 ^ 53 * n := by
        rw [← ha]; exact Nat.mul_lt_mul_of_pos_right hm hn
      have h5 : (2:Nat) ^ 53 = 2 * 2 ^ 52 := by norm_num
      rw [h5] at h4
      have h6 : 2 ^ s * 2 ^ 52 < 2 * n * 2 ^ 52 := by nlinarith
      exact Nat.lt_of_mul_lt_mul_right h6
  generalize hQ : a / 2 ^ s = Q at *
  generalize hR : a % 2 ^ s = R at *
  generalize hXv : 2 ^ s = X at *
  generalize hNE : n * 2 ^ d.exp = NE at *
  have hmul : X * Q = Q * X := Nat.mul_comm _ _
  generalize hQX : Q * X = QX at *
  split
  · rename_i hc
    have : (Q + 1) * X = QX + X := by rw [Nat.add_mul, hQX]; simp
    rw [this]
    omega
  · omega

theorem pick_mem (xs : List Str) (d : Draw) (h : xs ≠ []) : pick xs d ∈ xs := by
  have hlen : 0 < xs.length := List.length_pos.mpr h
  have hi := floorMul_lt d xs.length hlen
  unfold pick
  rw [List.getD_eq_getElem xs _ hi]
  exact List.getElem_mem _

/-! ## Intent classification -/

theorem firstMatch_split (message : Str) (pre post : List (Category × Re)) (p : Category × Re)
    (hpre : ∀ q ∈ pre, q.2.test message = false) (hp : p.2.test message = true) :
    firstMatch message (pre ++ p :: post) = some p.1 := by
  induction pre with
  | nil => simp [firstMatch, hp]
  | cons q pre ih =>
    have hq : q.2.test message = false := hpre q (List.mem_cons_self _ _)
    have := ih (fun r hr => hpre r (List.mem_cons_of_mem _ hr))
    simp [firstMatch, hq, this]

theorem firstMatch_none (message : Str) (ps : List (Category × Re))
    (h : ∀ q ∈ ps, q.2.test message = false) : firstMatch message ps = none := by
  induction ps with
  | nil => rfl
  | cons q ps ih =>
    have hq : q.2.test message = false := h q (List.mem_cons_self _ _)
    have := ih (fun r hr => h r (List.mem_cons_of_mem _ hr))
    simp [firstMatch, hq, this]

theorem detectIntent_category (rt : Runtime) (message originalMessage : Str) :
    (detectIntent rt message originalMessage).category =
      (firstMatch message patterns).getD .general := by
  unfold detectIntent
  cases firstMatch message patterns <;> rfl

/-- C1: `detectIntent` returns the category of the first pattern, in the order greeting,
technology, coding, project, help, career, complex, that matches the message, and
`general` when none of the seven matches; a message matching the greeting pattern is
classified greeting whatever else it matches. -/
theorem detectIntent_first_match (rt : Runtime) (message originalMessage : Str) :
    patterns.map Prod.fst =
        [.greeting, .technology, .coding, .project, .help, .career, .complex] ∧
    (∀ (pre post : List (Category × Re)) (p : Category × Re),
        patterns = pre ++ p :: post →
        (∀ q ∈ pre, q.2.test message = false) → p.2.test message = true →
        (detectIntent rt message originalMessage).category = p.1) ∧
    ((∀ q ∈ patterns, q.2.test message = false) →
        (detectIntent rt message originalMessage).category = .general) ∧
    ((patterns.head?.map fun p => (p.1, p.2.test message)) = some (.greeting, true) →
        (detectIntent rt message originalMessage).category = .greeting) := by
  refine ⟨rfl, ?_, ?_, ?_⟩
  · intro pre post p hsplit hpre hp
    rw [detectIntent_category, hsplit, firstMatch_split message pre post p hpre hp]
    rfl
  · intro h
    rw [detectIntent_category, firstMatch_none message patterns h]
    rfl
  · intro hm
    rw [detectIntent_category]
    simp only [patterns, List.head?_cons, Option.map_some', Option.some.injEq, Prod.mk.injEq,
      true_and] at hm
    simp only [patterns, firstMatch, hm, if_true]
    rfl

/-- C1 at the message "hi, what's the difference between react and vue?": it is already
lower-case and trimmed, matches both the greeting and the complex pattern, and is
classified greeting. -/
theorem detectIntent_first_match_witness :
    trim (asciiRuntime.toLowerCase greetingThenComparison) = greetingThenComparison ∧
    (∃ p ∈ patterns, p.1 = Category.complex ∧ p.2.test greetingThenComparison = true) ∧
    (detectIntent asciiRuntime greetingThenComparison greetingThenComparison).category
      = .greeting :=
  ⟨by decide, by decide,
   (detectIntent_first_match asciiRuntime greetingThenComparison
      greetingThenComparison).2.2.2 (by decide)⟩

/-! ## Response generators -/

theorem analyzeAndRespond_complex (rt : Runtime) (env : Env) (lowerMessage originalMessage : Str)
    (userMemory : UserMemory)
    (h : (detectIntent rt lowerMessage originalMessage).category = .complex) :
    analyzeAndRespond rt env lowerMessage originalMessage userMemory =
      handleComplexQuery originalMessage
        (getConversationContext rt userMemory.conversationHistory) env.random := by
  unfold analyzeAndRespond
  simp only [h]

/-- C6: for every user and prior memory, the message "What's the difference between react
and vue?" is classified complex, is routed to the comparison handler, and the response is
the React-vs-Vue block, whatever the random draw. -/
theorem react_vue_question (rt : Runtime) (memory : Memory) (env : Env) (userId : Str) :
    (detectIntent rt (trim (rt.toLowerCase reactVueQuestion)) reactVueQuestion).category
      = .complex ∧
    (∀ (context : Context) (d : Draw), handleComplexQuery reactVueQuestion context d =
      .ok (handleComparisonQuery reactVueQuestion)) ∧
    handleComparisonQuery reactVueQuestion = reactVsVue ∧
    (generateResponse rt memory env reactVueQuestion userId).1 = reactVsVue := by
  have hlow : rt.toLowerCase reactVueQuestion = reactVueQuestion.map asciiLower :=
    rt.toLowerCase_ascii reactVueQuestion (by decide)
  have hcat : (detectIntent rt (trim (rt.toLowerCase reactVueQuestion))
      reactVueQuestion).category = .complex := by
    rw [detectIntent_category, hlow]; decide
  have hroute : ∀ (context : Context) (d : Draw),
      handleComplexQuery reactVueQuestion context d =
        .ok (handleComparisonQuery reactVueQuestion) := by
    intro context d
    have h1 : includes reactVueQuestion (lit "difference between") = true := by decide
    simp [handleComplexQuery, h1]
  have hcmp : handleComparisonQuery reactVueQuestion = reactVsVue := by
    have h1 : includes reactVueQuestion (lit "react") = true := by decide
    have h2 : includes reactVueQuestion (lit "vue") = true := by decide
    simp [handleComparisonQuery, h1, h2]
  refine ⟨hcat, hroute, hcmp, ?_⟩
  unfold generateResponse
  simp only [analyzeAndRespond_complex rt env _ _ _ hcat, hroute, hcmp]

/-- C7: on a message containing "difference between" or "compare", `handleComplexQuery`
returns the React-vs-Vue block when the message contains both "react" and "vue", and the
prompt to name two technologies otherwise. -/
theorem comparison_branch (message : Str) (context : Context) (d : Draw)
    (h : includes message (lit "difference between") = true ∨
      includes message (lit "compare") = true) :
    handleComplexQuery message context d =
        .ok (if includes message (lit "react") = true ∧ includes message (lit "vue") = true
          then reactVsVue else specifyPrompt) ∧
    (handleComplexQuery message context d = .ok reactVsVue ∨
      handleComplexQuery message context d = .ok specifyPrompt) := by
  have h1 : (includes message (lit "difference between") ||
      includes message (lit "compare")) = true := by
    rcases h with h | h <;> simp [h]
  have h2 : handleComplexQuery message context d = .ok (handleComparisonQuery message) := by
    unfold handleComplexQuery
    rw [if_pos h1]
  rw [h2]
  unfold handleComparisonQuery
  by_cases hr : includes message (lit "react") = true
  · by_cases hv : includes message (lit "vue") = true
    · simp [hr, hv]
    · simp [hr, hv]
  · simp [hr]

/-- C7 at the messages "compare react and vue" and "compare apples". -/
theorem comparison_branch_witness :
    handleComplexQuery (lit "compare react and vue") emptyContext drawThreeQuarters
      = .ok reactVsVue ∧
    handleComplexQuery (lit "compare apples") emptyContext drawThreeQuarters
      = .ok specifyPrompt :=
  ⟨(comparison_branch (lit "compare react and vue") emptyContext drawThreeQuarters
      (Or.inr (by decide))).1.trans (by rfl),
   (comparison_branch (lit "compare apples") emptyContext drawThreeQuarters
      (Or.inr (by decide))).1.trans (by rfl)⟩
theorem hours_gt_iff (now last : Int) :
    (((now - last : Int) : ℚ) / (1000 * 60 * 60) > 24) ↔ 86400000 < now - last := by
  have h : ((1000 : ℚ) * 60 * 60) = 3600000 := by norm_num
  rw [h, gt_iff_lt, lt_div_iff₀ (by norm_num : (0 : ℚ) < 3600000)]
  have h2 : (24 : ℚ) * 3600000 = ((86400000 : Int) : ℚ) := by norm_num
  rw [h2, Int.cast_lt]

/-- C8: `generateGreetingResponse` returns the welcome-back string when more than
86,400,000 ms (24 hours) have passed since `lastInteraction`; otherwise, exactly 24 hours
included, it returns the canned greeting at index `floor(3 * draw)`, which is 0, 1 or 2,
and that greeting is never the welcome-back string. -/
theorem greeting_response (userMemory : UserMemory) (now : Int) (d : Draw) :
    greetings.length = 3 ∧ floorMul d 3 < 3 ∧ welcomeBack ∉ greetings ∧
    (86400000 < now - userMemory.lastInteraction →
      generateGreetingResponse userMemory now d = welcomeBack) ∧
    (now - userMemory.lastInteraction ≤ 86400000 →
      greetings[floorMul d 3]? = some (generateGreetingResponse userMemory now d) ∧
      generateGreetingResponse userMemory now d ∈ greetings) := by
  have hlt := floorMul_lt d 3 (by norm_num)
  refine ⟨rfl, hlt, by decide, ?_, ?_⟩
  · intro h
    unfold generateGreetingResponse
    simp only []
    rw [if_pos ((hours_gt_iff now userMemory.lastInteraction).mpr h)]
  · intro h
    have hn : ¬ (((now - userMemory.lastInteraction : Int) : ℚ) / (1000 * 60 * 60) > 24) := by
      rw [hours_gt_iff]; omega
    have hg : generateGreetingResponse userMemory now d = pick greetings d := by
      unfold generateGreetingResponse
      simp only []
      rw [if_neg hn]
    rw [hg]
    refine ⟨?_, pick_mem greetings d (by decide)⟩
    unfold pick
    have hl : greetings.length = 3 := rfl
    rw [hl, List.getD_eq_getElem greetings _ (by rw [hl]; exact hlt)]
    exact List.getElem?_eq_getElem _

/-- C8 one millisecond after, and exactly at, 24 hours since the last interaction. -/
theorem greeting_response_witness :
    generateGreetingResponse idleMemory 86400001 drawThreeQuarters = welcomeBack ∧
    greetings[2]? = some (generateGreetingResponse idleMemory 86400000 drawThreeQuarters) :=
  ⟨(greeting_response idleMemory 86400001 drawThreeQuarters).2.2.2.1 (by decide),
   ((greeting_response idleMemory 86400000 drawThreeQuarters).2.2.2.2 (by decide)).1⟩

/-- C9: `generateTechResponse` looks at the keywords in strict priority order: the React
blurb for 'react' or 'frontend'; else the Node.js blurb for 'node' or 'backend'; else the
MongoDB blurb for 'mongodb' or 'database'; else the full-stack overview. Keywords holding
both 'react' and 'node' give the React blurb. -/
theorem tech_response_priority (intent : IntentResult) (context : Context) :
    [reactBlurb, nodeBlurb, mongoBlurb, stackOverview].Nodup ∧
    (lit "react" ∈ intent.keywords ∨ lit "frontend" ∈ intent.keywords →
      generateTechResponse intent context = reactBlurb) ∧
    (¬ (lit "react" ∈ intent.keywords ∨ lit "frontend" ∈ intent.keywords) →
      (lit "node" ∈ intent.keywords ∨ lit "backend" ∈ intent.keywords) →
      generateTechResponse intent context = nodeBlurb) ∧
    (¬ (lit "react" ∈ intent.keywords ∨ lit "frontend" ∈ intent.keywords) →
      ¬ (lit "node" ∈ intent.keywords ∨ lit "backend" ∈ intent.keywords) →
      (lit "mongodb" ∈ intent.keywords ∨ lit "database" ∈ intent.keywords) →
      generateTechResponse intent context = mongoBlurb) ∧
    (¬ (lit "react" ∈ intent.keywords ∨ lit "frontend" ∈ intent.keywords) →
      ¬ (lit "node" ∈ intent.keywords ∨ lit "backend" ∈ intent.keywords) →
      ¬ (lit "mongodb" ∈ intent.keywords ∨ lit "database" ∈ intent.keywords) →
      generateTechResponse intent context = stackOverview) ∧
    (lit "react" ∈ intent.keywords → lit "node" ∈ intent.keywords →
      generateTechResponse intent context = reactBlurb) := by
  have key : ∀ w : Str, (intent.keywords.contains w = true) ↔ w ∈ intent.keywords :=
    fun w => by simp
  refine ⟨by decide, ?_, ?_, ?_, ?_, ?_⟩
  · intro h
    unfold generateTechResponse
    simp only [Bool.or_eq_true, key]
    rw [if_pos h]
  · intro h1 h2
    unfold generateTechResponse
    simp only [Bool.or_eq_true, key]
    rw [if_neg h1, if_pos h2]
  · intro h1 h2 h3
    unfold generateTechResponse
    simp only [Bool.or_eq_true, key]
    rw [if_neg h1, if_neg h2, if_pos h3]
  · intro h1 h2 h3
    unfold generateTechResponse
    simp only [Bool.or_eq_true, key]
    rw [if_neg h1, if_neg h2, if_neg h3]
  · intro h _
    unfold generateTechResponse
    simp only [Bool.or_eq_true, key]
    rw [if_pos (Or.inl h)]

/-- C9 at the keywords node, and, react. -/
theorem tech_response_priority_witness :
    generateTechResponse reactNodeIntent emptyContext = reactBlurb :=
  (tech_response_priority reactNodeIntent emptyContext).2.2.2.2.2 (by decide) (by decide)

/-! ## Keyword extraction -/

theorem splitWsAux_filter (f : Str → Bool) (hf : f [] = false) (s : Str) :
    ∀ (inGap : Bool) (cur : Str), (inGap = true → cur = []) →
    (splitWsAux inGap cur s).filter f =
      ((s.splitOnP isWhiteSpace).modifyHead (cur.reverse ++ ·)).filter f := by
  induction s with
  | nil =>
    intro inGap cur _
    simp [splitWsAux]
  | cons u rest ih =>
    intro inGap cur hcur
    rw [List.splitOnP_cons]
    by_cases hu : isWhiteSpace u = true
    · have h0 := ih true [] (fun _ => rfl)
      have hid : ((rest.splitOnP isWhiteSpace).modifyHead (([] : Str).reverse ++ ·)) =
          rest.splitOnP isWhiteSpace := by
        cases rest.splitOnP isWhiteSpace <;> simp
      rw [hid] at h0
      cases inGap with
      | true =>
        have hc : cur = [] := hcur rfl
        subst hc
        simp [splitWsAux, hu, h0, hf]
      | false =>
        simp [splitWsAux, hu, List.filter_cons, h0]
    · have h0 := ih false (u :: cur) (fun h => by cases h)
      simp only [splitWsAux, hu, if_false, Bool.false_eq_true]
      rw [h0, List.modifyHead_modifyHead]
      congr 2
      funext h
      simp

theorem splitWs_filter (f : Str → Bool) (hf : f [] = false) (s : Str) :
    (splitWs s).filter f = (s.splitOnP isWhiteSpace).filter f := by
  unfold splitWs
  rw [splitWsAux_filter f hf s false [] (fun h => by cases h)]
  cases s.splitOnP isWhiteSpace <;> simp

theorem splitOnP_all_sep (s : Str) (h : ∀ u ∈ s, isWhiteSpace u = true) :
    ∀ w ∈ s.splitOnP isWhiteSpace, w = [] := by
  induction s with
  | nil => simp
  | cons u rest ih =>
    have hu : isWhiteSpace u = true := h u (List.mem_cons_self _ _)
    have hr := ih (fun v hv => h v (List.mem_cons_of_mem _ hv))
    rw [List.splitOnP_cons]
    simpa [hu] using hr

theorem asciiLower_whiteSpace (u : Nat) (h : isWhiteSpace u = true) : asciiLower u = u := by
  unfold asciiLower
  split
  · rename_i hc
    exfalso
    simp only [isWhiteSpace, Bool.or_eq_true, Bool.and_eq_true, beq_iff_eq,
      decide_eq_true_eq] at h
    omega
  · rfl

theorem commonWords_eq : commonWords = stopWords := by decide

/-- C10: `extractKeywords` returns the first 5, in order, of the white-space separated
tokens of the lower-cased text that are longer than 2 and are not stop words; so it
returns at most 5 tokens, none of length 2 or less, none a stop word, and nothing for an
empty or white-space-only text. -/
theorem extractKeywords_spec (rt : Runtime) (text : Str) :
    extractKeywords rt text = specKeywords rt text ∧
    (extractKeywords rt text).length ≤ 5 ∧
    (∀ w ∈ extractKeywords rt text, 2 < w.length ∧ w ∉ stopWords) ∧
    ((∀ u ∈ text, isWhiteSpace u = true) → extractKeywords rt text = []) := by
  have hfun : (fun word : Str => decide (word.length > 2) && !commonWords.contains word) =
      (fun token : Str => decide (2 < token.length ∧ token ∉ stopWords)) := by
    funext w
    rw [commonWords_eq]
    by_cases h1 : 2 < w.length <;> by_cases h2 : w ∈ stopWords <;> simp [h1, h2]
  have heq : extractKeywords rt text = specKeywords rt text := by
    unfold extractKeywords specKeywords
    rw [splitWs_filter _ (by decide), hfun]
  refine ⟨heq, ?_, ?_, ?_⟩
  · unfold extractKeywords
    exact List.length_take_le _ _
  · intro w hw
    rw [heq] at hw
    unfold specKeywords at hw
    have hmem := List.mem_of_mem_take hw
    rw [List.mem_filter] at hmem
    simpa using hmem.2
  · intro hws
    rw [heq]
    unfold specKeywords
    have hlow : rt.toLowerCase text = text := by
      rw [rt.toLowerCase_ascii text (fun u hu => Or.inr (hws u hu))]
      conv_rhs => rw [← List.map_id text]
      exact List.map_congr_left (fun u hu => asciiLower_whiteSpace u (hws u hu))
    rw [hlow]
    have hall := splitOnP_all_sep text hws
    have : (text.splitOnP isWhiteSpace).filter
        (fun token => decide (2 < token.length ∧ token ∉ stopWords)) = [] := by
      rw [List.filter_eq_nil_iff]
      intro w hw
      rw [hall w hw]
      decide
    rw [this]
    rfl

/-- C10 on a sentence, and on a text made of a space, a tab and a line feed. -/
theorem extractKeywords_spec_witness :
    extractKeywords asciiRuntime foxSentence =
      [lit "quick", lit "brown", lit "fox", lit "jumps", lit "over"] ∧
    extractKeywords asciiRuntime [32, 9, 10] = [] :=
  ⟨(extractKeywords_spec asciiRuntime foxSentence).1.trans (by decide),
   (extractKeywords_spec asciiRuntime [32, 9, 10]).2.2.2 (by decide)⟩

/-! ## The top-level call -/

theorem generateResponse_ok (rt : Runtime) (memory : Memory) (env : Env)
    (message userId response : Str)
    (h : analyzeAndRespond rt env (trim (rt.toLowerCase message)) message
      (pushUser env message (userMemoryOf memory env userId)) = .ok response) :
    generateResponse rt memory env message userId =
      (response, memory.set userId
        { pushUser env message (userMemoryOf memory env userId) with
          conversationHistory :=
            (pushUser env message (userMemoryOf memory env userId)).conversationHistory ++
              [{ role := .assistant, content := response, timestamp := env.assistantAt }]
          lastInteraction := env.finishedAt }) := by
  unfold generateResponse
  simp only [h]

theorem generateResponse_error (rt : Runtime) (memory : Memory) (env : Env)
    (message userId : Str) (e : Err)
    (h : analyzeAndRespond rt env (trim (rt.toLowerCase message)) message
      (pushUser env message (userMemoryOf memory env userId)) = .error e) :
    generateResponse rt memory env message userId =
      (apology, memory.set userId (pushUser env message (userMemoryOf memory env userId))) := by
  unfold generateResponse
  simp only [h]

theorem whyQuestion_fails (rt : Runtime) (env : Env) (userMemory : UserMemory) :
    (detectIntent rt (trim (rt.toLowerCase whyQuestion)) whyQuestion).category = .complex ∧
    analyzeAndRespond rt env (trim (rt.toLowerCase whyQuestion)) whyQuestion userMemory =
      .error (.notAFunction "handleExplanationQuery") := by
  have hlow : rt.toLowerCase whyQuestion = whyQuestion.map asciiLower :=
    rt.toLowerCase_ascii whyQuestion (by decide)
  have hcat : (detectIntent rt (trim (rt.toLowerCase whyQuestion)) whyQuestion).category
      = .complex := by
    rw [detectIntent_category, hlow]; decide
  refine ⟨hcat, ?_⟩
  rw [analyzeAndRespond_complex rt env _ _ _ hcat]
  have h1 : includes whyQuestion (lit "difference between") = false := by decide
  have h2 : includes whyQuestion (lit "compare") = false := by decide
  have h3 : includes whyQuestion (lit "why") = true := by decide
  simp [handleComplexQuery, h1, h2, h3, handleExplanationQuery]

/-- C3: `generateResponse` is a total function to strings: when the response generation
step fails, whatever the exception, the returned string is the fixed apology, and when it
succeeds the returned string is the generated response. -/
theorem generateResponse_never_fails (rt : Runtime) (memory : Memory) (env : Env)
    (message userId : Str) :
    (∀ e, analyzeAndRespond rt env (trim (rt.toLowerCase message)) message
        (pushUser env message (userMemoryOf memory env userId)) = .error e →
      (generateResponse rt memory env message userId).1 = apology) ∧
    (∀ response, analyzeAndRespond rt env (trim (rt.toLowerCase message)) message
        (pushUser env message (userMemoryOf memory env userId)) = .ok response →
      (generateResponse rt memory env message userId).1 = response) ∧
    ((generateResponse rt memory env message userId).1 = apology ∨
      analyzeAndRespond rt env (trim (rt.toLowerCase message)) message
        (pushUser env message (userMemoryOf memory env userId)) =
          .ok (generateResponse rt memory env message userId).1) := by
  refine ⟨?_, ?_, ?_⟩
  · intro e h
    rw [generateResponse_error rt memory env message userId e h]
  · intro response h
    rw [generateResponse_ok rt memory env message userId response h]
  · cases h : analyzeAndRespond rt env (trim (rt.toLowerCase message)) message
        (pushUser env message (userMemoryOf memory env userId)) with
    | error e =>
      left
      rw [generateResponse_error rt memory env message userId e h]
    | ok response =>
      right
      rw [generateResponse_ok rt memory env message userId response h]

/-- C3 at "why is the sky blue": the generation step throws and the call returns the
apology. -/
theorem generateResponse_never_fails_witness :
    analyzeAndRespond asciiRuntime sampleEnv (trim (asciiRuntime.toLowerCase whyQuestion))
        whyQuestion (pushUser sampleEnv whyQuestion
          (userMemoryOf emptyMemory sampleEnv someUser)) =
      .error (.notAFunction "handleExplanationQuery") ∧
    (generateResponse asciiRuntime emptyMemory sampleEnv whyQuestion someUser).1 = apology :=
  ⟨(whyQuestion_fails asciiRuntime sampleEnv _).2,
   (generateResponse_never_fails asciiRuntime emptyMemory sampleEnv whyQuestion someUser).1 _
     (whyQuestion_fails asciiRuntime sampleEnv _).2⟩

/-- C4: the message "why is the sky blue" is classified complex and contains neither
"difference between" nor "compare", yet for every memory, clock and random draw the
response is the fallback apology, which is none of the four in-depth analysis
responses. -/
theorem why_question_gets_apology (rt : Runtime) (memory : Memory) (env : Env)
    (userId : Str) :
    (detectIntent rt (trim (rt.toLowerCase whyQuestion)) whyQuestion).category = .complex ∧
    includes whyQuestion (lit "difference between") = false ∧
    includes whyQuestion (lit "compare") = false ∧
    (generateResponse rt memory env whyQuestion userId).1 = apology ∧
    (∀ opening ∈ inDepthOpenings, apology ≠ opening ++ keyPoints) := by
  refine ⟨(whyQuestion_fails rt env idleMemory).1, by decide, by decide, ?_, by decide⟩
  rw [generateResponse_error rt memory env whyQuestion userId _ (whyQuestion_fails rt env _).2]

/-- C2: a fresh user sends "hi" eleven times; after the sixth call, and after the
eleventh, the stored history holds 11 entries, not 10. -/
theorem history_holds_eleven :
    historyLength (exchanges asciiRuntime sampleEnv someUser emptyMemory
      (List.replicate 6 (lit "hi"))) someUser = 11 ∧
    historyLength (exchanges asciiRuntime sampleEnv someUser emptyMemory
      (List.replicate 11 (lit "hi"))) someUser = 11 := by
  constructor <;> decide
theorem pushUser_history (env : Env) (message : Str) (userMemory : UserMemory) :
    ∃ earlier, (pushUser env message userMemory).conversationHistory =
      earlier ++ [{ role := .user, content := message, timestamp := env.userAt }] := by
  unfold pushUser
  simp only []
  generalize ({ role := .user, content := message, timestamp := env.userAt } : Entry) = entry
  split
  · rename_i hlen
    simp only [List.length_append, List.length_singleton] at hlen
    refine ⟨userMemory.conversationHistory.drop
      (userMemory.conversationHistory.length + 1 - 10), ?_⟩
    unfold sliceLast
    simp only [List.length_append, List.length_singleton]
    rw [List.drop_append_of_le_length (by omega)]
  · exact ⟨userMemory.conversationHistory, rfl⟩

/-- C5 (as stated) fails at "why is the sky blue" sent by an unseen user: the call returns
the apology, but the stored history ends with the user entry alone and `lastInteraction`
is still the creation time. -/
theorem fallback_call_records_no_exchange :
    (generateResponse asciiRuntime emptyMemory sampleEnv whyQuestion someUser).1 = apology ∧
    ¬ RecordsExchange (generateResponse asciiRuntime emptyMemory sampleEnv whyQuestion
        someUser).2 sampleEnv someUser whyQuestion
        (generateResponse asciiRuntime emptyMemory sampleEnv whyQuestion someUser).1 := by
  have hmem : (generateResponse asciiRuntime emptyMemory sampleEnv whyQuestion someUser).2
      someUser = some
        ({ conversationHistory := [{ role := .user, content := whyQuestion, timestamp := 2 }]
           userPreferences := []
           lastInteraction := 1 } : UserMemory) := by decide
  refine ⟨by decide, ?_⟩
  rintro ⟨userMemory, hum, -, hlast⟩
  rw [hmem] at hum
  cases hum
  revert hlast
  decide

/-- C5 (amended): a `generateResponse` call whose response generation succeeds with `r`
returns `r` and leaves the history of the user ending with the user entry for the original
message followed by the assistant entry for `r`, with `lastInteraction` set to the clock
reading at the end of the call; for an unseen user the entry is created by the call and
holds exactly these two history entries. -/
theorem successful_call_records_exchange (rt : Runtime) (memory : Memory) (env : Env)
    (message userId response : Str)
    (h : analyzeAndRespond rt env (trim (rt.toLowerCase message)) message
      (pushUser env message (userMemoryOf memory env userId)) = .ok response) :
    (generateResponse rt memory env message userId).1 = response ∧
    RecordsExchange (generateResponse rt memory env message userId).2 env userId message
      response ∧
    (memory userId = none →
      (generateResponse rt memory env message userId).2 userId = some
        { conversationHistory :=
            [{ role := .user, content := message, timestamp := env.userAt },
             { role := .assistant, content := response, timestamp := env.assistantAt }]
          userPreferences := []
          lastInteraction := env.finishedAt }) := by
  rw [generateResponse_ok rt memory env message userId response h]
  refine ⟨rfl, ?_, ?_⟩
  · obtain ⟨earlier, hearlier⟩ := pushUser_history env message (userMemoryOf memory env userId)
    refine ⟨{ pushUser env message (userMemoryOf memory env userId) with
        conversationHistory :=
          (pushUser env message (userMemoryOf memory env userId)).conversationHistory ++
            [{ role := .assistant, content := response, timestamp := env.assistantAt }]
        lastInteraction := env.finishedAt }, by simp [Memory.set], ⟨earlier, ?_⟩, rfl⟩
    simp only [hearlier, List.append_assoc, List.singleton_append]
  · intro hnone
    simp [Memory.set, userMemoryOf, hnone, pushUser]

/-- C5 (amended) at "Tell me about this project" sent by an unseen user. -/
theorem successful_call_records_exchange_witness :
    (generateResponse asciiRuntime emptyMemory sampleEnv projectQuestion someUser).2 someUser =
      some
        { conversationHistory :=
            [{ role := .user, content := projectQuestion, timestamp := 2 },
             { role := .assistant, content := projectBlock, timestamp := 4 }]
          userPreferences := []
          lastInteraction := 5 } :=
  (successful_call_records_exchange asciiRuntime emptyMemory sampleEnv projectQuestion someUser
    (projectBlock) (by rfl)).2.2 rfl

/-! ## Idempotence of keyword extraction -/

theorem mem_splitOnP_no_sep (s : Str) :
    ∀ w ∈ s.splitOnP isWhiteSpace, ∀ u ∈ w, isWhiteSpace u = false := by
  induction s with
  | nil => simp
  | cons x rest ih =>
    rw [List.splitOnP_cons]
    by_cases hx : isWhiteSpace x = true
    · simp only [hx, if_true]
      intro w hw
      rcases List.mem_cons.mp hw with h | h
      · subst h; simp
      · exact ih w h
    · simp only [hx, if_false, Bool.false_eq_true]
      cases hsplit : rest.splitOnP isWhiteSpace with
      | nil => simp
      | cons h t =>
        rw [hsplit] at ih
        intro w hw
        simp only [List.modifyHead_cons, List.mem_cons] at hw
        rcases hw with hw | hw
        · subst hw
          intro u hu
          rcases List.mem_cons.mp hu with hu | hu
          · subst hu; simpa using hx
          · exact ih h (List.mem_cons_self _ _) u hu
        · exact ih w (List.mem_cons_of_mem _ hw)

theorem splitOnP_joinSpace (tokens : List Str) (hne : tokens ≠ [])
    (h : ∀ k ∈ tokens, ∀ u ∈ k, isWhiteSpace u = false) :
    (joinSpace tokens).splitOnP isWhiteSpace = tokens := by
  induction tokens with
  | nil => exact absurd rfl hne
  | cons k rest ih =>
    have hk : ∀ u ∈ k, ¬ isWhiteSpace u = true := by
      intro u hu
      simp [h k (List.mem_cons_self _ _) u hu]
    cases rest with
    | nil => exact List.splitOnP_eq_single _ _ hk
    | cons k2 rest2 =>
      have hrest := ih (by simp) (fun j hj => h j (List.mem_cons_of_mem _ hj))
      show (k ++ 32 :: joinSpace (k2 :: rest2)).splitOnP isWhiteSpace = _
      rw [List.splitOnP_first _ _ hk 32 (by decide), hrest]

theorem extractKeywords_mem (rt : Runtime) (text : Str) :
    ∀ k ∈ extractKeywords rt text,
      (decide (k.length > 2) && !commonWords.contains k) = true ∧
      ∀ u ∈ k, isWhiteSpace u = false := by
  intro k hk
  unfold extractKeywords at hk
  have hmem := List.mem_of_mem_take hk
  rw [splitWs_filter _ (by decide), List.mem_filter] at hmem
  exact ⟨hmem.2, mem_splitOnP_no_sep _ k hmem.1⟩

theorem extractKeywords_joinSpace (rt : Runtime) (text : Str)
    (hfix : rt.toLowerCase (joinSpace (extractKeywords rt text)) =
      joinSpace (extractKeywords rt text)) :
    extractKeywords rt (joinSpace (extractKeywords rt text)) = extractKeywords rt text := by
  have hmem := extractKeywords_mem rt text
  have hlen : (extractKeywords rt text).length ≤ 5 := by
    unfold extractKeywords
    exact List.length_take_le _ _
  generalize extractKeywords rt text = tokens at hfix hmem hlen
  unfold extractKeywords
  rw [hfix, splitWs_filter _ (by decide)]
  by_cases hne : tokens = []
  · subst hne
    decide
  · rw [splitOnP_joinSpace tokens hne (fun k hk => (hmem k hk).2)]
    rw [List.filter_eq_self.mpr (fun k hk => (hmem k hk).1)]
    exact List.take_of_length_le hlen

theorem asciiLower_idem (u : Nat) : asciiLower (asciiLower u) = asciiLower u := by
  simp only [asciiLower]
  split_ifs <;> omega

theorem asciiLower_lt (u : Nat) (h : u < 128) : asciiLower u < 128 := by
  unfold asciiLower
  split <;> omega

theorem joinSpace_units (tokens : List Str) (P : Nat → Prop) (h32 : P 32)
    (h : ∀ k ∈ tokens, ∀ u ∈ k, P u) : ∀ u ∈ joinSpace tokens, P u := by
  induction tokens with
  | nil => simp [joinSpace]
  | cons k rest ih =>
    cases rest with
    | nil => simpa [joinSpace] using h
    | cons k2 rest2 =>
      intro u hu
      have hu2 : u ∈ k ++ 32 :: joinSpace (k2 :: rest2) := hu
      rcases List.mem_append.mp hu2 with hu3 | hu3
      · exact h k (List.mem_cons_self _ _) u hu3
      · rcases List.mem_cons.mp hu3 with hu4 | hu4
        · subst hu4; exact h32
        · exact ih (fun j hj => h j (List.mem_cons_of_mem _ hj)) u hu4

theorem mem_splitOnP_forall (P : Nat → Prop) (s : Str) (hs : ∀ u ∈ s, P u) :
    ∀ w ∈ s.splitOnP isWhiteSpace, ∀ u ∈ w, P u := by
  induction s with
  | nil => simp
  | cons x rest ih =>
    have ih2 := ih (fun u hu => hs u (List.mem_cons_of_mem _ hu))
    rw [List.splitOnP_cons]
    by_cases hx : isWhiteSpace x = true
    · simp only [hx, if_true]
      intro w hw
      rcases List.mem_cons.mp hw with h | h
      · subst h; simp
      · exact ih2 w h
    · simp only [hx, if_false, Bool.false_eq_true]
      cases hsplit : rest.splitOnP isWhiteSpace with
      | nil => simp
      | cons h t =>
        rw [hsplit] at ih2
        intro w hw
        simp only [List.modifyHead_cons, List.mem_cons] at hw
        rcases hw with hw | hw
        · subst hw
          intro u hu
          rcases List.mem_cons.mp hu with hu | hu
          · subst hu; exact hs _ (List.mem_cons_self _ _)
          · exact ih2 h (List.mem_cons_self _ _) u hu
        · exact ih2 w (List.mem_cons_of_mem _ hw)

theorem toLowerCase_joinSpace_ascii (rt : Runtime) (text : Str)
    (hascii : ∀ u ∈ text, u < 128 ∨ isWhiteSpace u = true) :
    rt.toLowerCase (joinSpace (extractKeywords rt text)) =
      joinSpace (extractKeywords rt text) := by
  have hunits : ∀ k ∈ extractKeywords rt text, ∀ u ∈ k,
      (u < 128 ∨ isWhiteSpace u = true) ∧ asciiLower u = u := by
    intro k hk
    unfold extractKeywords at hk
    have hmem := List.mem_of_mem_take hk
    rw [splitWs_filter _ (by decide), List.mem_filter] at hmem
    refine mem_splitOnP_forall _ _ ?_ k hmem.1
    rw [rt.toLowerCase_ascii text hascii]
    intro u hu
    obtain ⟨v, hv, rfl⟩ := List.mem_map.mp hu
    rcases hascii v hv with h | h
    · exact ⟨Or.inl (asciiLower_lt v h), asciiLower_idem v⟩
    · rw [asciiLower_whiteSpace v h]
      exact ⟨Or.inr h, asciiLower_whiteSpace v h⟩
  have hjoin := joinSpace_units (extractKeywords rt text)
    (fun u => (u < 128 ∨ isWhiteSpace u = true) ∧ asciiLower u = u)
    ⟨Or.inl (by norm_num), by decide⟩ hunits
  rw [rt.toLowerCase_ascii _ (fun u hu => (hjoin u hu).1)]
  conv_rhs => rw [← List.map_id (joinSpace (extractKeywords rt text))]
  exact List.map_congr_left (fun u hu => (hjoin u hu).2)

/-- C11: keyword extraction is idempotent. Extracting the keywords of the keywords of a
text joined by single spaces gives the same keywords again, provided lower-casing leaves
that joined, already lower-cased, text unchanged; this proviso holds for every text made
of ASCII and white-space code units, whatever the runtime. -/
theorem extractKeywords_idempotent (rt : Runtime) (text : Str) :
    (rt.toLowerCase (joinSpace (extractKeywords rt text)) =
        joinSpace (extractKeywords rt text) →
      extractKeywords rt (joinSpace (extractKeywords rt text)) = extractKeywords rt text) ∧
    ((∀ u ∈ text, u < 128 ∨ isWhiteSpace u = true) →
      extractKeywords rt (joinSpace (extractKeywords rt text)) = extractKeywords rt text) :=
  ⟨extractKeywords_joinSpace rt text,
   fun hascii => extractKeywords_joinSpace rt text (toLowerCase_joinSpace_ascii rt text hascii)⟩

/-- C11 on the text "Learning  the React hooks today" followed by a space and a line
feed. -/
theorem extractKeywords_idempotent_witness :
    extractKeywords asciiRuntime reactText =
      [lit "learning", lit "react", lit "hooks", lit "today"] ∧
    extractKeywords asciiRuntime (lit "learning react hooks today") =
      [lit "learning", lit "react", lit "hooks", lit "today"] :=
  ⟨by decide,
   ((extractKeywords_idempotent asciiRuntime reactText).2 (by decide)).trans (by decide)⟩

/-! ## The fields of the intent -/

theorem firstMatch_mem (message : Str) (ps : List (Category × Re)) (c : Category)
    (h : firstMatch message ps = some c) : c ∈ ps.map Prod.fst := by
  induction ps with
  | nil => simp [firstMatch] at h
  | cons p ps ih =>
    obtain ⟨category, pattern⟩ := p
    unfold firstMatch at h
    split at h
    · simp only [Option.some.injEq] at h
      simp [h]
    · simp [ih h]

theorem questionAtEnd_testFrom (prev : Option Nat) (s : Str) :
    questionAtEnd.testFrom prev s = decide (s.getLast? = some 63) := by
  induction s generalizing prev with
  | nil => simp [Re.testFrom, questionAtEnd, Re.ends]
  | cons u rest ih =>
    unfold Re.testFrom
    rw [ih (some u)]
    cases rest with
    | nil =>
      by_cases hu : u = 63
      · subst hu
        simp [questionAtEnd, Re.ends, asciiUpper]
      · have h1 : ¬ (u < 128 ∧ asciiUpper u = asciiUpper 63) := by
          intro h
          have h63 : asciiUpper 63 = 63 := by decide
          rw [h63] at h
          unfold asciiUpper at h
          split at h <;> omega
        simp [questionAtEnd, Re.ends, h1, hu]
    | cons v rest2 =>
      have h2 : (questionAtEnd.ends (prev, u :: v :: rest2)).isEmpty = true := by
        simp only [questionAtEnd, Re.ends]
        split <;> simp [Re.ends]
      simp [h2, List.getLast?_cons_cons]

theorem questionAtEnd_test (s : Str) :
    questionAtEnd.test s = decide (s.getLast? = some 63) :=
  questionAtEnd_testFrom none s

/-- C12: the message "xyz?" ends with a question mark and is classified general, and the
object `detectIntent` returns for it has no `hasQuestion` (and no `isTechnical`) field at
all. In general `hasQuestion` tells whether the original message ends with '?' exactly
for the seven pattern categories and is absent for `general`. -/
theorem general_intent_lacks_hasQuestion :
    xyzQuestion.getLast? = some 63 ∧
    detectIntent asciiRuntime (trim (asciiRuntime.toLowerCase xyzQuestion)) xyzQuestion =
      { category := .general, keywords := [lit "xyz?"], hasQuestion := none,
        isTechnical := none } ∧
    (∀ (rt : Runtime) (message originalMessage : Str),
      ((detectIntent rt message originalMessage).category = .general →
        (detectIntent rt message originalMessage).hasQuestion = none) ∧
      ((detectIntent rt message originalMessage).category ≠ .general →
        (detectIntent rt message originalMessage).hasQuestion =
          some (decide (originalMessage.getLast? = some 63)))) := by
  refine ⟨by decide, by decide, ?_⟩
  intro rt message originalMessage
  unfold detectIntent
  cases h : firstMatch message patterns with
  | none => simp
  | some c =>
    have hc := firstMatch_mem message patterns c h
    have hne : c ≠ .general := by
      intro hg
      rw [hg] at hc
      revert hc
      decide
    simp [hne, questionAtEnd_test]

theorem category_of_ascii (rt : Runtime) (original : Str) (c : Category)
    (hascii : ∀ u ∈ original, u < 128 ∨ isWhiteSpace u = true)
    (h : (firstMatch (trim (original.map asciiLower)) patterns).getD .general = c) :
    (detectIntent rt (trim (rt.toLowerCase original)) original).category = c := by
  rw [detectIntent_category, rt.toLowerCase_ascii original hascii, h]

/-- C13: the categories `detectIntent` returns form the closed enumeration greeting,
technology, coding, project, help, career, complex, general: every message gets one of
the eight, and each is returned for some message, namely for "Hello there", "database",
"debug", "demo", "explain", "resume", "compare" and "xyz" (lower-cased and trimmed as
`generateResponse` does). -/
theorem category_enumeration (rt : Runtime) :
    (∀ message originalMessage : Str,
      (detectIntent rt message originalMessage).category ∈
        [Category.greeting, .technology, .coding, .project, .help, .career, .complex,
          .general]) ∧
    [Category.greeting, .technology, .coding, .project, .help, .career, .complex,
      .general].Nodup ∧
    (detectIntent rt (trim (rt.toLowerCase (lit "Hello there")))
      (lit "Hello there")).category = .greeting ∧
    (detectIntent rt (trim (rt.toLowerCase (lit "database")))
      (lit "database")).category = .technology ∧
    (detectIntent rt (trim (rt.toLowerCase (lit "debug")))
      (lit "debug")).category = .coding ∧
    (detectIntent rt (trim (rt.toLowerCase (lit "demo")))
      (lit "demo")).category = .project ∧
    (detectIntent rt (trim (rt.toLowerCase (lit "explain")))
      (lit "explain")).category = .help ∧
    (detectIntent rt (trim (rt.toLowerCase (lit "resume")))
      (lit "resume")).category = .career ∧
    (detectIntent rt (trim (rt.toLowerCase (lit "compare")))
      (lit "compare")).category = .complex ∧
    (detectIntent rt (trim (rt.toLowerCase (lit "xyz")))
      (lit "xyz")).category = .general := by
  refine ⟨?_, by decide, ?_, ?_, ?_, ?_, ?_, ?_, ?_, ?_⟩
  · intro message originalMessage
    cases (detectIntent rt message originalMessage).category <;> decide
  all_goals exact category_of_ascii rt _ _ (by decide) (by decide)

/-! ## Coding tips -/

/-- C19: for every intent, context and random draw, `generateCodingResponse` selects the
tip at index `floor(5 * draw)`, which is below 5, and returns "I love talking about
coding! " followed by that tip and the fixed list of capabilities: always one of five
known, pairwise different strings. -/
theorem coding_response (intent : IntentResult) (context : Context) (d : Draw) :
    tips.length = 5 ∧ floorMul d 5 < 5 ∧
    codingIntro = lit "I love talking about coding! " ∧
    (∃ tip, tips[floorMul d 5]? = some tip ∧
      generateCodingResponse intent context d = codingIntro ++ tip ++ codingOutro) ∧
    generateCodingResponse intent context d ∈
      tips.map (fun tip => codingIntro ++ tip ++ codingOutro) ∧
    (tips.map (fun tip => codingIntro ++ tip ++ codingOutro)).Nodup := by
  have hlt := floorMul_lt d 5 (by norm_num)
  have hl : tips.length = 5 := rfl
  have hpick : tips[floorMul d 5]? = some (pick tips d) := by
    unfold pick
    rw [hl, List.getD_eq_getElem tips _ (by rw [hl]; exact hlt)]
    exact List.getElem?_eq_getElem _
  refine ⟨hl, hlt, rfl, ⟨pick tips d, hpick, rfl⟩, ?_, by decide⟩
  exact List.mem_map.mpr ⟨pick tips d, pick_mem tips d (by decide), rfl⟩

/-! ## What the response depends on -/

theorem analyzeAndRespond_not_greeting (rt : Runtime) (env : Env)
    (lowerMessage originalMessage : Str) (m1 m2 : UserMemory)
    (h : (detectIntent rt lowerMessage originalMessage).category ≠ .greeting) :
    analyzeAndRespond rt env lowerMessage originalMessage m1 =
      analyzeAndRespond rt env lowerMessage originalMessage m2 := by
  unfold analyzeAndRespond
  simp only []
  cases hc : (detectIntent rt lowerMessage originalMessage).category with
  | greeting => exact absurd hc h
  | technology => rfl
  | coding => rfl
  | project => rfl
  | help => rfl
  | career => rfl
  | complex =>
    simp only [handleComplexQuery, generateInDepthResponse]
  | general => rfl

/-- C20: the response depends on the conversation memory only through `lastInteraction`,
and only for greetings: two runs of `analyzeAndRespond` on the same message, clock and
draw with memories that agree on `lastInteraction` return the same result whatever their
histories and preferences, and for a message not classified greeting the two results are
equal for any two memories. -/
theorem response_independent_of_history (rt : Runtime) (env : Env)
    (lowerMessage originalMessage : Str) (m1 m2 : UserMemory) :
    (m1.lastInteraction = m2.lastInteraction →
      analyzeAndRespond rt env lowerMessage originalMessage m1 =
        analyzeAndRespond rt env lowerMessage originalMessage m2) ∧
    ((detectIntent rt lowerMessage originalMessage).category ≠ .greeting →
      analyzeAndRespond rt env lowerMessage originalMessage m1 =
        analyzeAndRespond rt env lowerMessage originalMessage m2) := by
  refine ⟨?_, analyzeAndRespond_not_greeting rt env lowerMessage originalMessage m1 m2⟩
  intro hlast
  by_cases hg : (detectIntent rt lowerMessage originalMessage).category = .greeting
  · unfold analyzeAndRespond
    simp only [hg, generateGreetingResponse, hlast]
  · exact analyzeAndRespond_not_greeting rt env lowerMessage originalMessage m1 m2 hg

/-! ## The response generator does not write to the memory -/

theorem threaded_getConversationContext (rt : Runtime) (userMemory : UserMemory) :
    Threaded.getConversationContext rt userMemory =
      (getConversationContext rt userMemory.conversationHistory, userMemory) := by
  unfold Threaded.getConversationContext getConversationContext
  simp only []
  split <;> rfl

theorem threaded_generateGreetingResponse (userMemory : UserMemory) (now : Int) (d : Draw) :
    Threaded.generateGreetingResponse userMemory now d =
      (generateGreetingResponse userMemory now d, userMemory) := by
  unfold Threaded.generateGreetingResponse generateGreetingResponse
  simp only []
  split <;> rfl

/-- C18: `analyzeAndRespond`, with `getConversationContext` and every generator it
dispatches to, leaves the memory object it is handed exactly as it was, history,
`lastInteraction` and `userPreferences` included, whether it returns or throws; what it
computes is the function of the memory value used by `generateResponse`. -/
theorem analyzeAndRespond_leaves_memory (rt : Runtime) (env : Env)
    (lowerMessage originalMessage : Str) (userMemory : UserMemory) :
    (Threaded.analyzeAndRespond rt env lowerMessage originalMessage userMemory).2
      = userMemory ∧
    (Threaded.analyzeAndRespond rt env lowerMessage originalMessage
      userMemory).2.conversationHistory = userMemory.conversationHistory ∧
    (Threaded.analyzeAndRespond rt env lowerMessage originalMessage
      userMemory).2.lastInteraction = userMemory.lastInteraction ∧
    (Threaded.analyzeAndRespond rt env lowerMessage originalMessage
      userMemory).2.userPreferences = userMemory.userPreferences ∧
    (Threaded.analyzeAndRespond rt env lowerMessage originalMessage userMemory).1 =
      analyzeAndRespond rt env lowerMessage originalMessage userMemory := by
  have h : Threaded.analyzeAndRespond rt env lowerMessage originalMessage userMemory =
      (analyzeAndRespond rt env lowerMessage originalMessage userMemory, userMemory) := by
    unfold Threaded.analyzeAndRespond analyzeAndRespond
    simp only [threaded_getConversationContext, threaded_generateGreetingResponse]
    cases (detectIntent rt lowerMessage originalMessage).category <;> rfl
  rw [h]
  exact ⟨rfl, rfl, rfl, rfl, rfl⟩

/-- C18 on a call that throws ("why is the sky blue") with a non-empty memory. -/
theorem analyzeAndRespond_leaves_memory_witness :
    Threaded.analyzeAndRespond asciiRuntime sampleEnv whyQuestion whyQuestion busyMemory =
      (.error (.notAFunction "handleExplanationQuery"), busyMemory) :=
  Prod.ext
    ((analyzeAndRespond_leaves_memory asciiRuntime sampleEnv whyQuestion whyQuestion
      busyMemory).2.2.2.2.trans (by rfl))
    (analyzeAndRespond_leaves_memory asciiRuntime sampleEnv whyQuestion whyQuestion
      busyMemory).1

/-- C20 on "Tell me about this project" with an empty and a non-empty memory. -/
theorem response_independent_of_history_witness :
    analyzeAndRespond asciiRuntime sampleEnv (lit "tell me about this project")
        projectQuestion idleMemory =
      analyzeAndRespond asciiRuntime sampleEnv (lit "tell me about this project")
        projectQuestion busyMemory :=
  (response_independent_of_history asciiRuntime sampleEnv (lit "tell me about this project")
    projectQuestion idleMemory busyMemory).2 (by decide)

/-! ## Validation at the chat endpoint -/

theorem trim_eq_nil (s : Str) (h : ∀ u ∈ s, isWhiteSpace u = true) : trim s = [] := by
  unfold trim
  have h1 : s.dropWhile isWhiteSpace = [] := List.dropWhile_eq_nil_iff.mpr h
  rw [h1]
  rfl

theorem failsMeaningful_blank (message : JsValue)
    (h : ∀ s, message = .str s → ∀ u ∈ s, isWhiteSpace u = true) :
    failsMeaningful message = true := by
  cases message with
  | str s =>
    have ht := trim_eq_nil s (h s rfl)
    simp [failsMeaningful, ht]
  | _ => simp [failsMeaningful, JsValue.isString]

theorem failsMeaningful_str (s : Str) (h : trim s ≠ []) :
    failsMeaningful (.str s) = false := by
  have hs : s ≠ [] := by
    intro h0
    subst h0
    exact h rfl
  simp [failsMeaningful, JsValue.falsy, JsValue.isString, h, hs]

/-- C14: when the message of the request is missing, is not a string, is empty or
consists of white space only, the handler replies 400 with `success: false`, the memory
of the engine is the one before the request (`generateResponse` did not run) and nothing
is saved, whatever the store holds. -/
theorem blank_message_rejected (rt : Runtime) (henv : HandlerEnv) (store : Store)
    (memory : Memory) (req : ChatRequest)
    (h : ∀ s, req.message = .str s → ∀ u ∈ s, isWhiteSpace u = true) :
    chatPost rt henv store memory req = (rejected 400 blankMessageText, memory, none) ∧
    (chatPost rt henv store memory req).1.status = 400 ∧
    (chatPost rt henv store memory req).1.success = false ∧
    (chatPost rt henv store memory req).2.1 = memory ∧
    (chatPost rt henv store memory req).2.2 = none := by
  have hpost : chatPost rt henv store memory req =
      (rejected 400 blankMessageText, memory, none) := by
    unfold chatPost
    rw [if_pos (failsMeaningful_blank req.message h)]
  rw [hpost]
  exact ⟨rfl, rfl, rfl, rfl, rfl⟩

/-- C14 on a missing message, a number, the empty string and a string of a space, a tab
and a no-break space. -/
theorem blank_message_rejected_witness :
    (chatPost asciiRuntime sampleHandlerEnv sampleStore emptyMemory
      (requestWith .undefined)).1.status = 400 ∧
    (chatPost asciiRuntime sampleHandlerEnv sampleStore emptyMemory
      (requestWith (.number 7))).1.status = 400 ∧
    (chatPost asciiRuntime sampleHandlerEnv sampleStore emptyMemory
      (requestWith (.str []))).1.status = 400 ∧
    (chatPost asciiRuntime sampleHandlerEnv sampleStore emptyMemory
      (requestWith (.str [32, 9, 160]))).2.2 = none :=
  ⟨(blank_message_rejected asciiRuntime sampleHandlerEnv sampleStore emptyMemory
      (requestWith .undefined) (fun _ h => by cases h)).2.1,
   (blank_message_rejected asciiRuntime sampleHandlerEnv sampleStore emptyMemory
      (requestWith (.number 7)) (fun _ h => by cases h)).2.1,
   (blank_message_rejected asciiRuntime sampleHandlerEnv sampleStore emptyMemory
      (requestWith (.str [])) (fun s h => by cases h; simp)).2.1,
   (blank_message_rejected asciiRuntime sampleHandlerEnv sampleStore emptyMemory
      (requestWith (.str [32, 9, 160])) (fun s h => by cases h; decide)).2.2.2.2⟩

theorem failureReply_message (henv : HandlerEnv) (e : Thrown) :
    (failureReply henv e).message ≠ some tooLongText := by
  unfold failureReply
  split
  · simp only [rejected]; decide
  · simp only []; decide

/-- C15: for a string message that is not blank, the handler replies with the 400
rejection 'Message is too long (maximum 1000 characters)', leaving the memory of the
engine untouched and saving nothing, exactly when the untrimmed message has more than
1000 code units; with 1000 or fewer the reply never carries that message. -/
theorem long_message_rejected (rt : Runtime) (henv : HandlerEnv) (store : Store)
    (memory : Memory) (req : ChatRequest) (s : Str)
    (hreq : req.message = .str s) (hnb : trim s ≠ []) :
    (1000 < s.length →
      chatPost rt henv store memory req = (rejected 400 tooLongText, memory, none)) ∧
    (s.length ≤ 1000 →
      (chatPost rt henv store memory req).1.message ≠ some tooLongText) ∧
    ((chatPost rt henv store memory req).1 = rejected 400 tooLongText ↔ 1000 < s.length) := by
  have hv := failsMeaningful_str s hnb
  have hlong : 1000 < s.length →
      chatPost rt henv store memory req = (rejected 400 tooLongText, memory, none) := by
    intro h
    unfold chatPost
    simp only [hreq, hv, Bool.false_eq_true, if_false]
    rw [if_pos h]
  have hshort : s.length ≤ 1000 →
      (chatPost rt henv store memory req).1.message ≠ some tooLongText := by
    intro h
    unfold chatPost
    simp only [hreq, hv, Bool.false_eq_true, if_false]
    rw [if_neg (by omega)]
    cases store.findOne req.projectId req.userId with
    | error e => exact failureReply_message henv e
    | ok found =>
      cases found with
      | none => simp only [rejected]; decide
      | some project =>
        simp only []
        cases recordExchange henv project s
            (generateResponse rt memory henv.engine s req.userId).1 with
        | error e => exact failureReply_message henv e
        | ok project1 =>
          simp only []
          cases store.save project1 with
          | error e => exact failureReply_message henv e
          | ok _ => simp
  refine ⟨hlong, hshort, ?_, ?_⟩
  · intro heq
    by_contra hle
    exact hshort (by omega) (by rw [heq]; rfl)
  · intro h
    rw [hlong h]

theorem trim_lettersA (n : Nat) : trim (lettersA (n + 1)) ≠ [] := by
  have h97 : isWhiteSpace 97 = false := by decide
  have h1 : (lettersA (n + 1)).dropWhile isWhiteSpace = lettersA (n + 1) := by
    simp [lettersA, List.replicate_succ, List.dropWhile_cons, h97]
  have h2 : (lettersA (n + 1)).reverse = lettersA (n + 1) := by
    simp [lettersA]
  unfold trim
  rw [h1, h2, h1, h2]
  simp [lettersA, List.replicate_succ]

theorem length_lettersA (n : Nat) : (lettersA n).length = n := by
  simp [lettersA]

/-- C15 on messages of 1001 and of 1000 letters. -/
theorem long_message_rejected_witness :
    chatPost asciiRuntime sampleHandlerEnv sampleStore emptyMemory
        (requestWith (.str (lettersA 1001))) =
      (rejected 400 tooLongText, emptyMemory, none) ∧
    (chatPost asciiRuntime sampleHandlerEnv sampleStore emptyMemory
        (requestWith (.str (lettersA 1000)))).1.message ≠ some tooLongText :=
  ⟨(long_message_rejected asciiRuntime sampleHandlerEnv sampleStore emptyMemory
      (requestWith (.str (lettersA 1001))) (lettersA 1001) rfl (trim_lettersA 1000)).1
      (by rw [length_lettersA]; norm_num),
   (long_message_rejected asciiRuntime sampleHandlerEnv sampleStore emptyMemory
      (requestWith (.str (lettersA 1000))) (lettersA 1000) rfl (trim_lettersA 999)).2.1
      (by rw [length_lettersA])⟩

/-! ## The session recorder -/

theorem sliceLast_pair {α : Type} (previous : List α) (u a : α) :
    sliceLast 100 (previous ++ [u, a]) = sliceLast 98 previous ++ [u, a] := by
  unfold sliceLast
  simp only [List.length_append, List.length_cons, List.length_nil]
  rw [List.drop_append_of_le_length (by omega)]
  congr 2

theorem appendExchange_messages (henv : HandlerEnv) (message aiResponse : Str)
    (session : ChatSession) :
    (appendExchange henv message aiResponse session).messages =
      some (sliceLast 100 (session.messages.getD [] ++
        [userChatMessage henv message, assistantChatMessage henv aiResponse])) := by
  unfold appendExchange
  simp only []
  split
  · rfl
  · rename_i h
    unfold sliceLast
    rw [Nat.sub_eq_zero_of_le (by omega)]
    rfl

theorem needsNewSession_nil : needsNewSession [] = .ok true := rfl

theorem needsNewSession_some (sessions : List ChatSession) (lastSession : ChatSession)
    (messages : List ChatMessage) (hl : sessions.getLast? = some lastSession)
    (hm : lastSession.messages = some messages) :
    needsNewSession sessions = .ok (decide (messages.length ≥ 100)) := by
  unfold needsNewSession
  rw [hl]
  simp only [hm]

theorem needsNewSession_none (sessions : List ChatSession) (lastSession : ChatSession)
    (hl : sessions.getLast? = some lastSession) (hm : lastSession.messages = none) :
    ∃ e, needsNewSession sessions = .error e := by
  unfold needsNewSession
  rw [hl]
  simp only [hm]
  exact ⟨_, rfl⟩

theorem needsNewSession_true (sessions : List ChatSession) :
    needsNewSession sessions = .ok true ↔
      (sessions = [] ∨ ∃ lastSession messages, sessions.getLast? = some lastSession ∧
        lastSession.messages = some messages ∧ 100 ≤ messages.length) := by
  cases hl : sessions.getLast? with
  | none =>
    have hnil : sessions = [] := List.getLast?_eq_none_iff.mp hl
    subst hnil
    simp [needsNewSession_nil]
  | some lastSession =>
    have hne : sessions ≠ [] := by
      intro h
      rw [h] at hl
      simp at hl
    cases hm : lastSession.messages with
    | none =>
      obtain ⟨e, he⟩ := needsNewSession_none sessions lastSession hl hm
      rw [he]
      simp [hne, hm]
    | some messages =>
      rw [needsNewSession_some sessions lastSession messages hl hm]
      constructor
      · intro h
        have h2 : decide (messages.length ≥ 100) = true := by
          injection h
        exact Or.inr ⟨lastSession, messages, rfl, hm, by simpa using h2⟩
      · rintro (h | ⟨ls, ms, hls, hms, hlen⟩)
        · exact absurd h hne
        · cases hls
          rw [hm] at hms
          cases hms
          simp [hlen]

theorem needsNewSession_false (sessions : List ChatSession)
    (h : needsNewSession sessions = .ok false) :
    ∃ lastSession messages, sessions = sessions.dropLast ++ [lastSession] ∧
      sessions.getLast? = some lastSession ∧
      lastSession.messages = some messages ∧ messages.length < 100 := by
  cases hl : sessions.getLast? with
  | none =>
    have hnil : sessions = [] := List.getLast?_eq_none_iff.mp hl
    subst hnil
    rw [needsNewSession_nil] at h
    cases h
  | some lastSession =>
    cases hm : lastSession.messages with
    | none =>
      obtain ⟨e, he⟩ := needsNewSession_none sessions lastSession hl hm
      rw [he] at h
      cases h
    | some messages =>
      rw [needsNewSession_some sessions lastSession messages hl hm] at h
      have h2 : decide (messages.length ≥ 100) = false := by
        injection h
      refine ⟨lastSession, messages, ?_, rfl, hm, by simpa using h2⟩
      exact (List.dropLast_append_getLast? lastSession hl).symm

theorem recordExchange_cases (henv : HandlerEnv) (project project1 : Project)
    (message aiResponse : Str)
    (h : recordExchange henv project message aiResponse = .ok project1) :
    (needsNewSession (project.chatSessions.getD []) = .ok true ∧
      project1.chatSessions = some (project.chatSessions.getD [] ++
        [appendExchange henv message aiResponse (newSession henv)])) ∨
    (needsNewSession (project.chatSessions.getD []) = .ok false ∧
      ∃ lastSession, (project.chatSessions.getD []).getLast? = some lastSession ∧
        project1.chatSessions = some ((project.chatSessions.getD []).dropLast ++
          [appendExchange henv message aiResponse lastSession])) := by
  unfold recordExchange at h
  simp only [] at h
  cases hn : needsNewSession (project.chatSessions.getD []) with
  | error e => rw [hn] at h; simp at h
  | ok fresh =>
    rw [hn] at h
    cases fresh with
    | true =>
      left
      simp only [if_true, List.getLast?_concat, List.dropLast_concat] at h
      injection h with h
      exact ⟨rfl, by rw [← h]⟩
    | false =>
      right
      obtain ⟨lastSession, messages, -, hlast, -, -⟩ := needsNewSession_false _ hn
      simp only [Bool.false_eq_true, if_false, hlast] at h
      injection h with h
      exact ⟨rfl, lastSession, hlast, by rw [← h]⟩

theorem sliceLast_min {α : Type} (xs : List α) :
    sliceLast (min 100 xs.length) xs = sliceLast 100 xs := by
  unfold sliceLast
  congr 1
  omega

theorem length_sliceLast {α : Type} (n : Nat) (xs : List α) :
    (sliceLast n xs).length = min n xs.length := by
  unfold sliceLast
  rw [List.length_drop]
  omega

/-- C16: when the session management records an exchange, a new session is started
exactly when the project has no session or its last session already holds 100 or more
messages; then every old session is kept as it was and the new, initially empty session
receives the pair. Otherwise the number of sessions is unchanged, the sessions before the
last are kept as they were, and the pair is appended to the last session. -/
theorem session_start_rule (henv : HandlerEnv) (project project1 : Project)
    (message aiResponse : Str)
    (h : recordExchange henv project message aiResponse = .ok project1) :
    ∃ sessions1, project1.chatSessions = some sessions1 ∧
      (sessions1.length = (project.chatSessions.getD []).length + 1 ↔
        (project.chatSessions.getD [] = [] ∨
          ∃ lastSession messages,
            (project.chatSessions.getD []).getLast? = some lastSession ∧
            lastSession.messages = some messages ∧ 100 ≤ messages.length)) ∧
      (sessions1.length = (project.chatSessions.getD []).length + 1 →
        (newSession henv).messages = some [] ∧
        sessions1 = project.chatSessions.getD [] ++
          [appendExchange henv message aiResponse (newSession henv)] ∧
        (appendExchange henv message aiResponse (newSession henv)).messages =
          some [userChatMessage henv message, assistantChatMessage henv aiResponse]) ∧
      (sessions1.length ≠ (project.chatSessions.getD []).length + 1 →
        sessions1.length = (project.chatSessions.getD []).length ∧
        ∃ lastSession previous,
          (project.chatSessions.getD []).getLast? = some lastSession ∧
          lastSession.messages = some previous ∧
          sessions1 = (project.chatSessions.getD []).dropLast ++
            [appendExchange henv message aiResponse lastSession] ∧
          (appendExchange henv message aiResponse lastSession).messages =
            some (sliceLast 98 previous ++
              [userChatMessage henv message, assistantChatMessage henv aiResponse])) := by
  rcases recordExchange_cases henv project project1 message aiResponse h with
    ⟨hnew, hs⟩ | ⟨hsame, lastSession, hlast, hs⟩
  · refine ⟨_, hs, ?_, ?_, ?_⟩
    · rw [← needsNewSession_true]
      simp [hnew]
    · intro _
      exact ⟨rfl, rfl, rfl⟩
    · intro hne
      exact absurd (by simp) hne
  · obtain ⟨ls, previous, hsplit, hls, hprev, hlt⟩ := needsNewSession_false _ hsame
    rw [hlast] at hls
    cases hls
    have hlen : ((project.chatSessions.getD []).dropLast ++
        [appendExchange henv message aiResponse lastSession]).length =
        (project.chatSessions.getD []).length := by
      conv_rhs => rw [hsplit]
      simp
    refine ⟨_, hs, ?_, ?_, ?_⟩
    · rw [← needsNewSession_true, hsame, hlen]
      constructor
      · intro habs
        omega
      · intro habs
        cases habs
    · intro habs
      rw [hlen] at habs
      omega
    · intro _
      refine ⟨hlen, lastSession, previous, hlast, hprev, rfl, ?_⟩
      rw [appendExchange_messages, hprev]
      simp only [Option.getD_some]
      rw [sliceLast_pair]

/-- C16 on a project whose only session is full, and on one whose last session has
room. -/
theorem session_start_rule_witness :
    (∃ sessions1, (recorded sampleHandlerEnv fullProject projectQuestion apology).chatSessions =
      some sessions1 ∧ sessions1.length = 2) ∧
    (∃ sessions1,
      (recorded sampleHandlerEnv nearlyFullProject projectQuestion apology).chatSessions =
        some sessions1 ∧ sessions1.length = 2) := by
  obtain ⟨s1, h1, hiff1, -, -⟩ := session_start_rule sampleHandlerEnv fullProject
    (recorded sampleHandlerEnv fullProject projectQuestion apology) projectQuestion apology (by rfl)
  obtain ⟨s2, h2, hiff2, -, hsame2⟩ := session_start_rule sampleHandlerEnv nearlyFullProject
    (recorded sampleHandlerEnv nearlyFullProject projectQuestion apology) projectQuestion apology (by rfl)
  refine ⟨⟨s1, h1, hiff1.mpr (Or.inr ⟨sessionOf 100, _, rfl, rfl, by decide⟩)⟩, s2, h2, ?_⟩
  refine (hsame2 ?_).1
  intro habs
  rcases hiff2.mp habs with hnil | ⟨ls, ms, hls, hms, hlen⟩
  · cases hnil
  · cases hls
    cases hms
    revert hlen
    decide

/-- C17: after the session management has recorded an exchange, the messages of the
active session are the last `min(100, n + 2)` of the `n` previous messages of that
session followed by the user message and the assistant message: at most 100 messages,
ending with the user message (content the message) and the assistant message (content
the response). The two entries have no `length`, no `messageId` and no `responseTime`:
the object literals of the handler carry the length of the message and of the response,
but the schema of the project declares only `role`, `content` and `timestamp` for an
element of `messages`. -/
theorem session_messages_lack_length (henv : HandlerEnv) (project project1 : Project)
    (message aiResponse : Str)
    (h : recordExchange henv project message aiResponse = .ok project1) :
    ∃ earlier active previous current,
      project1.chatSessions = some (earlier ++ [active]) ∧
      ((needsNewSession (project.chatSessions.getD []) = .ok true ∧ previous = []) ∨
        (needsNewSession (project.chatSessions.getD []) = .ok false ∧
          ∃ lastSession, (project.chatSessions.getD []).getLast? = some lastSession ∧
            lastSession.messages = some previous)) ∧
      active.messages = some current ∧
      current = sliceLast (min 100 (previous.length + 2))
        (previous ++ [userChatMessage henv message, assistantChatMessage henv aiResponse]) ∧
      current.length = min 100 (previous.length + 2) ∧
      current.length ≤ 100 ∧
      current = sliceLast 98 previous ++
        [userChatMessage henv message, assistantChatMessage henv aiResponse] ∧
      (userChatMessage henv message).role = .user ∧
      (userChatMessage henv message).content = message ∧
      (userMessageObject henv message).length = some message.length ∧
      (userChatMessage henv message).length = none ∧
      (userChatMessage henv message).messageId = none ∧
      (assistantChatMessage henv aiResponse).role = .assistant ∧
      (assistantChatMessage henv aiResponse).content = aiResponse ∧
      (assistantMessageObject henv aiResponse).length = some aiResponse.length ∧
      (assistantChatMessage henv aiResponse).length = none ∧
      (assistantChatMessage henv aiResponse).messageId = none ∧
      (assistantChatMessage henv aiResponse).responseTime = none := by
  have key : ∀ previous : List ChatMessage,
      sliceLast 100 (previous ++
        [userChatMessage henv message, assistantChatMessage henv aiResponse]) =
      sliceLast (min 100 (previous.length + 2)) (previous ++
        [userChatMessage henv message, assistantChatMessage henv aiResponse]) := by
    intro previous
    have := sliceLast_min (previous ++
      [userChatMessage henv message, assistantChatMessage henv aiResponse])
    simp only [List.length_append, List.length_cons, List.length_nil] at this
    exact this.symm
  have hlen : ∀ previous : List ChatMessage,
      (sliceLast (min 100 (previous.length + 2)) (previous ++
        [userChatMessage henv message, assistantChatMessage henv aiResponse])).length =
      min 100 (previous.length + 2) := by
    intro previous
    rw [length_sliceLast]
    simp only [List.length_append, List.length_cons, List.length_nil]
    omega
  rcases recordExchange_cases henv project project1 message aiResponse h with
    ⟨hnew, hs⟩ | ⟨hsame, lastSession, hlast, hs⟩
  · refine ⟨_, _, [], sliceLast (min 100 (([] : List ChatMessage).length + 2))
      ([] ++ [userChatMessage henv message, assistantChatMessage henv aiResponse]),
      hs, Or.inl ⟨hnew, rfl⟩, ?_, rfl, hlen [], ?_, ?_, rfl, rfl, rfl, rfl, rfl, rfl, rfl,
      rfl, rfl, rfl, rfl⟩
    · rw [appendExchange_messages, ← key]
      rfl
    · rw [hlen]; omega
    · rw [← key, sliceLast_pair]
  · obtain ⟨ls, previous, -, hls, hprev, -⟩ := needsNewSession_false _ hsame
    rw [hlast] at hls
    cases hls
    refine ⟨_, _, previous, sliceLast (min 100 (previous.length + 2))
      (previous ++ [userChatMessage henv message, assistantChatMessage henv aiResponse]),
      hs, Or.inr ⟨hsame, lastSession, hlast, hprev⟩, ?_, rfl, hlen previous, ?_, ?_,
      rfl, rfl, rfl, rfl, rfl, rfl, rfl, rfl, rfl, rfl, rfl⟩
    · rw [appendExchange_messages, hprev, ← key]
      rfl
    · rw [hlen]; omega
    · rw [← key, sliceLast_pair]

/-- C17 on a project without sessions and the message 'Tell me about this project': the
session holds the pair, the user entry has the content of the message and no `length`,
the assistant entry no `length` either. -/
theorem session_messages_lack_length_witness :
    ∃ active userEntry assistantEntry,
      (recorded sampleHandlerEnv { chatSessions := none } projectQuestion
        projectBlock).chatSessions = some [active] ∧
      active.messages = some [userEntry, assistantEntry] ∧
      userEntry.content = projectQuestion ∧ userEntry.length = none ∧
      assistantEntry.content = projectBlock ∧ assistantEntry.length = none := by
  obtain ⟨earlier, active, previous, current, hs, hprev, hact, -, -, -, hcur, -, hcontent, -,
      hlength, -, -, hcontent2, -, hlength2, -, -⟩ :=
    session_messages_lack_length sampleHandlerEnv { chatSessions := none }
      (recorded sampleHandlerEnv { chatSessions := none } projectQuestion projectBlock)
      projectQuestion projectBlock (by rfl)
  rcases hprev with ⟨-, hnil⟩ | ⟨hsame, -⟩
  · subst hnil
    have hone : earlier ++ [active] =
        [appendExchange sampleHandlerEnv projectQuestion projectBlock
          (newSession sampleHandlerEnv)] := Option.some.inj (hs.symm.trans (by rfl))
    have hearlier : earlier = [] := by
      have hlen := congrArg List.length hone
      simp only [List.length_append, List.length_cons, List.length_nil] at hlen
      exact List.length_eq_zero.mp (by omega)
    subst hearlier
    refine ⟨active, userChatMessage sampleHandlerEnv projectQuestion,
      assistantChatMessage sampleHandlerEnv projectBlock, hs, ?_, hcontent, hlength,
      hcontent2, hlength2⟩
    rw [hact, hcur]
    rfl
  · cases hsame

/-! ## Per-user memory -/

theorem generateResponse_other (rt : Runtime) (memory : Memory) (env : Env)
    (message userA userB : Str) (h : userB ≠ userA) :
    (generateResponse rt memory env message userA).2 userB = memory userB := by
  unfold generateResponse
  simp only []
  split <;> simp [Memory.set, h]

/-- C21: a `generateResponse` call for user A leaves the memory entry of every other user
B as it was, whether B has an entry or not, and the response for A, and the entry left
for A, are the same for any two memory maps that agree on A. -/
theorem memory_is_per_user (rt : Runtime) (env : Env) (message userA userB : Str)
    (hAB : userA ≠ userB) :
    (∀ memory : Memory,
      (generateResponse rt memory env message userA).2 userB = memory userB) ∧
    (∀ memory1 memory2 : Memory, memory1 userA = memory2 userA →
      (generateResponse rt memory1 env message userA).1 =
        (generateResponse rt memory2 env message userA).1 ∧
      (generateResponse rt memory1 env message userA).2 userA =
        (generateResponse rt memory2 env message userA).2 userA) := by
  refine ⟨fun memory => generateResponse_other rt memory env message userA userB
    (fun h => hAB h.symm), ?_⟩
  intro memory1 memory2 h
  have hum : userMemoryOf memory1 env userA = userMemoryOf memory2 env userA := by
    unfold userMemoryOf
    rw [h]
  unfold generateResponse
  simp only [hum]
  split <;> simp [Memory.set]

/-- C21 with two users: the call for the first creates no entry for the second and leaves
an existing entry of the second untouched. -/
theorem memory_is_per_user_witness :
    (generateResponse asciiRuntime emptyMemory sampleEnv projectQuestion someUser).2
      otherUser = none ∧
    (generateResponse asciiRuntime (emptyMemory.set otherUser busyMemory) sampleEnv
      projectQuestion someUser).2 otherUser = some busyMemory :=
  ⟨(memory_is_per_user asciiRuntime sampleEnv projectQuestion someUser otherUser
      (by decide)).1 emptyMemory,
   ((memory_is_per_user asciiRuntime sampleEnv projectQuestion someUser otherUser
      (by decide)).1 (emptyMemory.set otherUser busyMemory)).trans (by rfl)⟩

/-! ## The fallback and the regular responses -/

theorem pick_map_mem (xs : List Str) (f : Str → Str) (d : Draw) (h : xs ≠ []) :
    f (pick xs d) ∈ xs.map f :=
  List.mem_map.mpr ⟨pick xs d, pick_mem xs d h, rfl⟩

theorem generateGreetingResponse_mem (userMemory : UserMemory) (now : Int) (d : Draw) :
    generateGreetingResponse userMemory now d ∈ welcomeBack :: greetings := by
  unfold generateGreetingResponse
  simp only []
  split
  · exact List.mem_cons_self _ _
  · exact List.mem_cons_of_mem _ (pick_mem greetings d (by decide))

theorem generateTechResponse_mem (intent : IntentResult) (context : Context) :
    generateTechResponse intent context ∈
      [reactBlurb, nodeBlurb, mongoBlurb, stackOverview] := by
  unfold generateTechResponse
  simp only []
  split
  · simp
  · split
    · simp
    · split <;> simp

theorem handleComplexQuery_cases (message : Str) (context : Context) (d : Draw) :
    ((includes message (lit "difference between") = true ∨
        includes message (lit "compare") = true) ∧
      handleComplexQuery message context d = .ok (handleComparisonQuery message)) ∨
    (includes message (lit "difference between") = false ∧
      includes message (lit "compare") = false ∧
      (includes message (lit "why") = true ∨ includes message (lit "benefit") = true) ∧
      handleComplexQuery message context d =
        .error (.notAFunction "handleExplanationQuery")) ∨
    (includes message (lit "difference between") = false ∧
      includes message (lit "compare") = false ∧
      includes message (lit "why") = false ∧ includes message (lit "benefit") = false ∧
      handleComplexQuery message context d =
        .ok (pick inDepthOpenings d ++ keyPoints)) := by
  unfold handleComplexQuery
  cases h1 : includes message (lit "difference between") <;>
    cases h2 : includes message (lit "compare") <;>
    cases h3 : includes message (lit "why") <;>
    cases h4 : includes message (lit "benefit") <;>
    simp [handleExplanationQuery, generateInDepthResponse]

theorem plain_of_greeting (r : Str) (h : r ∈ welcomeBack :: greetings) :
    r ∈ plainResponses := by
  unfold plainResponses
  simp only [List.mem_append]
  tauto

theorem plain_of_tech (r : Str) (h : r ∈ [reactBlurb, nodeBlurb, mongoBlurb, stackOverview]) :
    r ∈ plainResponses := by
  unfold plainResponses
  simp only [List.mem_append]
  tauto

theorem plain_of_coding (r : Str)
    (h : r ∈ tips.map (fun tip => codingIntro ++ tip ++ codingOutro)) :
    r ∈ plainResponses := by
  unfold plainResponses
  simp only [List.mem_append]
  tauto

theorem plain_of_block (r : Str) (h : r ∈ [projectBlock, helpBlock, careerBlock]) :
    r ∈ plainResponses := by
  unfold plainResponses
  simp only [List.mem_append]
  tauto

theorem plain_of_inDepth (r : Str)
    (h : r ∈ inDepthOpenings.map (fun opening => opening ++ keyPoints)) :
    r ∈ plainResponses := by
  unfold plainResponses
  simp only [List.mem_append]
  tauto

theorem plain_of_engaging (r : Str)
    (h : r ∈ engagingPrompts.map (fun prompt => prompt ++ engagingOutro)) :
    r ∈ plainResponses := by
  unfold plainResponses
  simp only [List.mem_append]
  tauto

theorem analyzeAndRespond_cases (rt : Runtime) (env : Env) (lowerMessage originalMessage : Str)
    (userMemory : UserMemory) :
    (∃ r, analyzeAndRespond rt env lowerMessage originalMessage userMemory = .ok r ∧
      r ∈ plainResponses) ∨
    ((detectIntent rt lowerMessage originalMessage).category = .complex ∧
      (includes originalMessage (lit "difference between") = true ∨
        includes originalMessage (lit "compare") = true) ∧
      analyzeAndRespond rt env lowerMessage originalMessage userMemory =
        .ok (handleComparisonQuery originalMessage)) ∨
    ((detectIntent rt lowerMessage originalMessage).category = .complex ∧
      includes originalMessage (lit "difference between") = false ∧
      includes originalMessage (lit "compare") = false ∧
      (includes originalMessage (lit "why") = true ∨
        includes originalMessage (lit "benefit") = true) ∧
      analyzeAndRespond rt env lowerMessage originalMessage userMemory =
        .error (.notAFunction "handleExplanationQuery")) := by
  cases hc : (detectIntent rt lowerMessage originalMessage).category with
  | greeting =>
    left
    refine ⟨generateGreetingResponse userMemory env.now env.random, ?_, ?_⟩
    · unfold analyzeAndRespond; simp only [hc]
    · exact plain_of_greeting _ (generateGreetingResponse_mem _ _ _)
  | technology =>
    left
    refine ⟨_, ?_, plain_of_tech _ (generateTechResponse_mem
      (detectIntent rt lowerMessage originalMessage)
      (getConversationContext rt userMemory.conversationHistory))⟩
    unfold analyzeAndRespond; simp only [hc]
  | coding =>
    left
    refine ⟨_, ?_, plain_of_coding _ (pick_map_mem tips
      (fun tip => codingIntro ++ tip ++ codingOutro) env.random (by decide))⟩
    unfold analyzeAndRespond; simp only [hc]
    rfl
  | project =>
    left
    refine ⟨projectBlock, ?_, plain_of_block _ (by simp)⟩
    unfold analyzeAndRespond; simp only [hc]
    rfl
  | help =>
    left
    refine ⟨helpBlock, ?_, plain_of_block _ (by simp)⟩
    unfold analyzeAndRespond; simp only [hc]
    rfl
  | career =>
    left
    refine ⟨careerBlock, ?_, plain_of_block _ (by simp)⟩
    unfold analyzeAndRespond; simp only [hc]
    rfl
  | complex =>
    have hrw := analyzeAndRespond_complex rt env lowerMessage originalMessage userMemory hc
    rcases handleComplexQuery_cases originalMessage
        (getConversationContext rt userMemory.conversationHistory) env.random with
      ⟨hcmp, hres⟩ | ⟨h1, h2, h3, hres⟩ | ⟨_, _, _, _, hres⟩
    · right; left
      exact ⟨rfl, hcmp, hrw.trans hres⟩
    · right; right
      exact ⟨rfl, h1, h2, h3, hrw.trans hres⟩
    · left
      exact ⟨_, hrw.trans hres, plain_of_inDepth _ (pick_map_mem inDepthOpenings
        (fun opening => opening ++ keyPoints) env.random (by decide))⟩
  | general =>
    left
    refine ⟨_, ?_, plain_of_engaging _ (pick_map_mem engagingPrompts
      (fun prompt => prompt ++ engagingOutro) env.random (by decide))⟩
    unfold analyzeAndRespond; simp only [hc]
    rfl

theorem handleComparisonQuery_mem (message : Str) :
    handleComparisonQuery message ∈ [reactVsVue, specifyPrompt] := by
  unfold handleComparisonQuery
  split <;> simp

theorem apology_not_regular : apology ∉ regularResponses := by decide

theorem plain_subset_regular (r : Str) (h : r ∈ plainResponses) : r ∈ regularResponses :=
  List.mem_append_left _ h

theorem generateResponse_cases (rt : Runtime) (memory : Memory) (env : Env)
    (message userId : Str) :
    (reachesExplanation rt message ∧
      generateResponse rt memory env message userId =
        (apology, memory.set userId (pushUser env message (userMemoryOf memory env userId))))
    ∨ (¬ reachesExplanation rt message ∧
      (generateResponse rt memory env message userId).1 ∈ regularResponses ∧
      analyzeAndRespond rt env (trim (rt.toLowerCase message)) message
        (pushUser env message (userMemoryOf memory env userId)) =
          .ok (generateResponse rt memory env message userId).1) := by
  rcases analyzeAndRespond_cases rt env (trim (rt.toLowerCase message)) message
      (pushUser env message (userMemoryOf memory env userId)) with
    ⟨r, hr, hmem⟩ | ⟨hc, hcmp, hr⟩ | ⟨hc, h1, h2, h3, hr⟩
  · right
    have hno : ¬ reachesExplanation rt message := by
      rintro ⟨hc, h1, h2, h3⟩
      rcases analyzeAndRespond_cases rt env (trim (rt.toLowerCase message)) message
          (pushUser env message (userMemoryOf memory env userId)) with
        ⟨_, _, _⟩ | ⟨_, hcmp, _⟩ | ⟨_, _, _, _, he⟩
      · rw [analyzeAndRespond_complex rt env _ _ _ hc] at hr
        rcases handleComplexQuery_cases message
            (getConversationContext rt
              (pushUser env message (userMemoryOf memory env userId)).conversationHistory)
            env.random with ⟨hcmp, _⟩ | ⟨_, _, _, he⟩ | ⟨_, _, hw, hb, _⟩
        · rcases hcmp with hcmp | hcmp
          · rw [h1] at hcmp; cases hcmp
          · rw [h2] at hcmp; cases hcmp
        · rw [he] at hr; cases hr
        · rcases h3 with h3 | h3
          · rw [hw] at h3; cases h3
          · rw [hb] at h3; cases h3
      · rcases hcmp with hcmp | hcmp
        · rw [h1] at hcmp; cases hcmp
        · rw [h2] at hcmp; cases hcmp
      · rw [he] at hr; cases hr
    rw [generateResponse_ok rt memory env message userId r hr]
    exact ⟨hno, plain_subset_regular r hmem, hr⟩
  · right
    have hno : ¬ reachesExplanation rt message := by
      rintro ⟨_, h1, h2, _⟩
      rcases hcmp with hcmp | hcmp
      · rw [h1] at hcmp; cases hcmp
      · rw [h2] at hcmp; cases hcmp
    rw [generateResponse_ok rt memory env message userId _ hr]
    refine ⟨hno, List.mem_append_right _ (handleComparisonQuery_mem message), hr⟩
  · left
    exact ⟨⟨hc, h1, h2, h3⟩, generateResponse_error rt memory env message userId _ hr⟩

/-- C22: `generateResponse` returns the fixed apology exactly when the lower-cased, trimmed
message is classified complex and the original message contains neither "difference
between" nor "compare" but contains "why" or "benefit", the branch that calls the
undefined `handleExplanationQuery`; for every other message it returns one of the regular
category responses, and the apology is none of them. -/
theorem fallback_characterisation (rt : Runtime) (memory : Memory) (env : Env)
    (message userId : Str) :
    ((generateResponse rt memory env message userId).1 = apology ↔
      reachesExplanation rt message) ∧
    (¬ reachesExplanation rt message →
      (generateResponse rt memory env message userId).1 ∈ regularResponses) ∧
    apology ∉ regularResponses := by
  rcases generateResponse_cases rt memory env message userId with
    ⟨hreach, hres⟩ | ⟨hno, hmem, _⟩
  · refine ⟨⟨fun _ => hreach, fun _ => by rw [hres]⟩, fun h => absurd hreach h,
      apology_not_regular⟩
  · refine ⟨⟨fun h => ?_, fun h => absurd h hno⟩, fun _ => hmem, apology_not_regular⟩
    rw [h] at hmem
    exact absurd hmem apology_not_regular

/-- C22 on "why is the sky blue" (fallback) and "Tell me about this project" (regular). -/
theorem fallback_characterisation_witness :
    (generateResponse asciiRuntime emptyMemory sampleEnv whyQuestion someUser).1 = apology ∧
    (generateResponse asciiRuntime emptyMemory sampleEnv projectQuestion someUser).1 ∈
      regularResponses :=
  ⟨(fallback_characterisation asciiRuntime emptyMemory sampleEnv whyQuestion someUser).1.mpr
      ⟨by decide, by decide, by decide, Or.inl (by decide)⟩,
   (fallback_characterisation asciiRuntime emptyMemory sampleEnv projectQuestion
      someUser).2.1 (fun h => absurd h.1 (by decide))⟩

/-- C24: when `generateResponse` returns the fallback apology, the entry of the user holds
the previous history followed by the user entry for the message, trimmed to the last 10
entries: the user entry is its last entry, no assistant entry follows it, and
`lastInteraction` and the preferences keep their previous values (for an unseen user, the
creation time and no preferences). -/
theorem failed_call_state (rt : Runtime) (memory : Memory) (env : Env) (message userId : Str)
    (h : (generateResponse rt memory env message userId).1 = apology) :
    (generateResponse rt memory env message userId).2 userId = some
      { conversationHistory :=
          if ((userMemoryOf memory env userId).conversationHistory ++
              [({ role := .user, content := message, timestamp := env.userAt } : Entry)]).length
              > 10
          then sliceLast 10 ((userMemoryOf memory env userId).conversationHistory ++
              [{ role := .user, content := message, timestamp := env.userAt }])
          else (userMemoryOf memory env userId).conversationHistory ++
              [{ role := .user, content := message, timestamp := env.userAt }]
        userPreferences := (userMemoryOf memory env userId).userPreferences
        lastInteraction := (userMemoryOf memory env userId).lastInteraction } ∧
    (∃ userMemory earlier, (generateResponse rt memory env message userId).2 userId =
        some userMemory ∧
      userMemory.conversationHistory =
        earlier ++ [{ role := .user, content := message, timestamp := env.userAt }] ∧
      userMemory.conversationHistory.length ≤ 10) ∧
    (memory userId = none → (userMemoryOf memory env userId).lastInteraction = env.createdAt ∧
      (userMemoryOf memory env userId).conversationHistory = []) ∧
    (∀ previous, memory userId = some previous → userMemoryOf memory env userId = previous) := by
  rcases generateResponse_cases rt memory env message userId with
    ⟨_, hres⟩ | ⟨_, hmem, _⟩
  · rw [hres]
    refine ⟨by simp [Memory.set, pushUser], ?_, ?_, ?_⟩
    · obtain ⟨earlier, hearlier⟩ :=
        pushUser_history env message (userMemoryOf memory env userId)
      refine ⟨pushUser env message (userMemoryOf memory env userId), earlier,
        by simp [Memory.set], hearlier, ?_⟩
      unfold pushUser
      simp only []
      split
      · unfold sliceLast
        rw [List.length_drop]
        omega
      · omega
    · intro hnone
      simp [userMemoryOf, hnone]
    · intro previous hsome
      simp [userMemoryOf, hsome]
  · rw [h] at hmem
    exact absurd hmem apology_not_regular

/-- C24 on "why is the sky blue" sent by a user with two earlier entries. -/
theorem failed_call_state_witness :
    (generateResponse asciiRuntime (emptyMemory.set someUser busyMemory) sampleEnv
        whyQuestion someUser).2 someUser = some
      { conversationHistory := busyMemory.conversationHistory ++
          [{ role := .user, content := whyQuestion, timestamp := 2 }]
        userPreferences := busyMemory.userPreferences
        lastInteraction := 12 } :=
  (failed_call_state asciiRuntime (emptyMemory.set someUser busyMemory) sampleEnv
    whyQuestion someUser (by rfl)).1.trans (by rfl)

theorem reactVsVue_not_plain : reactVsVue ∉ plainResponses := by decide

/-- C25: classification ignores case but the complex sub-dispatch reads the original
message. "Compare React and Vue" is classified complex and answered with an in-depth
template; "compare React and Vue" is classified complex, reaches the comparison handler
and gets the prompt to name two technologies; and whenever `generateResponse` returns the
React-vs-Vue block the original message contains "react" and "vue" in lower case. -/
theorem comparison_is_case_sensitive (rt : Runtime) (memory : Memory) (env : Env)
    (userId : Str) :
    ((detectIntent rt (trim (rt.toLowerCase capitalCompare)) capitalCompare).category
        = .complex ∧
      includes capitalCompare (lit "compare") = false ∧
      (generateResponse rt memory env capitalCompare userId).1 ∈
        inDepthOpenings.map (fun opening => opening ++ keyPoints)) ∧
    ((detectIntent rt (trim (rt.toLowerCase lowerCompare)) lowerCompare).category
        = .complex ∧
      (∀ (context : Context) (d : Draw), handleComplexQuery lowerCompare context d =
        .ok (handleComparisonQuery lowerCompare)) ∧
      (generateResponse rt memory env lowerCompare userId).1 = specifyPrompt) ∧
    specifyPrompt ≠ reactVsVue ∧
    reactVsVue ∉ inDepthOpenings.map (fun opening => opening ++ keyPoints) ∧
    (∀ message : Str, (generateResponse rt memory env message userId).1 = reactVsVue →
      includes message (lit "react") = true ∧ includes message (lit "vue") = true) := by
  have hcap : (detectIntent rt (trim (rt.toLowerCase capitalCompare)) capitalCompare).category
      = .complex := category_of_ascii rt _ _ (by decide) (by decide)
  have hlow : (detectIntent rt (trim (rt.toLowerCase lowerCompare)) lowerCompare).category
      = .complex := category_of_ascii rt _ _ (by decide) (by decide)
  have hroute : ∀ (context : Context) (d : Draw), handleComplexQuery lowerCompare context d =
      .ok (handleComparisonQuery lowerCompare) := by
    intro context d
    have h1 : includes lowerCompare (lit "compare") = true := by decide
    simp [handleComplexQuery, h1]
  have hprompt : handleComparisonQuery lowerCompare = specifyPrompt := by
    have h1 : includes lowerCompare (lit "react") = false := by decide
    simp [handleComparisonQuery, h1]
  refine ⟨⟨hcap, by decide, ?_⟩, ⟨hlow, hroute, ?_⟩, by decide, by decide, ?_⟩
  · have hres : analyzeAndRespond rt env (trim (rt.toLowerCase capitalCompare)) capitalCompare
        (pushUser env capitalCompare (userMemoryOf memory env userId)) =
        .ok (pick inDepthOpenings env.random ++ keyPoints) := by
      rw [analyzeAndRespond_complex rt env _ _ _ hcap]
      have h1 : includes capitalCompare (lit "difference between") = false := by decide
      have h2 : includes capitalCompare (lit "compare") = false := by decide
      have h3 : includes capitalCompare (lit "why") = false := by decide
      have h4 : includes capitalCompare (lit "benefit") = false := by decide
      simp [handleComplexQuery, h1, h2, h3, h4, generateInDepthResponse]
    rw [generateResponse_ok rt memory env capitalCompare userId _ hres]
    exact pick_map_mem inDepthOpenings (fun opening => opening ++ keyPoints) env.random
      (by decide)
  · have hres : analyzeAndRespond rt env (trim (rt.toLowerCase lowerCompare)) lowerCompare
        (pushUser env lowerCompare (userMemoryOf memory env userId)) = .ok specifyPrompt := by
      rw [analyzeAndRespond_complex rt env _ _ _ hlow, hroute, hprompt]
    rw [generateResponse_ok rt memory env lowerCompare userId _ hres]
  · intro message hblock
    rcases analyzeAndRespond_cases rt env (trim (rt.toLowerCase message)) message
        (pushUser env message (userMemoryOf memory env userId)) with
      ⟨r, hr, hmem⟩ | ⟨_, _, hr⟩ | ⟨_, _, _, _, hr⟩
    · rw [generateResponse_ok rt memory env message userId r hr] at hblock
      simp only at hblock
      rw [hblock] at hmem
      exact absurd hmem reactVsVue_not_plain
    · rw [generateResponse_ok rt memory env message userId _ hr] at hblock
      simp only at hblock
      unfold handleComparisonQuery at hblock
      split at hblock
      · rename_i hboth
        simpa using hboth
      · exact absurd hblock (by decide)
    · rw [generateResponse_error rt memory env message userId _ hr] at hblock
      simp only at hblock
      exact absurd hblock (by decide)

/-! ## The stored history along a sequence of calls -/

theorem userMemoryOf_history (memory : Memory) (env : Env) (userId : Str) :
    (userMemoryOf memory env userId).conversationHistory = historyOf memory userId := by
  unfold userMemoryOf historyOf
  cases memory userId <;> rfl

theorem pushUser_length (env : Env) (message : Str) (userMemory : UserMemory) :
    (pushUser env message userMemory).conversationHistory.length =
      min (userMemory.conversationHistory.length + 1) 10 := by
  unfold pushUser
  simp only []
  split
  · rename_i h
    simp only [List.length_append, List.length_singleton] at h
    unfold sliceLast
    simp only [List.length_drop, List.length_append, List.length_singleton]
    omega
  · rename_i h
    simp only [List.length_append, List.length_singleton] at h ⊢
    omega

theorem pushUser_suffix (env : Env) (message : Str) (userMemory : UserMemory) :
    List.IsSuffix (pushUser env message userMemory).conversationHistory
      (userMemory.conversationHistory ++
        [{ role := .user, content := message, timestamp := env.userAt }]) := by
  unfold pushUser
  simp only []
  split
  · exact List.drop_suffix _ _
  · exact List.suffix_refl _

theorem historyOf_step (rt : Runtime) (memory : Memory) (env : Env) (message userId : Str) :
    ∃ kept, historyOf (generateResponse rt memory env message userId).2 userId =
        kept ++ (appendedBy rt memory env message userId).tail ∧
      List.IsSuffix kept (historyOf memory userId ++
        [{ role := .user, content := message, timestamp := env.userAt }]) ∧
      kept.length = min ((historyOf memory userId).length + 1) 10 := by
  refine ⟨(pushUser env message (userMemoryOf memory env userId)).conversationHistory, ?_, ?_, ?_⟩
  · unfold appendedBy
    cases h : analyzeAndRespond rt env (trim (rt.toLowerCase message)) message
        (pushUser env message (userMemoryOf memory env userId)) with
    | ok response =>
      rw [generateResponse_ok rt memory env message userId response h]
      simp [historyOf, Memory.set]
    | error e =>
      rw [generateResponse_error rt memory env message userId e h]
      simp [historyOf, Memory.set]
  · rw [← userMemoryOf_history memory env userId]
    exact pushUser_suffix env message _
  · rw [pushUser_length, userMemoryOf_history]

theorem appendedBy_eq (rt : Runtime) (memory : Memory) (env : Env) (message userId : Str) :
    appendedBy rt memory env message userId =
      { role := .user, content := message, timestamp := env.userAt } ::
        (appendedBy rt memory env message userId).tail := by
  unfold appendedBy
  rfl

theorem appendedBy_tail_length (rt : Runtime) (memory : Memory) (env : Env)
    (message userId : Str) :
    (appendedBy rt memory env message userId).tail.length ≤ 1 ∧
    ((∃ response, analyzeAndRespond rt env (trim (rt.toLowerCase message)) message
        (pushUser env message (userMemoryOf memory env userId)) = .ok response) →
      (appendedBy rt memory env message userId).tail.length = 1) := by
  unfold appendedBy
  cases h : analyzeAndRespond rt env (trim (rt.toLowerCase message)) message
      (pushUser env message (userMemoryOf memory env userId)) with
  | ok response => simp
  | error e => simp

theorem history_suffix (rt : Runtime) (userId : Str) (calls : List (Env × Str)) :
    ∀ memory : Memory,
      List.IsSuffix (historyOf (callSequence rt userId memory calls) userId)
        (historyOf memory userId ++ chronologicalLog rt userId memory calls) := by
  induction calls with
  | nil =>
    intro memory
    simp [callSequence, chronologicalLog]
  | cons call rest ih =>
    intro memory
    obtain ⟨env, message⟩ := call
    obtain ⟨kept, hkept, hsuffix, -⟩ := historyOf_step rt memory env message userId
    have hrest := ih (generateResponse rt memory env message userId).2
    obtain ⟨front, hfront⟩ := hsuffix
    obtain ⟨front2, hfront2⟩ := hrest
    refine ⟨front ++ front2, ?_⟩
    show _ ++ historyOf (callSequence rt userId
      (generateResponse rt memory env message userId).2 rest) userId = _
    show _ = historyOf memory userId ++ (appendedBy rt memory env message userId ++
      chronologicalLog rt userId (generateResponse rt memory env message userId).2 rest)
    rw [List.append_assoc, hfront2, hkept, appendedBy_eq]
    simp only [List.append_assoc, List.cons_append, List.tail_cons]
    rw [← List.append_assoc front kept, hfront]
    simp

theorem history_step_length (rt : Runtime) (memory : Memory) (env : Env)
    (message userId : Str) :
    (historyOf (generateResponse rt memory env message userId).2 userId).length ≤ 11 ∧
    ((∃ response, analyzeAndRespond rt env (trim (rt.toLowerCase message)) message
        (pushUser env message (userMemoryOf memory env userId)) = .ok response) →
      (historyOf (generateResponse rt memory env message userId).2 userId).length =
        min ((historyOf memory userId).length + 1) 10 + 1) := by
  obtain ⟨kept, hkept, -, hlen⟩ := historyOf_step rt memory env message userId
  have htail := appendedBy_tail_length rt memory env message userId
  rw [hkept, List.length_append, hlen]
  refine ⟨by omega, fun hok => ?_⟩
  rw [htail.2 hok]

theorem history_length_le (rt : Runtime) (userId : Str) (calls : List (Env × Str))
    (hne : calls ≠ []) :
    ∀ memory : Memory, (historyOf (callSequence rt userId memory calls) userId).length ≤ 11 := by
  induction calls with
  | nil => exact absurd rfl hne
  | cons call rest ih =>
    intro memory
    obtain ⟨env, message⟩ := call
    cases rest with
    | nil => exact (history_step_length rt memory env message userId).1
    | cons call2 rest2 =>
      exact ih (by simp) (generateResponse rt memory env message userId).2

theorem history_length_succeed (rt : Runtime) (userId : Str) (calls : List (Env × Str)) :
    ∀ (memory : Memory) (j : Nat), (historyOf memory userId).length = min (2 * j) 11 →
      allSucceed rt userId memory calls →
      (historyOf (callSequence rt userId memory calls) userId).length =
        min (2 * (j + calls.length)) 11 := by
  induction calls with
  | nil =>
    intro memory j hj _
    simpa [callSequence] using hj
  | cons call rest ih =>
    intro memory j hj hall
    obtain ⟨env, message⟩ := call
    obtain ⟨hok, hrest⟩ := hall
    have hstep := (history_step_length rt memory env message userId).2 hok
    have := ih (generateResponse rt memory env message userId).2 (j + 1)
      (by rw [hstep, hj]; omega) hrest
    show (historyOf (callSequence rt userId
      (generateResponse rt memory env message userId).2 rest) userId).length = _
    rw [this]
    simp only [List.length_cons]
    congr 2
    omega

/-- C23: for every sequence of `generateResponse` calls of a user, starting from any
memory, the stored history is a suffix of the earlier history followed by the
chronological log of the entries the calls appended (for a fresh user: of that log);
after every call it holds at most 11 entries; and for a fresh user after `k` calls none of
which ends in the fallback it holds exactly `min(2k, 11)` entries. -/
theorem history_is_recent_suffix (rt : Runtime) (userId : Str) (memory : Memory)
    (calls : List (Env × Str)) :
    List.IsSuffix (historyOf (callSequence rt userId memory calls) userId)
      (historyOf memory userId ++ chronologicalLog rt userId memory calls) ∧
    (memory userId = none →
      List.IsSuffix (historyOf (callSequence rt userId memory calls) userId)
        (chronologicalLog rt userId memory calls)) ∧
    (calls ≠ [] → (historyOf (callSequence rt userId memory calls) userId).length ≤ 11) ∧
    (memory userId = none → allSucceed rt userId memory calls →
      (historyOf (callSequence rt userId memory calls) userId).length =
        min (2 * calls.length) 11) := by
  have hsuffix := history_suffix rt userId calls memory
  refine ⟨hsuffix, ?_, fun hne => history_length_le rt userId calls hne memory, ?_⟩
  · intro hnone
    have h0 : historyOf memory userId = [] := by simp [historyOf, hnone]
    rw [h0] at hsuffix
    simpa using hsuffix
  · intro hnone hall
    have h0 : (historyOf memory userId).length = min (2 * 0) 11 := by
      simp [historyOf, hnone]
    have := history_length_succeed rt userId calls memory 0 h0 hall
    rw [this]
    congr 2
    omega

/-- C23 for a fresh user asking six times about the project: 11 entries are stored. -/
theorem history_is_recent_suffix_witness :
    (historyOf (callSequence asciiRuntime someUser emptyMemory sixProjectCalls)
      someUser).length = 11 :=
  (history_is_recent_suffix asciiRuntime someUser emptyMemory sixProjectCalls).2.2.2 rfl
    ⟨⟨_, rfl⟩, ⟨_, rfl⟩, ⟨_, rfl⟩, ⟨_, rfl⟩, ⟨_, rfl⟩, ⟨_, rfl⟩, trivial⟩

/-! ## The reachable states of the session recorder -/

theorem chatPost_saved (rt : Runtime) (henv : HandlerEnv) (store : Store) (memory : Memory)
    (req : ChatRequest) (project project1 : Project)
    (hfound : store.findOne req.projectId req.userId = .ok (some project))
    (hsaved : (chatPost rt henv store memory req).2.2 = some project1) :
    ∃ message aiResponse, recordExchange henv project message aiResponse = .ok project1 := by
  unfold chatPost at hsaved
  split at hsaved
  · cases hsaved
  · split at hsaved
    · rename_i message _
      split at hsaved
      · cases hsaved
      · rw [hfound] at hsaved
        simp only [] at hsaved
        cases hrec : recordExchange henv project message
            (generateResponse rt memory henv.engine message req.userId).1 with
        | error e =>
          rw [hrec] at hsaved
          cases hsaved
        | ok saved =>
          rw [hrec] at hsaved
          simp only [] at hsaved
          cases hsave : store.save saved with
          | error e =>
            rw [hsave] at hsaved
            cases hsaved
          | ok u =>
            rw [hsave] at hsaved
            simp only [Option.some.injEq] at hsaved
            exact ⟨message, _, by rw [hrec, hsaved]⟩
    · cases hsaved

theorem appendExchange_small (henv : HandlerEnv) (message aiResponse : Str)
    (session : ChatSession) (stored : List ChatMessage)
    (hm : session.messages = some stored) (hlen : stored.length + 2 ≤ 100) :
    (appendExchange henv message aiResponse session).messages =
      some (stored ++ [userChatMessage henv message, assistantChatMessage henv aiResponse]) ∧
    (appendExchange henv message aiResponse session).messageCount =
      some (stored.length + 2) := by
  unfold appendExchange
  simp only [hm, Option.getD_some, List.length_append, List.length_cons, List.length_nil]
  constructor
  · rw [if_neg (by omega)]
  · trivial

theorem sessionsInv_step (henv : HandlerEnv) (project project1 : Project)
    (message aiResponse : Str) (k : Nat)
    (hinv : SessionsInv (project.chatSessions.getD []) k)
    (h : recordExchange henv project message aiResponse = .ok project1) :
    SessionsInv (project1.chatSessions.getD []) (k + 1) := by
  rcases recordExchange_cases henv project project1 message aiResponse h with
    ⟨hnew, hs⟩ | ⟨hsame, lastSession, hlast, hs⟩
  · rw [hs]
    simp only [Option.getD_some]
    right
    have hnewmsg := appendExchange_small henv message aiResponse (newSession henv) [] rfl
      (by simp)
    refine ⟨project.chatSessions.getD [], _, _, rfl, ?_, hnewmsg.1, ?_, ?_, ?_, ?_⟩
    · rcases hinv with ⟨hnil, _⟩ | ⟨full, ls, ms, hsplit, hfull, hms, _, _, hle, _⟩
      · rw [hnil]; simp
      · rw [hsplit] at hnew ⊢
        have hgl : (full ++ [ls]).getLast? = some ls := by simp
        rw [needsNewSession_some _ ls ms hgl hms] at hnew
        have hge : 100 ≤ ms.length := by
          have : decide (ms.length ≥ 100) = true := by injection hnew
          simpa using this
        intro session hsession
        rcases List.mem_append.mp hsession with hin | hin
        · exact hfull session hin
        · simp only [List.mem_singleton] at hin
          subst hin
          exact ⟨ms, hms, by omega⟩
    · simp
    · simp
    · simp
    · rcases hinv with ⟨hnil, hk⟩ | ⟨full, ls, ms, hsplit, _, hms, _, _, hle, hk⟩
      · rw [hnil, hk]; simp
      · rw [hsplit] at hnew ⊢
        have hgl : (full ++ [ls]).getLast? = some ls := by simp
        rw [needsNewSession_some _ ls ms hgl hms] at hnew
        have hge : 100 ≤ ms.length := by
          have : decide (ms.length ≥ 100) = true := by injection hnew
          simpa using this
        simp only [List.length_append, List.length_cons, List.length_nil]
        omega
  · rcases hinv with ⟨hnil, _⟩ | ⟨full, ls, ms, hsplit, hfull, hms, heven, _, hle, hk⟩
    · rw [hnil] at hlast
      simp at hlast
    · rw [hsplit] at hlast hsame hs
      have hgl : (full ++ [ls]).getLast? = some ls := by simp
      rw [hgl] at hlast
      cases hlast
      rw [needsNewSession_some _ lastSession ms hgl hms] at hsame
      have hlt : ms.length < 100 := by
        have : decide (ms.length ≥ 100) = false := by injection hsame
        simpa using this
      have happ := appendExchange_small henv message aiResponse lastSession ms hms (by omega)
      rw [hs]
      simp only [Option.getD_some, List.dropLast_concat]
      right
      refine ⟨full, _, _, rfl, hfull, happ.1, ?_, ?_, ?_, ?_⟩
      · simp only [List.length_append, List.length_cons, List.length_nil]; omega
      · simp
      · simp only [List.length_append, List.length_cons, List.length_nil]; omega
      · simp only [List.length_append, List.length_cons, List.length_nil]; omega

theorem castSession_messages (session : ChatSession) (stored : List ChatMessage)
    (h : session.messages = some stored) :
    (castSession session).messages = some (stored.map castMessage) := by
  unfold castSession
  simp only [h, Option.getD_some]

theorem sessionsInv_cast (project : Project) (k : Nat)
    (h : SessionsInv (project.chatSessions.getD []) k) :
    SessionsInv ((castProject project).chatSessions.getD []) k := by
  unfold castProject
  simp only [Option.getD_some]
  rcases h with ⟨hnil, hk⟩ | ⟨full, ls, ms, hsplit, hfull, hms, heven, hge, hle, hk⟩
  · left
    rw [hnil]
    exact ⟨rfl, hk⟩
  · right
    refine ⟨full.map castSession, castSession ls, ms.map castMessage, ?_, ?_,
      castSession_messages ls ms hms, ?_, ?_, ?_, ?_⟩
    · rw [hsplit]
      simp
    · intro session hsession
      obtain ⟨original, horiginal, hcast⟩ := List.mem_map.mp hsession
      obtain ⟨stored, hs, hlen⟩ := hfull original horiginal
      refine ⟨stored.map castMessage, ?_, by simpa using hlen⟩
      rw [← hcast]
      exact castSession_messages original stored hs
    · simpa using heven
    · simpa using hge
    · simpa using hle
    · simpa using hk

theorem castProject_messageCount (project : Project) :
    ∀ session ∈ (castProject project).chatSessions.getD [],
      session.messageCount = none ∧ session.updatedAt = none := by
  intro session hsession
  unfold castProject at hsession
  simp only [Option.getD_some] at hsession
  obtain ⟨original, -, hcast⟩ := List.mem_map.mp hsession
  rw [← hcast]
  exact ⟨rfl, rfl⟩

theorem reachable_inv (project : Project) (k : Nat) (h : Reachable project k) :
    SessionsInv (project.chatSessions.getD []) k := by
  induction h with
  | start project h => exact Or.inl ⟨h, rfl⟩
  | exchange rt henv store memory req project project1 k _ hfound hsaved ih =>
    obtain ⟨message, aiResponse, hrec⟩ :=
      chatPost_saved rt henv store memory req project project1 hfound hsaved
    exact sessionsInv_cast project1 (k + 1)
      (sessionsInv_step henv project project1 message aiResponse k ih hrec)

theorem reachable_messageCount (project : Project) (k : Nat) (h : Reachable project k) :
    ∀ session ∈ project.chatSessions.getD [],
      session.messageCount = none ∧ session.updatedAt = none := by
  cases h with
  | start project h =>
    rw [h]
    intro session hsession
    cases hsession
  | exchange rt henv store memory req project project1 k _ hfound hsaved =>
    exact castProject_messageCount project1

theorem storedMessages_full (full : List ChatSession)
    (h : ∀ session ∈ full, ∃ stored, session.messages = some stored ∧
      stored.length = 100) :
    storedMessages full = 100 * full.length := by
  induction full with
  | nil => rfl
  | cons s rest ih =>
    obtain ⟨stored, hs, hlen⟩ := h s (List.mem_cons_self _ _)
    have hrest := ih (fun t ht => h t (List.mem_cons_of_mem _ ht))
    unfold storedMessages at hrest ⊢
    simp only [List.map_cons, List.sum_cons, hs, Option.getD_some, hlen, hrest,
      List.length_cons]
    omega

theorem storedMessages_inv (sessions : List ChatSession) (k : Nat)
    (h : SessionsInv sessions k) : storedMessages sessions = 2 * k := by
  rcases h with ⟨hnil, hk⟩ | ⟨full, ls, ms, hsplit, hfull, hms, -, -, -, hk⟩
  · rw [hnil, hk]; rfl
  · have hf := storedMessages_full full hfull
    unfold storedMessages at hf ⊢
    rw [hsplit]
    simp only [List.map_append, List.sum_append, hf, List.map_cons, List.map_nil,
      List.sum_cons, List.sum_nil, hms, Option.getD_some]
    omega

theorem recordExchange_progress (henv : HandlerEnv) (project : Project)
    (message aiResponse : Str) (k : Nat)
    (h : SessionsInv (project.chatSessions.getD []) k) :
    ∃ project1, recordExchange henv project message aiResponse = .ok project1 := by
  unfold recordExchange
  simp only []
  rcases h with ⟨hnil, -⟩ | ⟨full, ls, ms, hsplit, -, hms, -, -, -, -⟩
  · rw [hnil, needsNewSession_nil]
    simp
  · have hgl : (full ++ [ls]).getLast? = some ls := by simp
    rw [hsplit, needsNewSession_some _ ls ms hgl hms]
    by_cases hge : ms.length ≥ 100
    · simp [hge]
    · simp [hge]

theorem appendExchange_messageCount (henv : HandlerEnv) (message aiResponse : Str)
    (session : ChatSession) :
    (appendExchange henv message aiResponse session).messageCount =
      some ((session.messages.getD []).length + 2) := by
  unfold appendExchange
  simp

/-- C26: in a stored project that starts without chat sessions and changes only through
successful chat POST exchanges, after `k` exchanges every session holds an even number of
messages between 2 and 100, every session but the last holds exactly 100, the sessions
hold `2 * k` messages in all (no message was ever dropped by `slice(-100)`), there are
`ceil(k / 50)` sessions (a new one every 50 exchanges), and the session management of the
next exchange succeeds and again drops nothing. No stored session has a `messageCount`:
the handler assigns the number of messages to the session it holds, but `messageCount` is
no path of the schema of the project, so the stored session does not keep it. -/
theorem reachable_sessions_lack_messageCount (project : Project) (k : Nat)
    (h : Reachable project k) :
    (∀ session ∈ project.chatSessions.getD [], ∃ stored,
      session.messages = some stored ∧ stored.length % 2 = 0 ∧ 2 ≤ stored.length ∧
      stored.length ≤ 100 ∧ session.messageCount = none) ∧
    (∀ session ∈ (project.chatSessions.getD []).dropLast, ∃ stored,
      session.messages = some stored ∧ stored.length = 100) ∧
    storedMessages (project.chatSessions.getD []) = 2 * k ∧
    (project.chatSessions.getD []).length = (k + 49) / 50 ∧
    (∀ (henv : HandlerEnv) (message aiResponse : Str), ∃ project1,
      recordExchange henv project message aiResponse = .ok project1 ∧
      storedMessages (project1.chatSessions.getD []) =
        storedMessages (project.chatSessions.getD []) + 2 ∧
      (∀ session ∈ (castProject project1).chatSessions.getD [],
        session.messageCount = none)) ∧
    (∀ (henv : HandlerEnv) (message aiResponse : Str) (session : ChatSession),
      (appendExchange henv message aiResponse session).messageCount =
        some ((session.messages.getD []).length + 2) ∧
      (castSession (appendExchange henv message aiResponse session)).messageCount =
        none) := by
  have hinv := reachable_inv project k h
  have hcount := reachable_messageCount project k h
  have htotal := storedMessages_inv _ k hinv
  refine ⟨?_, ?_, htotal, ?_, ?_, ?_⟩
  · rcases hinv with ⟨hnil, -⟩ | ⟨full, ls, ms, hsplit, hfull, hms, heven, hge, hle, -⟩
    · rw [hnil]; simp
    · intro session hsession
      have hc := (hcount session hsession).1
      rw [hsplit] at hsession
      rcases List.mem_append.mp hsession with hin | hin
      · obtain ⟨stored, hs, hlen⟩ := hfull session hin
        exact ⟨stored, hs, by omega, by omega, by omega, hc⟩
      · simp only [List.mem_singleton] at hin
        subst hin
        exact ⟨ms, hms, heven, hge, hle, hc⟩
  · rcases hinv with ⟨hnil, -⟩ | ⟨full, ls, ms, hsplit, hfull, -, -, -, -, -⟩
    · rw [hnil]; simp
    · rw [hsplit, List.dropLast_concat]
      intro session hsession
      obtain ⟨stored, hs, hlen⟩ := hfull session hsession
      exact ⟨stored, hs, hlen⟩
  · rcases hinv with ⟨hnil, hk⟩ | ⟨full, ls, ms, hsplit, -, -, heven, hge, hle, hk⟩
    · rw [hnil, hk]; rfl
    · rw [hsplit]
      simp only [List.length_append, List.length_cons, List.length_nil]
      omega
  · intro henv message aiResponse
    obtain ⟨project1, hrec⟩ := recordExchange_progress henv project message aiResponse k hinv
    refine ⟨project1, hrec, ?_, fun session hsession =>
      (castProject_messageCount project1 session hsession).1⟩
    rw [htotal, storedMessages_inv _ (k + 1)
      (sessionsInv_step henv project project1 message aiResponse k hinv hrec)]
    omega
  · intro henv message aiResponse session
    exact ⟨appendExchange_messageCount henv message aiResponse session, rfl⟩

/-- C26 after one exchange ('Tell me about this project') on a project without sessions:
the store holds one session with two messages and without a `messageCount`. -/
theorem reachable_sessions_lack_messageCount_witness :
    storedMessages ((afterExchange { chatSessions := none }).chatSessions.getD []) = 2 ∧
    ((afterExchange { chatSessions := none }).chatSessions.getD []).length = 1 ∧
    (∀ session ∈ (afterExchange { chatSessions := none }).chatSessions.getD [],
      ∃ stored, session.messages = some stored ∧ stored.length % 2 = 0 ∧
        2 ≤ stored.length ∧ stored.length ≤ 100 ∧ session.messageCount = none) :=
  ⟨(reachable_sessions_lack_messageCount (afterExchange { chatSessions := none }) 1
      (Reachable.exchange asciiRuntime sampleHandlerEnv (storeWith { chatSessions := none })
        emptyMemory (requestWith (.str projectQuestion)) { chatSessions := none } _ 0
        (Reachable.start _ rfl) rfl rfl)).2.2.1,
   (reachable_sessions_lack_messageCount (afterExchange { chatSessions := none }) 1
      (Reachable.exchange asciiRuntime sampleHandlerEnv (storeWith { chatSessions := none })
        emptyMemory (requestWith (.str projectQuestion)) { chatSessions := none } _ 0
        (Reachable.start _ rfl) rfl rfl)).2.2.2.1,
   (reachable_sessions_lack_messageCount (afterExchange { chatSessions := none }) 1
      (Reachable.exchange asciiRuntime sampleHandlerEnv (storeWith { chatSessions := none })
        emptyMemory (requestWith (.str projectQuestion)) { chatSessions := none } _ 0
        (Reachable.start _ rfl) rfl rfl)).1⟩

/-! ## The history endpoint -/

theorem digit_not_whiteSpace (d : Nat) (h : d < 10) : isWhiteSpace (d + 48) = false := by
  interval_cases d <;> decide

theorem digitValue_digit (d : Nat) (h : d < 10) : digitValue (d + 48) = some d := by
  unfold digitValue
  rw [if_pos (by omega)]
  simp

theorem leadingDigits_digits (ds : List Nat) (h : ∀ d ∈ ds, d < 10) :
    leadingDigits 10 (ds.map (fun d => d + 48)) = ds := by
  induction ds with
  | nil => rfl
  | cons d rest ih =>
    have hd := h d (List.mem_cons_self _ _)
    simp only [List.map_cons, leadingDigits, digitValue_digit d hd, hd, if_true]
    rw [ih (fun e he => h e (List.mem_cons_of_mem _ he))]

theorem foldr_ofDigits (l : List Nat) :
    List.foldr (fun d acc => acc * 10 + d) 0 l = Nat.ofDigits 10 l := by
  induction l with
  | nil => rfl
  | cons d rest ih =>
    simp only [List.foldr_cons, ih, Nat.ofDigits_cons]
    ring

theorem foldl_ofDigits (ds : List Nat) :
    List.foldl (fun acc d => acc * 10 + d) 0 ds = Nat.ofDigits 10 ds.reverse := by
  rw [← foldr_ofDigits, List.foldr_reverse]

theorem parseInt_digits (ds : List Nat) (hne : ds ≠ []) (h : ∀ d ∈ ds, d < 10) :
    parseInt (ds.map (fun d => d + 48)) = some ((Nat.ofDigits 10 ds.reverse : Nat) : Int) := by
  cases ds with
  | nil => exact absurd rfl hne
  | cons d rest =>
    have hd := h d (List.mem_cons_self _ _)
    have hws := digit_not_whiteSpace d hd
    have hdrop : ((d :: rest).map (fun d => d + 48)).dropWhile isWhiteSpace =
        (d :: rest).map (fun d => d + 48) := by
      simp [List.dropWhile_cons, hws]
    have hhead : ((d :: rest).map (fun d => d + 48)).head? = some (d + 48) := rfl
    have h45 : ¬ (some (d + 48) = some 45) := by
      intro h45
      injection h45 with h45
      omega
    have h43 : ¬ (some (d + 48) = some 43) := by
      intro h43
      injection h43 with h43
      omega
    have hhex : ¬ (((d :: rest).map (fun d => d + 48)).take 2 = [48, 120] ∨
        ((d :: rest).map (fun d => d + 48)).take 2 = [48, 88]) := by
      cases rest with
      | nil => simp
      | cons e rest2 =>
        have he := h e (List.mem_cons_of_mem _ (List.mem_cons_self _ _))
        simp only [List.map_cons, List.take_succ_cons, List.take_zero, List.cons.injEq,
          and_true]
        omega
    unfold parseInt
    simp only [hdrop, hhead, h45, h43, or_self, if_false, hhex, decide_False,
      Bool.false_eq_true]
    rw [leadingDigits_digits (d :: rest) h, if_neg (by simp), foldl_ofDigits]

theorem parseInt_numeral (n : Nat) : parseInt (numeral n) = some (n : Int) := by
  unfold numeral
  split
  · rename_i h0
    subst h0
    decide
  · rename_i hn
    have hds : ∀ d ∈ (Nat.digits 10 n).reverse, d < 10 := by
      intro d hd
      exact Nat.digits_lt_base (by norm_num) (List.mem_reverse.mp hd)
    have hne : (Nat.digits 10 n).reverse ≠ [] := by
      simp [Nat.digits_eq_nil_iff_eq_zero, hn]
    rw [parseInt_digits _ hne hds, List.reverse_reverse, Nat.ofDigits_digits]

theorem sliceLimit_pos {α : Type} (k : Nat) (xs : List α) (hk : 1 ≤ k) :
    sliceLimit (some (k : Int)) xs = sliceLast (min k xs.length) xs := by
  unfold sliceLimit sliceFrom sliceLast
  simp only []
  rw [if_pos (by omega)]
  congr 1
  omega

theorem sliceLimit_zero {α : Type} (xs : List α) : sliceLimit (some 0) xs = xs := by
  simp [sliceLimit, sliceFrom]

theorem historyMessages_target (sessionId : ChatSession → Str) (project : Project)
    (req : HistoryRequest) (sessions : List ChatSession) (target : ChatSession)
    (stored : List ChatMessage) (hs : project.chatSessions = some sessions)
    (ht : targetSession sessionId sessions req = some target)
    (hm : target.messages = some stored) :
    historyMessages sessionId project req = sliceLimit (parsedLimit req) stored := by
  have hpos : sessions.length > 0 := by
    cases sessions with
    | nil =>
      unfold targetSession at ht
      split at ht <;> simp at ht
    | cons s rest => simp
  unfold historyMessages
  simp only [hs, hpos, if_true, ht, hm]

/-- C27: when the history endpoint finds the project and the target session holds `n`
messages, it returns for every integer limit of at least 1, written as a decimal numeral
(or any text `parseInt` reads as that integer), exactly the last `min(limit, n)` messages
in their order; without a limit it uses 50; without a session the target is the latest
session; and for the limit 0 it returns all `n` messages. -/
theorem history_limit (store : Store) (sessionId : ChatSession → Str) (req : HistoryRequest)
    (project : Project) (sessions : List ChatSession) (target : ChatSession)
    (stored : List ChatMessage)
    (hfound : store.findOne req.projectId req.userId = .ok (some project))
    (hs : project.chatSessions = some sessions)
    (ht : targetSession sessionId sessions req = some target)
    (hm : target.messages = some stored) :
    (∀ n : Nat, 1 ≤ n → req.limit = some (numeral n) →
      (historyGet store sessionId req).messages = sliceLast (min n stored.length) stored ∧
      (historyGet store sessionId req).messages.length = min n stored.length ∧
      (historyGet store sessionId req).limit = some (n : Int)) ∧
    (∀ (limit : Str) (n : Nat), 1 ≤ n → req.limit = some limit →
      parseInt limit = some (n : Int) →
      (historyGet store sessionId req).messages = sliceLast (min n stored.length) stored) ∧
    (req.limit = none →
      (historyGet store sessionId req).messages = sliceLast (min 50 stored.length) stored) ∧
    (req.limit = some (numeral 0) → (historyGet store sessionId req).messages = stored) ∧
    (req.session = none → sessions.getLast? = some target) ∧
    (historyGet store sessionId req).success = true := by
  have hmsg : (historyGet store sessionId req).messages =
      sliceLimit (parsedLimit req) stored := by
    unfold historyGet
    simp only [hfound]
    exact historyMessages_target sessionId project req sessions target stored hs ht hm
  have hlim : (historyGet store sessionId req).limit = parsedLimit req := by
    unfold historyGet
    simp only [hfound]
  have hparsed : ∀ (limit : Str) (n : Nat), 1 ≤ n → req.limit = some limit →
      parseInt limit = some (n : Int) →
      (historyGet store sessionId req).messages = sliceLast (min n stored.length) stored := by
    intro limit n hn hl hp
    rw [hmsg]
    unfold parsedLimit
    rw [hl]
    simp only [hp]
    exact sliceLimit_pos n stored hn
  refine ⟨?_, hparsed, ?_, ?_, ?_, ?_⟩
  · intro n hn hl
    have h1 := hparsed (numeral n) n hn hl (parseInt_numeral n)
    refine ⟨h1, ?_, ?_⟩
    · rw [h1, length_sliceLast]
      omega
    · rw [hlim]
      unfold parsedLimit
      rw [hl]
      exact parseInt_numeral n
  · intro hl
    rw [hmsg]
    unfold parsedLimit
    rw [hl]
    exact sliceLimit_pos 50 stored (by norm_num)
  · intro hl
    rw [hmsg]
    unfold parsedLimit
    rw [hl]
    simp only [parseInt_numeral 0]
    exact sliceLimit_zero stored
  · intro hsession
    unfold targetSession at ht
    rw [hsession] at ht
    simpa using ht
  · unfold historyGet
    simp only [hfound]

/-- C27 on a session of seven messages: the limit 3 returns the last three, the limit 0
all seven. -/
theorem history_limit_witness :
    (historyGet (storeWith sevenProject) titleAsId
      (historyRequest (some (numeral 3)))).messages.length = 3 ∧
    (historyGet (storeWith sevenProject) titleAsId
      (historyRequest (some (numeral 0)))).messages.length = 7 :=
  ⟨by
    have h := (history_limit (storeWith sevenProject) titleAsId
      (historyRequest (some (numeral 3))) sevenProject [sessionOf 7] (sessionOf 7)
      (List.replicate 7 olderMessage) rfl rfl rfl rfl).1 3 (by norm_num) rfl
    rw [h.2.1]
    rfl,
   by
    have h := (history_limit (storeWith sevenProject) titleAsId
      (historyRequest (some (numeral 0))) sevenProject [sessionOf 7] (sessionOf 7)
      (List.replicate 7 olderMessage) rfl rfl rfl rfl).2.2.2.1 rfl
    rw [h]
    rfl⟩

/-! ## The upload filter -/

/-- C28: a text file with MIME type `text/plain` and a Word document with MIME type
`application/msword` are rejected, whatever their names, because the MIME type is tested
against the pattern of the extensions; a PDF is accepted. Every file is either accepted or
rejected with 'Only images, PDFs, and text documents are allowed'. -/
theorem text_documents_rejected (rt : Runtime) (extname : Str → Str) :
    fileFilter rt extname notesTxt = .reject notAllowedText ∧
    fileFilter rt extname reportDoc = .reject notAllowedText ∧
    allowedTypes.test (lit "text/plain") = false ∧
    allowedTypes.test (lit "application/msword") = false ∧
    fileFilter asciiRuntime plainExtname paperPdf = .accept ∧
    (∀ file : UploadFile, fileFilter rt extname file = .accept ∨
      fileFilter rt extname file = .reject notAllowedText) := by
  have h1 : allowedTypes.test (lit "text/plain") = false := by decide
  have h2 : allowedTypes.test (lit "application/msword") = false := by decide
  refine ⟨?_, ?_, h1, h2, by decide, ?_⟩
  · have : allowedTypes.test notesTxt.mimetype = false := h1
    simp [fileFilter, this]
  · have : allowedTypes.test reportDoc.mimetype = false := h2
    simp [fileFilter, this]
  · intro file
    unfold fileFilter
    simp only []
    split
    · exact Or.inl rfl
    · exact Or.inr rfl

/-! ## The registration validation -/
/-! ## The email pattern -/

theorem mem_foldr_append {α β : Type} (f : α → List β) (l : List α) (x : β) :
    x ∈ l.foldr (fun a acc => f a ++ acc) [] ↔ ∃ a ∈ l, x ∈ f a := by
  induction l with
  | nil => simp
  | cons a rest ih =>
    simp only [List.foldr_cons, List.mem_append, ih, List.mem_cons, exists_eq_or_imp]

theorem mem_seq_ends (a b : Rx) (st0 st : MState) :
    st ∈ (Rx.seq a b).ends st0 ↔ ∃ st1 ∈ a.ends st0, st ∈ b.ends st1 := by
  have h : (Rx.seq a b).ends st0 =
      (a.ends st0).foldr (fun st1 acc => b.ends st1 ++ acc) [] := by
    simp only [Rx.ends]
  rw [h]
  exact mem_foldr_append _ _ _

theorem mem_runs (p : Nat → Bool) (s : Str) :
    ∀ st : MState, st ∈ Rx.runs p s ↔
      ∃ pre post, pre ≠ [] ∧ s = pre ++ post ∧ (∀ u ∈ pre, p u = true) ∧
        st = (pre.getLast?, post) := by
  induction s with
  | nil =>
    intro st
    simp only [Rx.runs, List.not_mem_nil, false_iff]
    rintro ⟨pre, post, hne, hs, -, -⟩
    cases pre with
    | nil => exact hne rfl
    | cons v pre2 => simp at hs
  | cons u rest ih =>
    intro st
    unfold Rx.runs
    by_cases hp : p u = true
    · simp only [hp, if_true, List.mem_cons]
      constructor
      · rintro (h | h)
        · exact ⟨[u], rest, by simp, rfl, by simpa using hp, by simpa using h⟩
        · obtain ⟨pre, post, hne, hs, hall, hst⟩ := (ih st).mp h
          refine ⟨u :: pre, post, by simp, by simp [hs], ?_, ?_⟩
          · intro v hv
            rcases List.mem_cons.mp hv with hv | hv
            · rw [hv]; exact hp
            · exact hall v hv
          · rw [hst]
            cases pre with
            | nil => exact absurd rfl hne
            | cons w pre2 => simp [List.getLast?_cons_cons]
      · rintro ⟨pre, post, hne, hs, hall, hst⟩
        cases pre with
        | nil => exact absurd rfl hne
        | cons v pre2 =>
          simp only [List.cons_append, List.cons.injEq] at hs
          obtain ⟨hv, hrest⟩ := hs
          subst hv
          cases pre2 with
          | nil =>
            left
            simp only [List.nil_append] at hrest
            rw [hst, hrest]
            rfl
          | cons w pre3 =>
            right
            refine (ih st).mpr ⟨w :: pre3, post, by simp, hrest, ?_, ?_⟩
            · intro x hx
              exact hall x (List.mem_cons_of_mem _ hx)
            · rw [hst]
              simp [List.getLast?_cons_cons]
    · simp only [hp, if_false, Bool.false_eq_true, List.not_mem_nil, false_iff]
      rintro ⟨pre, post, hne, hs, hall, -⟩
      cases pre with
      | nil => exact hne rfl
      | cons v pre2 =>
        simp only [List.cons_append, List.cons.injEq] at hs
        have := hall v (List.mem_cons_self _ _)
        rw [← hs.1] at this
        exact hp this

theorem ne_nil_iff_exists_mem {α : Type} (l : List α) : l ≠ [] ↔ ∃ x, x ∈ l := by
  cases l with
  | nil => simp
  | cons a rest => simp

theorem unit_seq_ne_nil (c : Nat) (b : Rx) (prev : Option Nat) (s : Str) :
    (Rx.seq (.unit c) b).ends (prev, s) ≠ [] ↔
      ∃ rest, s = c :: rest ∧ b.ends (some c, rest) ≠ [] := by
  rw [ne_nil_iff_exists_mem]
  simp only [mem_seq_ends]
  cases s with
  | nil => simp [Rx.ends]
  | cons u rest =>
    by_cases hu : u = c
    · subst hu
      simp [Rx.ends, ne_nil_iff_exists_mem]
    · have hne : ¬ (c = u) := fun h => hu h.symm
      simp [Rx.ends, hu, hne]

theorem someOf_seq_ne_nil (p : Nat → Bool) (b : Rx) (prev : Option Nat) (s : Str) :
    (Rx.seq (.someOf p) b).ends (prev, s) ≠ [] ↔
      ∃ pre post, pre ≠ [] ∧ s = pre ++ post ∧ (∀ u ∈ pre, p u = true) ∧
        b.ends (pre.getLast?, post) ≠ [] := by
  rw [ne_nil_iff_exists_mem]
  simp only [mem_seq_ends]
  constructor
  · rintro ⟨st, st1, hst1, hst⟩
    have hruns : st1 ∈ Rx.runs p s := by simpa [Rx.ends] using hst1
    obtain ⟨pre, post, hne, hs, hall, heq⟩ := (mem_runs p s st1).mp hruns
    refine ⟨pre, post, hne, hs, hall, ?_⟩
    rw [← heq]
    exact (ne_nil_iff_exists_mem _).mpr ⟨st, hst⟩
  · rintro ⟨pre, post, hne, hs, hall, hb⟩
    obtain ⟨st, hst⟩ := (ne_nil_iff_exists_mem _).mp hb
    refine ⟨st, (pre.getLast?, post), ?_, hst⟩
    have : (pre.getLast?, post) ∈ Rx.runs p s :=
      (mem_runs p s _).mpr ⟨pre, post, hne, hs, hall, rfl⟩
    simpa [Rx.ends] using this

theorem someOf_finish_ne_nil (p : Nat → Bool) (prev : Option Nat) (s : Str) :
    (Rx.seq (.someOf p) .finish).ends (prev, s) ≠ [] ↔ s ≠ [] ∧ ∀ u ∈ s, p u = true := by
  rw [someOf_seq_ne_nil]
  constructor
  · rintro ⟨pre, post, hne, hs, hall, hfin⟩
    have hpost : post = [] := by
      by_contra hc
      apply hfin
      cases post with
      | nil => exact absurd rfl hc
      | cons v post2 => simp [Rx.ends]
    subst hpost
    simp only [List.append_nil] at hs
    subst hs
    exact ⟨hne, hall⟩
  · rintro ⟨hne, hall⟩
    exact ⟨s, [], hne, by simp, hall, by simp [Rx.ends]⟩

theorem start_seq_ne_nil (b : Rx) (prev : Option Nat) (s : Str) :
    (Rx.seq .start b).ends (prev, s) ≠ [] ↔ prev = none ∧ b.ends (none, s) ≠ [] := by
  rw [ne_nil_iff_exists_mem]
  simp only [mem_seq_ends]
  cases prev with
  | none => simp [Rx.ends, ne_nil_iff_exists_mem]
  | some v => simp [Rx.ends]

theorem emailRegex_ends (prev : Option Nat) (s : Str) :
    emailRegex.ends (prev, s) ≠ [] ↔ prev = none ∧ EmailShape s := by
  unfold emailRegex
  rw [start_seq_ne_nil, someOf_seq_ne_nil]
  constructor
  · rintro ⟨hprev, localPart, post, hL, hs, hLall, hrest⟩
    rw [unit_seq_ne_nil] at hrest
    obtain ⟨domain, hpost, hrest⟩ := hrest
    rw [someOf_seq_ne_nil] at hrest
    obtain ⟨label, post2, hA, hdomain, hAall, hrest⟩ := hrest
    rw [unit_seq_ne_nil] at hrest
    obtain ⟨rest, hpost2, hrest⟩ := hrest
    rw [someOf_finish_ne_nil] at hrest
    refine ⟨hprev, localPart, label, rest, hL, hA, hrest.1, hLall, hAall, hrest.2, ?_⟩
    rw [hs, hpost, hdomain, hpost2]
  · rintro ⟨hprev, localPart, label, rest, hL, hA, hB, hLall, hAall, hBall, hs⟩
    refine ⟨hprev, localPart, 64 :: (label ++ 46 :: rest), hL, hs, hLall, ?_⟩
    rw [unit_seq_ne_nil]
    refine ⟨label ++ 46 :: rest, rfl, ?_⟩
    rw [someOf_seq_ne_nil]
    refine ⟨label, 46 :: rest, hA, rfl, hAall, ?_⟩
    rw [unit_seq_ne_nil]
    refine ⟨rest, rfl, ?_⟩
    rw [someOf_finish_ne_nil]
    exact ⟨hB, hBall⟩

theorem emailRegex_testFrom_some (v : Nat) (s : Str) :
    emailRegex.testFrom (some v) s = false := by
  induction s generalizing v with
  | nil =>
    unfold Rx.testFrom
    have h : ¬ (emailRegex.ends (some v, []) ≠ []) := by
      rw [emailRegex_ends]
      simp
    simpa using h
  | cons u rest ih =>
    unfold Rx.testFrom
    have h : ¬ (emailRegex.ends (some v, u :: rest) ≠ []) := by
      rw [emailRegex_ends]
      simp
    rw [ih u]
    simpa using h

theorem isValidEmail_shape (email : Str) : isValidEmail email = true ↔ EmailShape email := by
  unfold isValidEmail Rx.test
  have key : ∀ s : Str, (!(emailRegex.ends (none, s)).isEmpty) = true ↔ EmailShape s := by
    intro s
    have h := emailRegex_ends none s
    simp only [true_and] at h
    rw [← h]
    simp [List.isEmpty_iff]
  cases email with
  | nil =>
    unfold Rx.testFrom
    exact key []
  | cons u rest =>
    unfold Rx.testFrom
    rw [emailRegex_testFrom_some, Bool.or_false]
    exact key (u :: rest)

theorem notSpaceOrAt_iff (u : Nat) :
    notSpaceOrAt u = true ↔ isWhiteSpace u = false ∧ u ≠ 64 := by
  simp [notSpaceOrAt]

theorem emailShape_spec (s : Str) : EmailShape s → SpecValidEmail s := by
  rintro ⟨L, A, B, hL, hA, hB, hLall, hAall, hBall, hs⟩
  have hL2 : ∀ u ∈ L, isWhiteSpace u = false ∧ u ≠ 64 :=
    fun u hu => (notSpaceOrAt_iff u).1 (hLall u hu)
  have hA2 : ∀ u ∈ A, isWhiteSpace u = false ∧ u ≠ 64 :=
    fun u hu => (notSpaceOrAt_iff u).1 (hAall u hu)
  have hB2 : ∀ u ∈ B, isWhiteSpace u = false ∧ u ≠ 64 :=
    fun u hu => (notSpaceOrAt_iff u).1 (hBall u hu)
  have cL : L.count 64 = 0 := List.count_eq_zero.2 (fun h => (hL2 64 h).2 rfl)
  have cA : A.count 64 = 0 := List.count_eq_zero.2 (fun h => (hA2 64 h).2 rfl)
  have cB : B.count 64 = 0 := List.count_eq_zero.2 (fun h => (hB2 64 h).2 rfl)
  refine ⟨?_, ?_, L, A ++ 46 :: B, hs, hL, A.length, ?_, ?_, ?_⟩
  · intro u hu
    rw [hs] at hu
    simp only [List.mem_append, List.mem_cons] at hu
    rcases hu with h | h | h | h | h
    · exact (hL2 u h).1
    · subst h; decide
    · exact (hA2 u h).1
    · subst h; decide
    · exact (hB2 u h).1
  · rw [hs]
    simp [List.count_append, List.count_cons, cL, cA, cB]
  · exact List.length_pos.2 hA
  · have := List.length_pos.2 hB
    simp only [List.length_append, List.length_cons]
    omega
  · rw [List.getElem?_append_right (Nat.le_refl _)]
    simp

theorem spec_emailShape (s : Str) : SpecValidEmail s → EmailShape s := by
  rintro ⟨hws, hcount, L, D, hs, hL, i, hi0, hi1, hi⟩
  have hc : L.count 64 + D.count 64 = 0 := by
    rw [hs] at hcount
    simp only [List.count_append, List.count_cons, beq_self_eq_true, if_true] at hcount
    omega
  have cL : 64 ∉ L := List.count_eq_zero.1 (by omega)
  have cD : 64 ∉ D := List.count_eq_zero.1 (by omega)
  have hilt : i < D.length := by omega
  have hget : D[i] = 46 := by
    rw [List.getElem?_eq_getElem hilt] at hi
    exact Option.some.inj hi
  have hD : D = D.take i ++ 46 :: D.drop (i + 1) := by
    have h1 : D.drop i = D[i] :: D.drop (i + 1) := List.drop_eq_getElem_cons hilt
    rw [← hget, ← h1, List.take_append_drop]
  have hmemL : ∀ u ∈ L, u ∈ s := by
    intro u hu
    rw [hs]
    exact List.mem_append_left _ hu
  have hmemD : ∀ u ∈ D, u ∈ s := by
    intro u hu
    rw [hs]
    exact List.mem_append_right _ (List.mem_cons_of_mem _ hu)
  refine ⟨L, D.take i, D.drop (i + 1), hL, ?_, ?_, ?_, ?_, ?_, ?_⟩
  · intro h
    have := congrArg List.length h
    simp only [List.length_take, List.length_nil] at this
    omega
  · intro h
    have := congrArg List.length h
    simp only [List.length_drop, List.length_nil] at this
    omega
  · intro u hu
    exact (notSpaceOrAt_iff u).2 ⟨hws u (hmemL u hu), fun h => cL (h ▸ hu)⟩
  · intro u hu
    have hu2 : u ∈ D := List.mem_of_mem_take hu
    exact (notSpaceOrAt_iff u).2 ⟨hws u (hmemD u hu2), fun h => cD (h ▸ hu2)⟩
  · intro u hu
    have hu2 : u ∈ D := List.mem_of_mem_drop hu
    exact (notSpaceOrAt_iff u).2 ⟨hws u (hmemD u hu2), fun h => cD (h ▸ hu2)⟩
  · rw [← hD]
    exact hs

theorem isValidEmail_spec (email : Str) : isValidEmail email = true ↔ SpecValidEmail email :=
  (isValidEmail_shape email).trans ⟨emailShape_spec email, spec_emailShape email⟩

theorem isValidEmail_ann : isValidEmail (lit "ann@example.com") = true := by decide

theorem number_truthy : JsValue.falsy (.number 12345) = false := by
  simp [JsValue.falsy]

theorem validate_next_iff (body : RegisterBody) :
    validateRegisterInput body = .next ↔
      body.name.falsy = false ∧ body.email.falsy = false ∧ body.password.falsy = false ∧
      lengthBelowSix body.password = false ∧ isValidEmailValue body.email = true := by
  unfold validateRegisterInput
  by_cases h1 : (body.name.falsy || body.email.falsy || body.password.falsy) = true
  · rw [if_pos h1]
    simp only [Bool.or_eq_true] at h1
    constructor
    · intro h; cases h
    · rintro ⟨a, b, c, _⟩
      rw [a, b, c] at h1
      simp at h1
  · rw [if_neg h1]
    simp only [Bool.or_eq_true, not_or, Bool.not_eq_true] at h1
    by_cases h2 : lengthBelowSix body.password = true
    · rw [if_pos h2]
      constructor
      · intro h; cases h
      · rintro ⟨_, _, _, d, _⟩
        rw [d] at h2
        cases h2
    · rw [if_neg h2]
      simp only [Bool.not_eq_true] at h2
      by_cases h3 : isValidEmailValue body.email = true
      · simp [h3, h1.1.1, h1.1.2, h1.2, h2]
      · simp only [Bool.not_eq_true] at h3
        simp [h3]

/-- C29: a registration whose password is the number 12345 is let through, although
the password is no string of at least six characters: a number has no `length`, so the
test `password.length < 6` is false for it, and nothing tests that the password is a
string. The rest of the claim holds: `isValidEmail` is true exactly for the strings
without white space, with exactly one '@', a non-empty part before it, and after it a
part with a '.' that is neither its first nor its last code unit; and when name, email
and password are strings, `validateRegisterInput` calls `next` exactly when the three are
non-empty, the password has at least 6 code units and the email is valid. -/
theorem numeric_password_passes :
    validateRegisterInput numericPasswordBody = .next ∧
    ¬ HasSixCharacters numericPasswordBody.password ∧
    (∀ email : Str, isValidEmail email = true ↔ SpecValidEmail email) ∧
    (∀ name email password : Str,
      validateRegisterInput { name := .str name, email := .str email,
                              password := .str password } = .next ↔
        name ≠ [] ∧ email ≠ [] ∧ password ≠ [] ∧ 6 ≤ password.length ∧
          SpecValidEmail email) := by
  refine ⟨?_, ?_, isValidEmail_spec, ?_⟩
  · rw [validate_next_iff]
    refine ⟨by rfl, by rfl, number_truthy, by rfl, isValidEmail_ann⟩
  · rintro ⟨s, hs, _⟩
    cases hs
  · intro name email password
    rw [validate_next_iff, ← isValidEmail_spec]
    simp only [JsValue.falsy, lengthBelowSix, isValidEmailValue, List.isEmpty_eq_false,
      decide_eq_false_iff_not, Nat.not_lt]

end ChatEngine
